import Mathlib

/-!
# audit-a11y: the rule engine of `main.go`

A shallow embedding of the accessibility rules of `src/main.go` and the
properties of its specification.

## Modelling conventions

* `Ptr` is a Go `*html.Node`: either `nil` or a reference to a `Node`.
  `Node` carries the fields the rules read going downwards: `Type`, `Data`,
  `Attr`, `FirstChild` and `NextSibling`.  A `for child := node.FirstChild;
  child != nil; child = child.NextSibling` loop is a function on `Ptr` named
  `..._loop`, mutually recursive with the function it calls on every child.
* The upward fields are not stored (the value would be cyclic).  A rule that
  reads `node.Parent` takes the parent pointer as an argument, every loop over
  children passing the node it iterates under; `PrevSibling` is threaded by the
  one loop that reads it, and `getLine`, which walks both, takes the path from
  the node to the root.
* A Go run-time panic (nil dereference, index out of range) is the result
  `none` of a function returning `Option`.  Functions that dereference nothing
  but their non-nil receiver and index no string are total and return plainly.
* `map[string]int` is an association list with distinct keys; reading `m[k]` is
  `Issues.count` (0 for an absent key).  `Issues.incr` is `m[k]++` on the
  unbounded count, the starting count plus the number of recordings, and the
  rules above the 64-bit section use it.  Go stores a 64-bit `int`, and `++`
  wraps: `Issues.incr64` is `m[k]++` on the stored value, and the rules are
  given once more on the stored values (`checkLabel64`, ..., `runRule64`).  The
  rules never read a count, so the stored counts are the unbounded counts
  wrapped (`runRule64_int64`); from the empty map of `main` every count is at
  most the number of nodes visited and the two agree.
* Go strings are byte strings.  The two places that index bytes compare with
  ASCII bytes only, and in UTF-8 an ASCII byte occurs only as the encoding of
  that ASCII character, so indexing bytes and indexing characters agree there
  (see `headingTag` and `hasAriaAttribute`).
-/

namespace AuditA11y

/-! ## Tree model (`golang.org/x/net/html`) -/

/-- The `html.NodeType` enumeration. -/
inductive NodeType where
  | ErrorNode
  | TextNode
  | DocumentNode
  | ElementNode
  | CommentNode
  | DoctypeNode
  | RawNode
  deriving DecidableEq, Repr

/-- The `html.Attribute` struct. -/
structure Attribute where
  Namespace : String
  Key : String
  Val : String
  deriving DecidableEq, Repr

mutual
/-- The `html.Node` struct, downward fields. -/
inductive Node where
  | mk (Typ : NodeType) (Data : String) (Attr : List Attribute)
      (FirstChild : Ptr) (NextSibling : Ptr)
/-- A `*html.Node`. -/
inductive Ptr where
  | nil
  | ref (node : Node)
end

/-- Field `Type` of a node. -/
def Node.Typ : Node → NodeType
  | .mk ty _ _ _ _ => ty

/-- Field `Data` of a node. -/
def Node.Data : Node → String
  | .mk _ d _ _ _ => d

/-- Field `Attr` of a node. -/
def Node.Attr : Node → List Attribute
  | .mk _ _ attrs _ _ => attrs

/-- Field `FirstChild` of a node. -/
def Node.FirstChild : Node → Ptr
  | .mk _ _ _ fc _ => fc

/-- Field `NextSibling` of a node. -/
def Node.NextSibling : Node → Ptr
  | .mk _ _ _ _ ns => ns

/-- The nodes reached from a pointer by following `NextSibling`. -/
def Ptr.chain : Ptr → List Node
  | .nil => []
  | .ref (.mk ty d attrs fc ns) => .mk ty d attrs fc ns :: Ptr.chain ns

/-- The direct children of a node, in document order. -/
def Node.children (node : Node) : List Node :=
  node.FirstChild.chain

/-! ## Issue aggregator (`map[string]int`) -/

/-- The issue map: message to count. -/
abbrev Issues := List (String × Int)

/-- Reading `issues[msg]`: the stored count, 0 when the key is absent. -/
def Issues.count : Issues → String → Int
  | [], _ => 0
  | (k, v) :: rest, msg => if k = msg then v else Issues.count rest msg

/-- The statement `issues[msg]++` on unbounded counts: the count kept is the
starting count plus the number of recordings.  `Issues.incr64` is the same
statement on Go's 64-bit `int`, whose stored value is the count kept here,
wrapped (`Issues.int64_incr`). -/
def Issues.incr : Issues → String → Issues
  | [], msg => [(msg, 1)]
  | (k, v) :: rest, msg =>
    if k = msg then (k, v + 1) :: rest else (k, v) :: Issues.incr rest msg

/-! ## Predicates -/

/-- Go `hasAltAttribute`. -/
def hasAltAttribute (node : Node) : Bool :=
  node.Attr.any (fun attr => attr.Key = "alt")

/-- Go `hasHrefAttribute`. -/
def hasHrefAttribute (node : Node) : Bool :=
  node.Attr.any (fun a => a.Key = "href")

/-- Go `hasAriaAttribute` (its parameter `attribute` is `attrName` here):
`strings.HasPrefix(attr.Key, "aria-") && attr.Key[5:] == attribute`.  The five
bytes of the prefix are ASCII, so the byte slice `Key[5:]` is the key without
its first five characters. -/
def hasAriaAttribute (node : Node) (attrName : String) : Bool :=
  node.Attr.any (fun attr =>
    "aria-".data.isPrefixOf attr.Key.data && String.mk (attr.Key.data.drop 5) = attrName)

/-- Go `hasButtonRole`. -/
def hasButtonRole (node : Node) : Bool :=
  node.Attr.any (fun attr => attr.Key = "role" ∧ attr.Val = "button")

/-- The loop of Go `hasFormValidation` over `node.Attr`. -/
def hasFormValidation_attrs : List Attribute → Bool
  | [] => false
  | attr :: rest =>
    if attr.Key = "novalidate" then false
    else if attr.Key = "validate" then true
    else hasFormValidation_attrs rest

/-- Go `hasFormValidation`. -/
def hasFormValidation (node : Node) : Bool :=
  hasFormValidation_attrs node.Attr

mutual
/-- Go `hasCaption`. -/
def hasCaption : Node → Bool
  | .mk ty d _ fc _ =>
    if ty = .ElementNode ∧ d = "caption" then true else hasCaption_loop fc
/-- The loop of `hasCaption` over the children. -/
def hasCaption_loop : Ptr → Bool
  | .nil => false
  | .ref (.mk ty d attrs fc ns) =>
    if hasCaption (.mk ty d attrs fc ns) then true else hasCaption_loop ns
end

mutual
/-- Go `hasLabel`. -/
def hasLabel : Node → Bool
  | .mk _ d _ fc _ =>
    if d = "label" then true else hasLabel_loop fc
/-- The loop of `hasLabel` over the children. -/
def hasLabel_loop : Ptr → Bool
  | .nil => false
  | .ref (.mk ty d attrs fc ns) =>
    if hasLabel (.mk ty d attrs fc ns) then true else hasLabel_loop ns
end

mutual
/-- Go `hasInputType`. -/
def hasInputType : Node → String → Bool
  | .mk _ d attrs fc _, inputType =>
    if d = "input" ∧ attrs.any (fun attr => attr.Key = "type" ∧ attr.Val = inputType) then true
    else hasInputType_loop fc inputType
/-- The loop of `hasInputType` over the children. -/
def hasInputType_loop : Ptr → String → Bool
  | .nil, _ => false
  | .ref (.mk ty d attrs fc ns), inputType =>
    if hasInputType (.mk ty d attrs fc ns) inputType then true
    else hasInputType_loop ns inputType
end

mutual
/-- Go `hasTableHeader`, on a non-nil node. -/
def hasTableHeader : Node → Bool
  | .mk _ d _ fc _ =>
    if d = "th" then true else hasTableHeader_loop fc
/-- The loop of `hasTableHeader` over the children. -/
def hasTableHeader_loop : Ptr → Bool
  | .nil => false
  | .ref (.mk ty d attrs fc ns) =>
    if hasTableHeader (.mk ty d attrs fc ns) then true else hasTableHeader_loop ns
end

mutual
/-- Go `hasTableScope`. -/
def hasTableScope : Node → String → Bool
  | .mk _ d attrs fc _, scope =>
    if d = "th" ∧ attrs.any (fun attr => attr.Key = "scope" ∧ attr.Val = scope) then true
    else hasTableScope_loop fc scope
/-- The loop of `hasTableScope` over the children. -/
def hasTableScope_loop : Ptr → String → Bool
  | .nil, _ => false
  | .ref (.mk ty d attrs fc ns), scope =>
    if hasTableScope (.mk ty d attrs fc ns) scope then true
    else hasTableScope_loop ns scope
end

mutual
/-- Go `hasList`, on a non-nil node. -/
def hasList : Node → Bool
  | .mk _ d _ fc _ =>
    if d = "ul" ∨ d = "ol" then true else hasList_loop fc
/-- The loop of `hasList` over the children. -/
def hasList_loop : Ptr → Bool
  | .nil => false
  | .ref (.mk ty d attrs fc ns) =>
    if hasList (.mk ty d attrs fc ns) then true else hasList_loop ns
end

mutual
/-- Go `hasListItem`. -/
def hasListItem : Node → Bool
  | .mk _ d _ fc _ =>
    if d = "li" then true else hasListItem_loop fc
/-- The loop of `hasListItem` over the children. -/
def hasListItem_loop : Ptr → Bool
  | .nil => false
  | .ref (.mk ty d attrs fc ns) =>
    if hasListItem (.mk ty d attrs fc ns) then true else hasListItem_loop ns
end

mutual
/-- Go `hasTitle` below its nil test, on a non-nil node. -/
def hasTitle_node : Node → Bool
  | .mk ty d _ fc _ =>
    if ty = .ElementNode ∧ d = "title" then true else hasTitle_loop fc
/-- The loop of `hasTitle` over the children. -/
def hasTitle_loop : Ptr → Bool
  | .nil => false
  | .ref (.mk ty d attrs fc ns) =>
    if hasTitle_node (.mk ty d attrs fc ns) then true else hasTitle_loop ns
end

/-- Go `hasTitle`: `false` on the nil pointer. -/
def hasTitle : Ptr → Bool
  | .nil => false
  | .ref node => hasTitle_node node

/-- The test `node.Data[0] == 'h' && node.Data[1] >= '1' && node.Data[1] <= '6'`
of Go `hasHeading`, left to right: `none` is the index-out-of-range panic.
`Data[0]` panics on the empty string; `Data[1]` is evaluated only when
`Data[0]` is the byte `h`, and panics when the string has no second byte. -/
def headingTag (data : String) : Option Bool :=
  match data.data with
  | [] => none
  | c0 :: rest =>
    if c0 = 'h' then
      match rest with
      | [] => none
      | c1 :: _ => some (decide ('1' ≤ c1) && decide (c1 ≤ '6'))
    else some false

mutual
/-- Go `hasHeading`; `none` when the run panics. -/
def hasHeading : Node → Option Bool
  | .mk ty d _ fc _ =>
    match (if ty = .ElementNode then headingTag d else some false) with
    | none => none
    | some true => some true
    | some false => hasHeading_loop fc
/-- The loop of `hasHeading` over the children. -/
def hasHeading_loop : Ptr → Option Bool
  | .nil => some false
  | .ref (.mk ty d attrs fc ns) =>
    match hasHeading (.mk ty d attrs fc ns) with
    | none => none
    | some true => some true
    | some false => hasHeading_loop ns
end

/-! ## Location heuristic -/

/-- The loop of Go `getLine` over `node.Attr`: the first `line` attribute,
rendered as `fmt.Sprintf("%s:%s", node.Data, attr.Val)`. -/
def getLine_attrs (data : String) : List Attribute → Option String
  | [] => none
  | attr :: rest =>
    if attr.Key = "line" then some (data ++ ":" ++ attr.Val) else getLine_attrs data rest

/-- Go `getLine` along one `PrevSibling` chain: the list is the node followed
by its previous siblings, nearest first, and `[]` is the nil pointer.  All
nodes of the chain have the same parent; `parentLine` is `none` when that
parent is nil and `some (getLine parent)` otherwise. -/
def getLine_chain (parentLine : Option String) : List Node → String
  | [] => ""
  | node :: prevs =>
    if node.Typ = .ElementNode ∨ node.Typ = .CommentNode then
      match parentLine with
      | some line =>
        if line ≠ "" then line
        else
          match getLine_attrs node.Data node.Attr with
          | some s => s
          | none => getLine_chain parentLine prevs
      | none =>
        match getLine_attrs node.Data node.Attr with
        | some s => s
        | none => getLine_chain parentLine prevs
    else getLine_chain parentLine prevs

/-- Go `getLine`.  The argument is the path from the node to the root: the
node with its previous siblings (nearest first), then its parent with the
parent's previous siblings, and so on; `[]` is the nil pointer. -/
def getLine : List (Node × List Node) → String
  | [] => ""
  | (node, prevs) :: up =>
    getLine_chain (match up with
      | [] => none
      | _ :: _ => some (getLine up)) (node :: prevs)

/-! ## Rules -/

mutual
/-- Go `checkLabel`. -/
def checkLabel : Node → Issues → Issues
  | .mk ty d attrs fc ns, issues =>
    checkLabel_loop fc
      (if ty = .ElementNode ∧ (d = "input" ∨ d = "select" ∨ d = "textarea")
          ∧ ¬ hasLabel (.mk ty d attrs fc ns)
        then issues.incr (d ++ " element without a corresponding label element.")
        else issues)
/-- The loop of `checkLabel` over the children. -/
def checkLabel_loop : Ptr → Issues → Issues
  | .nil, issues => issues
  | .ref (.mk ty d attrs fc ns), issues =>
    checkLabel_loop ns (checkLabel (.mk ty d attrs fc ns) issues)
end

mutual
/-- Go `checkAltAttribute`. -/
def checkAltAttribute : Node → Issues → Issues
  | .mk ty d attrs fc ns, issues =>
    checkAltAttribute_loop fc
      (if ty = .ElementNode ∧ d = "img" ∧ ¬ hasAltAttribute (.mk ty d attrs fc ns)
        then issues.incr "Image element without an alt attribute."
        else issues)
/-- The loop of `checkAltAttribute` over the children. -/
def checkAltAttribute_loop : Ptr → Issues → Issues
  | .nil, issues => issues
  | .ref (.mk ty d attrs fc ns), issues =>
    checkAltAttribute_loop ns (checkAltAttribute (.mk ty d attrs fc ns) issues)
end

mutual
/-- Go `checkButtonRole`. -/
def checkButtonRole : Node → Issues → Issues
  | .mk ty d attrs fc ns, issues =>
    checkButtonRole_loop fc
      (if ty = .ElementNode ∧ hasButtonRole (.mk ty d attrs fc ns)
          ∧ ¬ hasLabel (.mk ty d attrs fc ns)
        then issues.incr "Button element without a corresponding label element."
        else issues)
/-- The loop of `checkButtonRole` over the children. -/
def checkButtonRole_loop : Ptr → Issues → Issues
  | .nil, issues => issues
  | .ref (.mk ty d attrs fc ns), issues =>
    checkButtonRole_loop ns (checkButtonRole (.mk ty d attrs fc ns) issues)
end

mutual
/-- Go `checkForm`. -/
def checkForm : Node → Issues → Issues
  | .mk ty d attrs fc ns, issues =>
    checkForm_loop fc
      (if ty = .ElementNode ∧ d = "form" ∧ ¬ hasLabel (.mk ty d attrs fc ns)
        then issues.incr "Form element without any corresponding label elements."
        else issues)
/-- The loop of `checkForm` over the children. -/
def checkForm_loop : Ptr → Issues → Issues
  | .nil, issues => issues
  | .ref (.mk ty d attrs fc ns), issues =>
    checkForm_loop ns (checkForm (.mk ty d attrs fc ns) issues)
end

mutual
/-- Go `checkInputType`. -/
def checkInputType : Node → String → Issues → Issues
  | .mk ty d attrs fc ns, inputType, issues =>
    checkInputType_loop fc inputType
      (if ty = .ElementNode ∧ d = "input" ∧ hasInputType (.mk ty d attrs fc ns) inputType
          ∧ ¬ hasLabel (.mk ty d attrs fc ns)
        then issues.incr ("Input element with type '" ++ inputType
          ++ "' without a corresponding label element.")
        else issues)
/-- The loop of `checkInputType` over the children. -/
def checkInputType_loop : Ptr → String → Issues → Issues
  | .nil, _, issues => issues
  | .ref (.mk ty d attrs fc ns), inputType, issues =>
    checkInputType_loop ns inputType (checkInputType (.mk ty d attrs fc ns) inputType issues)
end

/-- Go `checkHiddenInput`. -/
def checkHiddenInput (node : Node) (issues : Issues) : Issues :=
  checkInputType node "hidden" issues

/-- Go `checkImageInput`. -/
def checkImageInput (node : Node) (issues : Issues) : Issues :=
  checkInputType node "image" issues

/-- Go `checkSubmitInput`. -/
def checkSubmitInput (node : Node) (issues : Issues) : Issues :=
  checkInputType node "submit" issues

mutual
/-- Go `checkTableHeader`; `parent` is `node.Parent`.  The call
`hasTableHeader(node.Parent)` reads `node.Parent.Data`, a nil dereference when
the node has no parent. -/
def checkTableHeader (parent : Ptr) : Node → Issues → Option Issues
  | .mk ty d attrs fc ns, issues =>
    if ty = .ElementNode ∧ d = "th" then
      match parent with
      | .nil => none
      | .ref p =>
        checkTableHeader_loop (.ref (.mk ty d attrs fc ns)) fc
          (if ¬ hasTableHeader p
            then issues.incr "Table header cell without a corresponding th or td parent element."
            else issues)
    else checkTableHeader_loop (.ref (.mk ty d attrs fc ns)) fc issues
/-- The loop of `checkTableHeader` over the children of `parent`. -/
def checkTableHeader_loop (parent : Ptr) : Ptr → Issues → Option Issues
  | .nil, issues => some issues
  | .ref (.mk ty d attrs fc ns), issues =>
    match checkTableHeader parent (.mk ty d attrs fc ns) issues with
    | none => none
    | some issues => checkTableHeader_loop parent ns issues
end

mutual
/-- Go `checkTableScope`. -/
def checkTableScope : Node → String → Issues → Issues
  | .mk ty d attrs fc ns, scope, issues =>
    checkTableScope_loop fc scope
      (if ty = .ElementNode ∧ d = "th" ∧ ¬ hasTableScope (.mk ty d attrs fc ns) scope
        then issues.incr ("Table header cell without a '" ++ scope ++ "' scope attribute.")
        else issues)
/-- The loop of `checkTableScope` over the children. -/
def checkTableScope_loop : Ptr → String → Issues → Issues
  | .nil, _, issues => issues
  | .ref (.mk ty d attrs fc ns), scope, issues =>
    checkTableScope_loop ns scope (checkTableScope (.mk ty d attrs fc ns) scope issues)
end

mutual
/-- Go `checkList`. -/
def checkList : Node → Issues → Issues
  | .mk ty d attrs fc ns, issues =>
    checkList_loop fc
      (if ty = .ElementNode ∧ (d = "ul" ∨ d = "ol") ∧ ¬ hasListItem (.mk ty d attrs fc ns)
        then issues.incr (d ++ " element without any corresponding list item elements.")
        else issues)
/-- The loop of `checkList` over the children. -/
def checkList_loop : Ptr → Issues → Issues
  | .nil, issues => issues
  | .ref (.mk ty d attrs fc ns), issues =>
    checkList_loop ns (checkList (.mk ty d attrs fc ns) issues)
end

mutual
/-- Go `checkHeading`; `parent` is `node.Parent`.  `hasHeading(node)` is
evaluated first and may panic; `hasTitle` accepts the nil parent. -/
def checkHeading (parent : Ptr) : Node → Issues → Option Issues
  | .mk ty d attrs fc ns, issues =>
    match hasHeading (.mk ty d attrs fc ns) with
    | none => none
    | some heading =>
      checkHeading_loop (.ref (.mk ty d attrs fc ns)) fc
        (if heading ∧ ¬ hasTitle parent
          then issues.incr "Heading element without a corresponding title element."
          else issues)
/-- The loop of `checkHeading` over the children of `parent`. -/
def checkHeading_loop (parent : Ptr) : Ptr → Issues → Option Issues
  | .nil, issues => some issues
  | .ref (.mk ty d attrs fc ns), issues =>
    match checkHeading parent (.mk ty d attrs fc ns) issues with
    | none => none
    | some issues => checkHeading_loop parent ns issues
end

/-- The test `node.Parent != nil && (node.Parent.Type != html.ElementNode ||
node.Parent.Data != "head")` of Go `checkTitle`. -/
def checkTitle_parent : Ptr → Bool
  | .nil => false
  | .ref p => decide (p.Typ ≠ .ElementNode ∨ p.Data ≠ "head")

mutual
/-- Go `checkTitle`; `parent` is `node.Parent`. -/
def checkTitle (parent : Ptr) : Node → Issues → Issues
  | .mk ty d attrs fc ns, issues =>
    checkTitle_loop (.ref (.mk ty d attrs fc ns)) fc
      (if hasTitle (.ref (.mk ty d attrs fc ns)) ∧ checkTitle_parent parent
        then issues.incr "Title element not inside a head element."
        else issues)
/-- The loop of `checkTitle` over the children of `parent`. -/
def checkTitle_loop (parent : Ptr) : Ptr → Issues → Issues
  | .nil, issues => issues
  | .ref (.mk ty d attrs fc ns), issues =>
    checkTitle_loop parent ns (checkTitle parent (.mk ty d attrs fc ns) issues)
end

mutual
/-- Go `checkFormLabel`. -/
def checkFormLabel : Node → Issues → Issues
  | .mk ty d attrs fc ns, issues =>
    checkFormLabel_loop fc
      (if ty = .ElementNode ∧ d = "form" ∧ ¬ hasLabel (.mk ty d attrs fc ns)
        then issues.incr "Form element without a corresponding label element."
        else issues)
/-- The loop of `checkFormLabel` over the children. -/
def checkFormLabel_loop : Ptr → Issues → Issues
  | .nil, issues => issues
  | .ref (.mk ty d attrs fc ns), issues =>
    checkFormLabel_loop ns (checkFormLabel (.mk ty d attrs fc ns) issues)
end

mutual
/-- Go `checkListItems`; `parent` is `node.Parent`.  The call
`hasList(node.Parent)` reads `node.Parent.Data`, a nil dereference when the
node has no parent. -/
def checkListItems (parent : Ptr) : Node → Issues → Option Issues
  | .mk ty d attrs fc ns, issues =>
    if ty = .ElementNode ∧ d = "li" then
      match parent with
      | .nil => none
      | .ref p =>
        checkListItems_loop (.ref (.mk ty d attrs fc ns)) fc
          (if ¬ hasList p
            then issues.incr "List item element without a corresponding ol or ul parent element."
            else issues)
    else checkListItems_loop (.ref (.mk ty d attrs fc ns)) fc issues
/-- The loop of `checkListItems` over the children of `parent`. -/
def checkListItems_loop (parent : Ptr) : Ptr → Issues → Option Issues
  | .nil, issues => some issues
  | .ref (.mk ty d attrs fc ns), issues =>
    match checkListItems parent (.mk ty d attrs fc ns) issues with
    | none => none
    | some issues => checkListItems_loop parent ns issues
end

mutual
/-- Go `checkListLabel`. -/
def checkListLabel : Node → Issues → Issues
  | .mk ty d attrs fc ns, issues =>
    checkListLabel_loop fc
      (if (d = "ul" ∨ d = "ol") ∧ ¬ hasLabel (.mk ty d attrs fc ns)
        then issues.incr (d ++ " element without a corresponding label element.")
        else issues)
/-- The loop of `checkListLabel` over the children. -/
def checkListLabel_loop : Ptr → Issues → Issues
  | .nil, issues => issues
  | .ref (.mk ty d attrs fc ns), issues =>
    checkListLabel_loop ns (checkListLabel (.mk ty d attrs fc ns) issues)
end

/-- The test `child.PrevSibling == nil || child.PrevSibling.Data != "li"` of Go
`checkListIndentation`. -/
def checkListIndentation_prev : Ptr → Bool
  | .nil => true
  | .ref prev => decide (prev.Data ≠ "li")

/-- The loop `for i := 0; i < depth; i++` of Go `checkListIndentation`, by the
number of iterations left: it records once and breaks in the first iteration
when the test on the previous sibling holds, and otherwise runs out. -/
def checkListIndentation_depth (data : String) (prev : Ptr) : Nat → Issues → Issues
  | 0, issues => issues
  | left + 1, issues =>
    if checkListIndentation_prev prev
      then issues.incr (data ++ " element with inconsistent indentation.")
      else checkListIndentation_depth data prev left issues

mutual
/-- Go `checkListIndentation`. -/
def checkListIndentation : Node → Int → Issues → Issues
  | .mk ty d _ fc _, depth, issues =>
    if ty = .ElementNode ∧ (d = "ul" ∨ d = "ol")
      then checkListIndentation_loop d depth .nil fc issues
      else issues
/-- The loop of `checkListIndentation` over the children of a node whose
`Data` is `data`; `prev` is `child.PrevSibling`. -/
def checkListIndentation_loop (data : String) (depth : Int) : Ptr → Ptr → Issues → Issues
  | _, .nil, issues => issues
  | prev, .ref (.mk ty d attrs fc ns), issues =>
    checkListIndentation_loop data depth (.ref (.mk ty d attrs fc ns)) ns
      (if ty = .ElementNode ∧ d = "li"
        then checkListIndentation (.mk ty d attrs fc ns) (depth + 1)
          (checkListIndentation_depth data prev depth.toNat issues)
        else issues)
end

/-- The loop `for child := node.FirstChild; ...` inside Go `checkFormSubmit`,
threading the variable `hasSubmit`. -/
def checkFormSubmit_scan : Ptr → Bool → Bool
  | .nil, hasSubmit => hasSubmit
  | .ref (.mk ty d attrs _ ns), hasSubmit =>
    checkFormSubmit_scan ns
      (if ty = .ElementNode ∧ d = "input"
        then attrs.foldl
          (fun hasSubmit attr =>
            if attr.Key = "type" ∧ attr.Val = "submit" then true else hasSubmit)
          hasSubmit
        else hasSubmit)

mutual
/-- Go `checkFormSubmit`. -/
def checkFormSubmit : Node → Issues → Issues
  | .mk ty d _ fc _, issues =>
    checkFormSubmit_loop fc
      (if ty = .ElementNode ∧ d = "form" ∧ ¬ checkFormSubmit_scan fc false
        then issues.incr "Form element without a submit button."
        else issues)
/-- The second loop of `checkFormSubmit` over the children. -/
def checkFormSubmit_loop : Ptr → Issues → Issues
  | .nil, issues => issues
  | .ref (.mk ty d attrs fc ns), issues =>
    checkFormSubmit_loop ns (checkFormSubmit (.mk ty d attrs fc ns) issues)
end

mutual
/-- Go `checkFormMethod`. -/
def checkFormMethod : Node → Issues → Issues
  | .mk ty d attrs fc _, issues =>
    checkFormMethod_loop fc
      (if ty = .ElementNode ∧ d = "form"
          ∧ ¬ attrs.foldl
            (fun hasMethod attr => if attr.Key = "method" then true else hasMethod) false
        then issues.incr "Form element without a method attribute."
        else issues)
/-- The loop of `checkFormMethod` over the children. -/
def checkFormMethod_loop : Ptr → Issues → Issues
  | .nil, issues => issues
  | .ref (.mk ty d attrs fc ns), issues =>
    checkFormMethod_loop ns (checkFormMethod (.mk ty d attrs fc ns) issues)
end

mutual
/-- Go `checkFormEnctype`. -/
def checkFormEnctype : Node → Issues → Issues
  | .mk ty d attrs fc _, issues =>
    checkFormEnctype_loop fc
      (if ty = .ElementNode ∧ d = "form"
          ∧ ¬ attrs.foldl
            (fun hasEnctype attr => if attr.Key = "enctype" then true else hasEnctype) false
        then issues.incr "Form element without an enctype attribute."
        else issues)
/-- The loop of `checkFormEnctype` over the children. -/
def checkFormEnctype_loop : Ptr → Issues → Issues
  | .nil, issues => issues
  | .ref (.mk ty d attrs fc ns), issues =>
    checkFormEnctype_loop ns (checkFormEnctype (.mk ty d attrs fc ns) issues)
end

mutual
/-- Go `checkFormValidity`. -/
def checkFormValidity : Node → Issues → Issues
  | .mk ty d attrs fc ns, issues =>
    checkFormValidity_loop fc
      (if ty = .ElementNode ∧ d = "form" ∧ ¬ hasFormValidation (.mk ty d attrs fc ns)
        then issues.incr "Form element without proper validation attributes."
        else issues)
/-- The loop of `checkFormValidity` over the children. -/
def checkFormValidity_loop : Ptr → Issues → Issues
  | .nil, issues => issues
  | .ref (.mk ty d attrs fc ns), issues =>
    checkFormValidity_loop ns (checkFormValidity (.mk ty d attrs fc ns) issues)
end

/-- The `switch node.Data` of Go `checkArias`, entered for element nodes: the
message recorded at this node, if any. -/
def checkArias_switch (node : Node) : Option String :=
  if node.Typ = .ElementNode then
    if node.Data = "img" then
      if hasAriaAttribute node "label" ∧ ¬ hasAltAttribute node
        then some "Image element with aria-label attribute but without an alt attribute."
        else none
    else if node.Data = "button" then
      if hasAriaAttribute node "controls" ∧ ¬ hasAriaAttribute node "label"
        then some "Button element with aria-controls attribute but without an aria-label attribute."
        else none
    else if node.Data = "input" then
      if hasAriaAttribute node "placeholder" ∧ ¬ hasLabel node
        then some "Input element with aria-placeholder attribute but without a corresponding label element."
        else none
    else if node.Data = "select" then
      if hasAriaAttribute node "label" ∧ ¬ hasLabel node
        then some "Select element with aria-label attribute but without a corresponding label element."
        else none
    else if node.Data = "textarea" then
      if hasAriaAttribute node "placeholder" ∧ ¬ hasLabel node
        then some "Textarea element with aria-placeholder attribute but without a corresponding label element."
        else none
    else if node.Data = "table" then
      if hasAriaAttribute node "label" ∧ ¬ hasCaption node
        then some "Table element with aria-label attribute but without a corresponding caption element."
        else none
    else if node.Data = "audio" ∨ node.Data = "video" then
      if hasAriaAttribute node "description" ∧ ¬ hasAriaAttribute node "label"
        then some (node.Data
          ++ " element with aria-description attribute but without an aria-label attribute.")
        else none
    else none
  else none

mutual
/-- Go `checkArias`. -/
def checkArias : Node → Issues → Issues
  | .mk ty d attrs fc ns, issues =>
    checkArias_loop fc
      (match checkArias_switch (.mk ty d attrs fc ns) with
        | some msg => issues.incr msg
        | none => issues)
/-- The loop of `checkArias` over the children. -/
def checkArias_loop : Ptr → Issues → Issues
  | .nil, issues => issues
  | .ref (.mk ty d attrs fc ns), issues =>
    checkArias_loop ns (checkArias (.mk ty d attrs fc ns) issues)
end

/-- Go `checkImgAlt`; `path` is the path from `node` to the root that `getLine`
walks, starting with `node` itself. -/
def checkImgAlt (path : List (Node × List Node)) (node : Node) (issues : Issues) : Issues :=
  if ¬ hasAltAttribute node
    then issues.incr ("Image element without an alt attribute. Line: " ++ getLine path)
    else issues

/-- Go `checkAnchorHref`; `path` as in `checkImgAlt`. -/
def checkAnchorHref (path : List (Node × List Node)) (node : Node) (issues : Issues) : Issues :=
  if ¬ hasHrefAttribute node
    then issues.incr ("Anchor element without an href attribute. Line: " ++ getLine path)
    else issues

/-- The 23 rule calls of Go `main` on the parsed document `doc`, from the empty
map.  `doc` is the root: its `Parent` and `PrevSibling` are nil.  The result is
`none` when a rule panics. -/
def fullRuleSet (doc : Node) : Option Issues :=
  let issues : Issues := []
  let issues := checkLabel doc issues
  let issues := checkAltAttribute doc issues
  let issues := checkButtonRole doc issues
  let issues := checkForm doc issues
  let issues := checkHiddenInput doc issues
  let issues := checkImageInput doc issues
  let issues := checkSubmitInput doc issues
  match checkTableHeader .nil doc issues with
  | none => none
  | some issues =>
  let issues := checkTableScope doc "row" issues
  let issues := checkList doc issues
  match checkHeading .nil doc issues with
  | none => none
  | some issues =>
  let issues := checkTitle .nil doc issues
  let issues := checkFormLabel doc issues
  match checkListItems .nil doc issues with
  | none => none
  | some issues =>
  let issues := checkListLabel doc issues
  let issues := checkListIndentation doc 0 issues
  let issues := checkFormSubmit doc issues
  let issues := checkFormMethod doc issues
  let issues := checkFormEnctype doc issues
  let issues := checkFormValidity doc issues
  let issues := checkArias doc issues
  let issues := checkImgAlt [(doc, [])] doc issues
  let issues := checkAnchorHref [(doc, [])] doc issues
  some issues

/-! ## Traversal scheme and counting

Every tree rule has the same shape: visit the node, recording at most one
message, then run on each child.  `walk` is that shape with the visit as a
parameter; the rules above are shown equal to instances of it, so that facts
about counts are proved once. -/

/-- Recording the message of one visit, if there is one. -/
def Issues.note (issues : Issues) : Option String → Issues
  | none => issues
  | some msg => issues.incr msg

mutual
/-- Pre-order traversal recording `visit parent node` at every node. -/
def walk (visit : Ptr → Node → Option String) (parent : Ptr) : Node → Issues → Issues
  | .mk ty d attrs fc ns, issues =>
    walk_loop visit (.ref (.mk ty d attrs fc ns)) fc
      (issues.note (visit parent (.mk ty d attrs fc ns)))
/-- The loop of `walk` over the children of `parent`. -/
def walk_loop (visit : Ptr → Node → Option String) (parent : Ptr) : Ptr → Issues → Issues
  | .nil, issues => issues
  | .ref (.mk ty d attrs fc ns), issues =>
    walk_loop visit parent ns (walk visit parent (.mk ty d attrs fc ns) issues)
end

mutual
/-- Pre-order traversal whose visit may panic (`none`). -/
def walkF (visit : Ptr → Node → Option (Option String)) (parent : Ptr) :
    Node → Issues → Option Issues
  | .mk ty d attrs fc ns, issues =>
    match visit parent (.mk ty d attrs fc ns) with
    | none => none
    | some msg => walkF_loop visit (.ref (.mk ty d attrs fc ns)) fc (issues.note msg)
/-- The loop of `walkF` over the children of `parent`. -/
def walkF_loop (visit : Ptr → Node → Option (Option String)) (parent : Ptr) :
    Ptr → Issues → Option Issues
  | .nil, issues => some issues
  | .ref (.mk ty d attrs fc ns), issues =>
    match walkF visit parent (.mk ty d attrs fc ns) issues with
    | none => none
    | some issues => walkF_loop visit parent ns issues
end

mutual
/-- The nodes of the subtree of a node, the node itself first (pre-order). -/
def Node.subtree : Node → List Node
  | .mk ty d attrs fc ns => .mk ty d attrs fc ns :: Ptr.subtrees fc
/-- The nodes of the subtrees of a pointer and of its next siblings. -/
def Ptr.subtrees : Ptr → List Node
  | .nil => []
  | .ref (.mk ty d attrs fc ns) => Node.subtree (.mk ty d attrs fc ns) ++ Ptr.subtrees ns
end

mutual
/-- Whether `ok parent node` holds at every node of the subtree. -/
def allNodes (ok : Ptr → Node → Bool) (parent : Ptr) : Node → Bool
  | .mk ty d attrs fc ns =>
    ok parent (.mk ty d attrs fc ns) && allNodes_loop ok (.ref (.mk ty d attrs fc ns)) fc
/-- The loop of `allNodes` over the children of `parent`. -/
def allNodes_loop (ok : Ptr → Node → Bool) (parent : Ptr) : Ptr → Bool
  | .nil => true
  | .ref (.mk ty d attrs fc ns) =>
    allNodes ok parent (.mk ty d attrs fc ns) && allNodes_loop ok parent ns
end

/-- The message `checkLabel` records at a node, if any. -/
def visitLabel (node : Node) : Option String :=
  if node.Typ = .ElementNode
      ∧ (node.Data = "input" ∨ node.Data = "select" ∨ node.Data = "textarea")
      ∧ ¬ hasLabel node
    then some (node.Data ++ " element without a corresponding label element.")
    else none

/-- The message `checkAltAttribute` records at a node, if any. -/
def visitAltAttribute (node : Node) : Option String :=
  if node.Typ = .ElementNode ∧ node.Data = "img" ∧ ¬ hasAltAttribute node
    then some "Image element without an alt attribute."
    else none

/-- The message `checkButtonRole` records at a node, if any. -/
def visitButtonRole (node : Node) : Option String :=
  if node.Typ = .ElementNode ∧ hasButtonRole node ∧ ¬ hasLabel node
    then some "Button element without a corresponding label element."
    else none

/-- The message `checkForm` records at a node, if any. -/
def visitForm (node : Node) : Option String :=
  if node.Typ = .ElementNode ∧ node.Data = "form" ∧ ¬ hasLabel node
    then some "Form element without any corresponding label elements."
    else none

/-- The message `checkInputType` records at a node, if any. -/
def visitInputType (inputType : String) (node : Node) : Option String :=
  if node.Typ = .ElementNode ∧ node.Data = "input" ∧ hasInputType node inputType
      ∧ ¬ hasLabel node
    then some ("Input element with type '" ++ inputType
      ++ "' without a corresponding label element.")
    else none

/-- The visit of `checkTableHeader`: `none` is the nil dereference. -/
def visitTableHeader (parent : Ptr) (node : Node) : Option (Option String) :=
  if node.Typ = .ElementNode ∧ node.Data = "th" then
    match parent with
    | .nil => none
    | .ref p =>
      some (if ¬ hasTableHeader p
        then some "Table header cell without a corresponding th or td parent element."
        else none)
  else some none

/-- The message `checkTableScope` records at a node, if any. -/
def visitTableScope (scope : String) (node : Node) : Option String :=
  if node.Typ = .ElementNode ∧ node.Data = "th" ∧ ¬ hasTableScope node scope
    then some ("Table header cell without a '" ++ scope ++ "' scope attribute.")
    else none

/-- The message `checkList` records at a node, if any. -/
def visitList (node : Node) : Option String :=
  if node.Typ = .ElementNode ∧ (node.Data = "ul" ∨ node.Data = "ol") ∧ ¬ hasListItem node
    then some (node.Data ++ " element without any corresponding list item elements.")
    else none

/-- The visit of `checkHeading`: `none` is the index panic of `hasHeading`. -/
def visitHeading (parent : Ptr) (node : Node) : Option (Option String) :=
  match hasHeading node with
  | none => none
  | some heading =>
    some (if heading ∧ ¬ hasTitle parent
      then some "Heading element without a corresponding title element."
      else none)

/-- The message `checkTitle` records at a node, if any. -/
def visitTitle (parent : Ptr) (node : Node) : Option String :=
  if hasTitle (.ref node) ∧ checkTitle_parent parent
    then some "Title element not inside a head element."
    else none

/-- The message `checkFormLabel` records at a node, if any. -/
def visitFormLabel (node : Node) : Option String :=
  if node.Typ = .ElementNode ∧ node.Data = "form" ∧ ¬ hasLabel node
    then some "Form element without a corresponding label element."
    else none

/-- The visit of `checkListItems`: `none` is the nil dereference. -/
def visitListItems (parent : Ptr) (node : Node) : Option (Option String) :=
  if node.Typ = .ElementNode ∧ node.Data = "li" then
    match parent with
    | .nil => none
    | .ref p =>
      some (if ¬ hasList p
        then some "List item element without a corresponding ol or ul parent element."
        else none)
  else some none

/-- The message `checkListLabel` records at a node, if any. -/
def visitListLabel (node : Node) : Option String :=
  if (node.Data = "ul" ∨ node.Data = "ol") ∧ ¬ hasLabel node
    then some (node.Data ++ " element without a corresponding label element.")
    else none

/-- The message `checkFormSubmit` records at a node, if any. -/
def visitFormSubmit (node : Node) : Option String :=
  if node.Typ = .ElementNode ∧ node.Data = "form"
      ∧ ¬ checkFormSubmit_scan node.FirstChild false
    then some "Form element without a submit button."
    else none

/-- The message `checkFormMethod` records at a node, if any. -/
def visitFormMethod (node : Node) : Option String :=
  if node.Typ = .ElementNode ∧ node.Data = "form"
      ∧ ¬ node.Attr.foldl
        (fun hasMethod attr => if attr.Key = "method" then true else hasMethod) false
    then some "Form element without a method attribute."
    else none

/-- The message `checkFormEnctype` records at a node, if any. -/
def visitFormEnctype (node : Node) : Option String :=
  if node.Typ = .ElementNode ∧ node.Data = "form"
      ∧ ¬ node.Attr.foldl
        (fun hasEnctype attr => if attr.Key = "enctype" then true else hasEnctype) false
    then some "Form element without an enctype attribute."
    else none

/-- The message `checkFormValidity` records at a node, if any. -/
def visitFormValidity (node : Node) : Option String :=
  if node.Typ = .ElementNode ∧ node.Data = "form" ∧ ¬ hasFormValidation node
    then some "Form element without proper validation attributes."
    else none

/-! ## Building trees -/

/-- The sibling chain of a list of nodes, each given as a function of its
`NextSibling`. -/
def siblings : List (Ptr → Node) → Ptr
  | [] => .nil
  | child :: rest => .ref (child (siblings rest))

/-- An element node with the given tag, attributes and children. -/
def element (tag : String) (attrs : List Attribute) (children : List (Ptr → Node)) :
    Ptr → Node :=
  fun next => .mk .ElementNode tag attrs (siblings children) next

/-- A text node. -/
def text (data : String) : Ptr → Node :=
  fun next => .mk .TextNode data [] .nil next

/-- A document node, the root that `html.Parse` returns. -/
def document (children : List (Ptr → Node)) : Node :=
  .mk .DocumentNode "" [] (siblings children) .nil

/-- An attribute without namespace. -/
def attr (key val : String) : Attribute :=
  ⟨"", key, val⟩

/-- The tree of `<html><body><img></body></html>`. -/
def docImg : Node :=
  document [element "html" [] [element "head" [] [], element "body" [] [element "img" [] []]]]

/-- A form with a submit input as a direct child. -/
def formDirect : Node :=
  document [element "html" [] [element "head" [] [], element "body" [] [
    element "form" [] [element "input" [attr "type" "submit"] []]]]]

/-- A form whose only submit input is a grandchild. -/
def formGrandchild : Node :=
  document [element "html" [] [element "head" [] [], element "body" [] [
    element "form" [] [element "div" [] [element "input" [attr "type" "submit"] []]]]]]

/-- A `th` without attributes whose cell holds a nested table with a
`th scope="row"`. -/
def docNestedTh : Node :=
  document [element "html" [] [element "head" [] [], element "body" [] [
    element "table" [] [element "tbody" [] [element "tr" [] [
      element "th" [] [
        element "table" [] [element "tbody" [] [element "tr" [] [
          element "th" [attr "scope" "row"] []]]]]]]]]]]

/-- The tree of `<html><head><title>T</title></head><body></body></html>`. -/
def docTitle : Node :=
  document [element "html" [] [
    element "head" [] [element "title" [] [text "T"]], element "body" [] []]]

/-- The nesting `ul > li > ul > li`, as a root. -/
def nestedUl : Node :=
  element "ul" [] [element "li" [] [element "ul" [] [element "li" [] []]]] .nil

/-- The nesting `ul > li > ul > li` inside a document. -/
def docNestedList : Node :=
  document [element "html" [] [element "head" [] [], element "body" [] [
    element "ul" [] [element "li" [] [element "ul" [] [element "li" [] []]]]]]]

/-- The tree of `<html><body><form></form></body></html>`. -/
def docForm : Node :=
  document [element "html" [] [element "head" [] [], element "body" [] [element "form" [] []]]]

/-- The tree of `<html><body><textarea>label</textarea></body></html>`. -/
def docTextarea : Node :=
  document [element "html" [] [element "head" [] [], element "body" [] [
    element "textarea" [] [text "label"]]]]

/-- A table with a single `th`, the only child of its `tr`. -/
def docLoneTh : Node :=
  document [element "html" [] [element "head" [] [], element "body" [] [
    element "table" [] [element "tbody" [] [element "tr" [] [element "th" [] []]]]]]]

/-- The tree of `<html><body><h></h></body></html>`. -/
def docH : Node :=
  document [element "html" [] [element "head" [] [], element "body" [] [element "h" [] []]]]

/-- A form element with `validate` before `novalidate`. -/
def formValidateFirst : Node :=
  element "form" [attr "validate" "", attr "novalidate" ""] [] .nil

/-! ## The conditions named by the specification -/

/-- An `img` element with no attribute whose key is `alt`. -/
def imgWithoutAlt (n : Node) : Bool :=
  decide (n.Typ = .ElementNode ∧ n.Data = "img" ∧ ∀ a ∈ n.Attr, a.Key ≠ "alt")

/-- An `input` element carrying an attribute `type=submit`. -/
def isSubmitInput (n : Node) : Bool :=
  decide (n.Typ = .ElementNode ∧ n.Data = "input"
    ∧ ∃ a ∈ n.Attr, a.Key = "type" ∧ a.Val = "submit")

/-- A `form` element none of whose direct children is a submit input. -/
def formWithoutSubmitChild (n : Node) : Bool :=
  decide (n.Typ = .ElementNode ∧ n.Data = "form" ∧ ∀ c ∈ n.children, isSubmitInput c = false)

/-- The node itself carries an attribute `scope` with the given value. -/
def carriesScope (scope : String) (n : Node) : Bool :=
  decide (∃ a ∈ n.Attr, a.Key = "scope" ∧ a.Val = scope)

/-- A `th` element that does not itself carry the scope. -/
def thWithoutOwnScope (scope : String) (n : Node) : Bool :=
  decide (n.Typ = .ElementNode ∧ n.Data = "th" ∧ carriesScope scope n = false)

/-- A `th` element such that no `th` element of its subtree, itself included,
carries the scope. -/
def thWithoutScopeBelow (scope : String) (n : Node) : Bool :=
  decide (n.Typ = .ElementNode ∧ n.Data = "th"
    ∧ ∀ m ∈ n.subtree, m.Typ = .ElementNode → m.Data = "th" → carriesScope scope m = false)

/-- A `label` element. -/
def isLabelElement (n : Node) : Bool :=
  decide (n.Typ = .ElementNode ∧ n.Data = "label")

/-- A `form` element with no `label` element in its subtree. -/
def formWithoutLabel (n : Node) : Bool :=
  decide (n.Typ = .ElementNode ∧ n.Data = "form" ∧ ∀ m ∈ n.subtree, isLabelElement m = false)

/-- An element with the given tag and no `label` element in its subtree. -/
def elementWithoutLabel (tag : String) (n : Node) : Bool :=
  decide (n.Typ = .ElementNode ∧ n.Data = tag ∧ ∀ m ∈ n.subtree, isLabelElement m = false)

/-- The trees on which no rule of `main` panics: the root is not a `th` or
`li` element, and no element has the empty tag or the tag `h`. -/
def panicFree (doc : Node) : Bool :=
  decide (¬ (doc.Typ = .ElementNode ∧ (doc.Data = "th" ∨ doc.Data = "li"))
    ∧ ∀ m ∈ doc.subtree, m.Typ = .ElementNode → m.Data ≠ "" ∧ m.Data ≠ "h")

/-- The node carries an attribute with the given key. -/
def hasKey (key : String) (n : Node) : Bool :=
  decide (∃ a ∈ n.Attr, a.Key = key)

/-- An element with the given tag that carries the key `aria` and does not
carry the key `aria-label`. -/
def ariaWithoutLabel (tag aria : String) (n : Node) : Bool :=
  decide (n.Typ = .ElementNode ∧ n.Data = tag ∧ hasKey aria n = true
    ∧ hasKey "aria-label" n = false)

/-! ## The rule set as a list, and the report -/

/-- The 23 rule calls of Go `main`, by name. -/
inductive RuleName where
  | checkLabel
  | checkAltAttribute
  | checkButtonRole
  | checkForm
  | checkHiddenInput
  | checkImageInput
  | checkSubmitInput
  | checkTableHeader
  | checkTableScope
  | checkList
  | checkHeading
  | checkTitle
  | checkFormLabel
  | checkListItems
  | checkListLabel
  | checkListIndentation
  | checkFormSubmit
  | checkFormMethod
  | checkFormEnctype
  | checkFormValidity
  | checkArias
  | checkImgAlt
  | checkAnchorHref
  deriving DecidableEq, Repr

/-- The call that `main` makes for a rule on the root `doc` and the map
`issues`, with the arguments `main` passes; `none` when the rule panics. -/
def runRule : RuleName → Node → Issues → Option Issues
  | .checkLabel, doc, issues => some (checkLabel doc issues)
  | .checkAltAttribute, doc, issues => some (checkAltAttribute doc issues)
  | .checkButtonRole, doc, issues => some (checkButtonRole doc issues)
  | .checkForm, doc, issues => some (checkForm doc issues)
  | .checkHiddenInput, doc, issues => some (checkHiddenInput doc issues)
  | .checkImageInput, doc, issues => some (checkImageInput doc issues)
  | .checkSubmitInput, doc, issues => some (checkSubmitInput doc issues)
  | .checkTableHeader, doc, issues => checkTableHeader .nil doc issues
  | .checkTableScope, doc, issues => some (checkTableScope doc "row" issues)
  | .checkList, doc, issues => some (checkList doc issues)
  | .checkHeading, doc, issues => checkHeading .nil doc issues
  | .checkTitle, doc, issues => some (checkTitle .nil doc issues)
  | .checkFormLabel, doc, issues => some (checkFormLabel doc issues)
  | .checkListItems, doc, issues => checkListItems .nil doc issues
  | .checkListLabel, doc, issues => some (checkListLabel doc issues)
  | .checkListIndentation, doc, issues => some (checkListIndentation doc 0 issues)
  | .checkFormSubmit, doc, issues => some (checkFormSubmit doc issues)
  | .checkFormMethod, doc, issues => some (checkFormMethod doc issues)
  | .checkFormEnctype, doc, issues => some (checkFormEnctype doc issues)
  | .checkFormValidity, doc, issues => some (checkFormValidity doc issues)
  | .checkArias, doc, issues => some (checkArias doc issues)
  | .checkImgAlt, doc, issues => some (checkImgAlt [(doc, [])] doc issues)
  | .checkAnchorHref, doc, issues => some (checkAnchorHref [(doc, [])] doc issues)

/-- The order in which `main` calls the rules. -/
def ruleOrder : List RuleName :=
  [.checkLabel, .checkAltAttribute, .checkButtonRole, .checkForm, .checkHiddenInput,
    .checkImageInput, .checkSubmitInput, .checkTableHeader, .checkTableScope, .checkList,
    .checkHeading, .checkTitle, .checkFormLabel, .checkListItems, .checkListLabel,
    .checkListIndentation, .checkFormSubmit, .checkFormMethod, .checkFormEnctype,
    .checkFormValidity, .checkArias, .checkImgAlt, .checkAnchorHref]

/-- Calling the rules of a list one after the other on the same map; a panic
ends the run. -/
def runRules : List RuleName → Node → Issues → Option Issues
  | [], _, issues => some issues
  | rule :: rest, doc, issues =>
    match runRule rule doc issues with
    | none => none
    | some issues => runRules rest doc issues

/-- Recording a list of messages, one `issues[msg]++` each, in order. -/
def Issues.record (issues : Issues) (msgs : List String) : Issues :=
  msgs.foldl Issues.incr issues

/-- The keys present in the map. -/
def Issues.keys (issues : Issues) : List String :=
  issues.map Prod.fst

/-- The variable `totalIssues` of Go `main` after the report: the sum of the
counts when `len(issues) > 0`, and 0 otherwise. -/
def totalIssues (issues : Issues) : Int :=
  if 0 < issues.length then (issues.map Prod.snd).sum else 0

/-- A tag that starts with `h` followed by a digit from 1 to 6. -/
def isHeadingTag (tag : String) : Bool :=
  match tag.data with
  | c0 :: c1 :: _ => decide (c0 = 'h') && decide ('1' ≤ c1) && decide (c1 ≤ '6')
  | _ => false

/-- An element whose tag starts with `h` followed by a digit from 1 to 6. -/
def isHeadingElement (n : Node) : Bool :=
  decide (n.Typ = .ElementNode) && isHeadingTag n.Data

/-- The tree of `<html><head><title>T</title></head><body><h1>H</h1></body></html>`. -/
def docHeadingTitle : Node :=
  document [element "html" [] [
    element "head" [] [element "title" [] [text "T"]],
    element "body" [] [element "h1" [] [text "H"]]]]

/-! ## The counts as Go stores them -/

/-- The value that a Go `int` (64 bits, two's complement) holds for an
integer: the integer wrapped into the range from -2^63 to 2^63 - 1. -/
def wrap64 (x : Int) : Int :=
  (x + 9223372036854775808) % 18446744073709551616 - 9223372036854775808

/-- The statement `issues[msg]++` on Go's 64-bit `int`: an absent key is
inserted at 1, and the sum of a present count and 1 wraps. -/
def Issues.incr64 : Issues → String → Issues
  | [], msg => [(msg, 1)]
  | (k, v) :: rest, msg =>
    if k = msg then (k, wrap64 (v + 1)) :: rest else (k, v) :: Issues.incr64 rest msg

/-- Recording a list of messages, one 64-bit `issues[msg]++` each, in order. -/
def Issues.record64 (issues : Issues) (msgs : List String) : Issues :=
  msgs.foldl Issues.incr64 issues

/-- The map with every count as a Go `int` stores it. -/
def Issues.int64 (issues : Issues) : Issues :=
  issues.map (fun e => (e.1, wrap64 e.2))

/-- Every count of the map is a value of Go's `int`, as in every Go map. -/
def Issues.inRange (issues : Issues) : Bool :=
  issues.all (fun e => decide (-9223372036854775808 ≤ e.2 ∧ e.2 ≤ 9223372036854775807))

/-! ## The rules on the stored counts

The rules of `main.go` once more, with `issues[msg]++` as Go executes it on a
64-bit `int`.  The predicates and the traversal are those of the rules above;
only the increment differs. -/

mutual
/-- With the counts as Go stores them:
Go `checkLabel`. -/
def checkLabel64 : Node → Issues → Issues
  | .mk ty d attrs fc ns, issues =>
    checkLabel64_loop fc
      (if ty = .ElementNode ∧ (d = "input" ∨ d = "select" ∨ d = "textarea")
          ∧ ¬ hasLabel (.mk ty d attrs fc ns)
        then issues.incr64 (d ++ " element without a corresponding label element.")
        else issues)
/-- With the counts as Go stores them:
the loop of `checkLabel` over the children. -/
def checkLabel64_loop : Ptr → Issues → Issues
  | .nil, issues => issues
  | .ref (.mk ty d attrs fc ns), issues =>
    checkLabel64_loop ns (checkLabel64 (.mk ty d attrs fc ns) issues)
end

mutual
/-- With the counts as Go stores them:
Go `checkAltAttribute`. -/
def checkAltAttribute64 : Node → Issues → Issues
  | .mk ty d attrs fc ns, issues =>
    checkAltAttribute64_loop fc
      (if ty = .ElementNode ∧ d = "img" ∧ ¬ hasAltAttribute (.mk ty d attrs fc ns)
        then issues.incr64 "Image element without an alt attribute."
        else issues)
/-- With the counts as Go stores them:
the loop of `checkAltAttribute` over the children. -/
def checkAltAttribute64_loop : Ptr → Issues → Issues
  | .nil, issues => issues
  | .ref (.mk ty d attrs fc ns), issues =>
    checkAltAttribute64_loop ns (checkAltAttribute64 (.mk ty d attrs fc ns) issues)
end

mutual
/-- With the counts as Go stores them:
Go `checkButtonRole`. -/
def checkButtonRole64 : Node → Issues → Issues
  | .mk ty d attrs fc ns, issues =>
    checkButtonRole64_loop fc
      (if ty = .ElementNode ∧ hasButtonRole (.mk ty d attrs fc ns)
          ∧ ¬ hasLabel (.mk ty d attrs fc ns)
        then issues.incr64 "Button element without a corresponding label element."
        else issues)
/-- With the counts as Go stores them:
the loop of `checkButtonRole` over the children. -/
def checkButtonRole64_loop : Ptr → Issues → Issues
  | .nil, issues => issues
  | .ref (.mk ty d attrs fc ns), issues =>
    checkButtonRole64_loop ns (checkButtonRole64 (.mk ty d attrs fc ns) issues)
end

mutual
/-- With the counts as Go stores them:
Go `checkForm`. -/
def checkForm64 : Node → Issues → Issues
  | .mk ty d attrs fc ns, issues =>
    checkForm64_loop fc
      (if ty = .ElementNode ∧ d = "form" ∧ ¬ hasLabel (.mk ty d attrs fc ns)
        then issues.incr64 "Form element without any corresponding label elements."
        else issues)
/-- With the counts as Go stores them:
the loop of `checkForm` over the children. -/
def checkForm64_loop : Ptr → Issues → Issues
  | .nil, issues => issues
  | .ref (.mk ty d attrs fc ns), issues =>
    checkForm64_loop ns (checkForm64 (.mk ty d attrs fc ns) issues)
end

mutual
/-- With the counts as Go stores them:
Go `checkInputType`. -/
def checkInputType64 : Node → String → Issues → Issues
  | .mk ty d attrs fc ns, inputType, issues =>
    checkInputType64_loop fc inputType
      (if ty = .ElementNode ∧ d = "input" ∧ hasInputType (.mk ty d attrs fc ns) inputType
          ∧ ¬ hasLabel (.mk ty d attrs fc ns)
        then issues.incr64 ("Input element with type '" ++ inputType
          ++ "' without a corresponding label element.")
        else issues)
/-- With the counts as Go stores them:
the loop of `checkInputType` over the children. -/
def checkInputType64_loop : Ptr → String → Issues → Issues
  | .nil, _, issues => issues
  | .ref (.mk ty d attrs fc ns), inputType, issues =>
    checkInputType64_loop ns inputType (checkInputType64 (.mk ty d attrs fc ns) inputType issues)
end

/-- With the counts as Go stores them:
Go `checkHiddenInput`. -/
def checkHiddenInput64 (node : Node) (issues : Issues) : Issues :=
  checkInputType64 node "hidden" issues

/-- With the counts as Go stores them:
Go `checkImageInput`. -/
def checkImageInput64 (node : Node) (issues : Issues) : Issues :=
  checkInputType64 node "image" issues

/-- With the counts as Go stores them:
Go `checkSubmitInput`. -/
def checkSubmitInput64 (node : Node) (issues : Issues) : Issues :=
  checkInputType64 node "submit" issues

mutual
/-- With the counts as Go stores them:
Go `checkTableHeader`; `parent` is `node.Parent`.  The call
`hasTableHeader(node.Parent)` reads `node.Parent.Data`, a nil dereference when
the node has no parent. -/
def checkTableHeader64 (parent : Ptr) : Node → Issues → Option Issues
  | .mk ty d attrs fc ns, issues =>
    if ty = .ElementNode ∧ d = "th" then
      match parent with
      | .nil => none
      | .ref p =>
        checkTableHeader64_loop (.ref (.mk ty d attrs fc ns)) fc
          (if ¬ hasTableHeader p
            then issues.incr64 "Table header cell without a corresponding th or td parent element."
            else issues)
    else checkTableHeader64_loop (.ref (.mk ty d attrs fc ns)) fc issues
/-- With the counts as Go stores them:
the loop of `checkTableHeader` over the children of `parent`. -/
def checkTableHeader64_loop (parent : Ptr) : Ptr → Issues → Option Issues
  | .nil, issues => some issues
  | .ref (.mk ty d attrs fc ns), issues =>
    match checkTableHeader64 parent (.mk ty d attrs fc ns) issues with
    | none => none
    | some issues => checkTableHeader64_loop parent ns issues
end

mutual
/-- With the counts as Go stores them:
Go `checkTableScope`. -/
def checkTableScope64 : Node → String → Issues → Issues
  | .mk ty d attrs fc ns, scope, issues =>
    checkTableScope64_loop fc scope
      (if ty = .ElementNode ∧ d = "th" ∧ ¬ hasTableScope (.mk ty d attrs fc ns) scope
        then issues.incr64 ("Table header cell without a '" ++ scope ++ "' scope attribute.")
        else issues)
/-- With the counts as Go stores them:
the loop of `checkTableScope` over the children. -/
def checkTableScope64_loop : Ptr → String → Issues → Issues
  | .nil, _, issues => issues
  | .ref (.mk ty d attrs fc ns), scope, issues =>
    checkTableScope64_loop ns scope (checkTableScope64 (.mk ty d attrs fc ns) scope issues)
end

mutual
/-- With the counts as Go stores them:
Go `checkList`. -/
def checkList64 : Node → Issues → Issues
  | .mk ty d attrs fc ns, issues =>
    checkList64_loop fc
      (if ty = .ElementNode ∧ (d = "ul" ∨ d = "ol") ∧ ¬ hasListItem (.mk ty d attrs fc ns)
        then issues.incr64 (d ++ " element without any corresponding list item elements.")
        else issues)
/-- With the counts as Go stores them:
the loop of `checkList` over the children. -/
def checkList64_loop : Ptr → Issues → Issues
  | .nil, issues => issues
  | .ref (.mk ty d attrs fc ns), issues =>
    checkList64_loop ns (checkList64 (.mk ty d attrs fc ns) issues)
end

mutual
/-- With the counts as Go stores them:
Go `checkHeading`; `parent` is `node.Parent`.  `hasHeading(node)` is
evaluated first and may panic; `hasTitle` accepts the nil parent. -/
def checkHeading64 (parent : Ptr) : Node → Issues → Option Issues
  | .mk ty d attrs fc ns, issues =>
    match hasHeading (.mk ty d attrs fc ns) with
    | none => none
    | some heading =>
      checkHeading64_loop (.ref (.mk ty d attrs fc ns)) fc
        (if heading ∧ ¬ hasTitle parent
          then issues.incr64 "Heading element without a corresponding title element."
          else issues)
/-- With the counts as Go stores them:
the loop of `checkHeading` over the children of `parent`. -/
def checkHeading64_loop (parent : Ptr) : Ptr → Issues → Option Issues
  | .nil, issues => some issues
  | .ref (.mk ty d attrs fc ns), issues =>
    match checkHeading64 parent (.mk ty d attrs fc ns) issues with
    | none => none
    | some issues => checkHeading64_loop parent ns issues
end

mutual
/-- With the counts as Go stores them:
Go `checkTitle`; `parent` is `node.Parent`. -/
def checkTitle64 (parent : Ptr) : Node → Issues → Issues
  | .mk ty d attrs fc ns, issues =>
    checkTitle64_loop (.ref (.mk ty d attrs fc ns)) fc
      (if hasTitle (.ref (.mk ty d attrs fc ns)) ∧ checkTitle_parent parent
        then issues.incr64 "Title element not inside a head element."
        else issues)
/-- With the counts as Go stores them:
the loop of `checkTitle` over the children of `parent`. -/
def checkTitle64_loop (parent : Ptr) : Ptr → Issues → Issues
  | .nil, issues => issues
  | .ref (.mk ty d attrs fc ns), issues =>
    checkTitle64_loop parent ns (checkTitle64 parent (.mk ty d attrs fc ns) issues)
end

mutual
/-- With the counts as Go stores them:
Go `checkFormLabel`. -/
def checkFormLabel64 : Node → Issues → Issues
  | .mk ty d attrs fc ns, issues =>
    checkFormLabel64_loop fc
      (if ty = .ElementNode ∧ d = "form" ∧ ¬ hasLabel (.mk ty d attrs fc ns)
        then issues.incr64 "Form element without a corresponding label element."
        else issues)
/-- With the counts as Go stores them:
the loop of `checkFormLabel` over the children. -/
def checkFormLabel64_loop : Ptr → Issues → Issues
  | .nil, issues => issues
  | .ref (.mk ty d attrs fc ns), issues =>
    checkFormLabel64_loop ns (checkFormLabel64 (.mk ty d attrs fc ns) issues)
end

mutual
/-- With the counts as Go stores them:
Go `checkListItems`; `parent` is `node.Parent`.  The call
`hasList(node.Parent)` reads `node.Parent.Data`, a nil dereference when the
node has no parent. -/
def checkListItems64 (parent : Ptr) : Node → Issues → Option Issues
  | .mk ty d attrs fc ns, issues =>
    if ty = .ElementNode ∧ d = "li" then
      match parent with
      | .nil => none
      | .ref p =>
        checkListItems64_loop (.ref (.mk ty d attrs fc ns)) fc
          (if ¬ hasList p
            then issues.incr64 "List item element without a corresponding ol or ul parent element."
            else issues)
    else checkListItems64_loop (.ref (.mk ty d attrs fc ns)) fc issues
/-- With the counts as Go stores them:
the loop of `checkListItems` over the children of `parent`. -/
def checkListItems64_loop (parent : Ptr) : Ptr → Issues → Option Issues
  | .nil, issues => some issues
  | .ref (.mk ty d attrs fc ns), issues =>
    match checkListItems64 parent (.mk ty d attrs fc ns) issues with
    | none => none
    | some issues => checkListItems64_loop parent ns issues
end

mutual
/-- With the counts as Go stores them:
Go `checkListLabel`. -/
def checkListLabel64 : Node → Issues → Issues
  | .mk ty d attrs fc ns, issues =>
    checkListLabel64_loop fc
      (if (d = "ul" ∨ d = "ol") ∧ ¬ hasLabel (.mk ty d attrs fc ns)
        then issues.incr64 (d ++ " element without a corresponding label element.")
        else issues)
/-- With the counts as Go stores them:
the loop of `checkListLabel` over the children. -/
def checkListLabel64_loop : Ptr → Issues → Issues
  | .nil, issues => issues
  | .ref (.mk ty d attrs fc ns), issues =>
    checkListLabel64_loop ns (checkListLabel64 (.mk ty d attrs fc ns) issues)
end

/-- With the counts as Go stores them:
the loop `for i := 0; i < depth; i++` of Go `checkListIndentation`, by the
number of iterations left: it records once and breaks in the first iteration
when the test on the previous sibling holds, and otherwise runs out. -/
def checkListIndentation64_depth (data : String) (prev : Ptr) : Nat → Issues → Issues
  | 0, issues => issues
  | left + 1, issues =>
    if checkListIndentation_prev prev
      then issues.incr64 (data ++ " element with inconsistent indentation.")
      else checkListIndentation64_depth data prev left issues

mutual
/-- With the counts as Go stores them:
Go `checkListIndentation`. -/
def checkListIndentation64 : Node → Int → Issues → Issues
  | .mk ty d _ fc _, depth, issues =>
    if ty = .ElementNode ∧ (d = "ul" ∨ d = "ol")
      then checkListIndentation64_loop d depth .nil fc issues
      else issues
/-- With the counts as Go stores them:
the loop of `checkListIndentation` over the children of a node whose
`Data` is `data`; `prev` is `child.PrevSibling`. -/
def checkListIndentation64_loop (data : String) (depth : Int) : Ptr → Ptr → Issues → Issues
  | _, .nil, issues => issues
  | prev, .ref (.mk ty d attrs fc ns), issues =>
    checkListIndentation64_loop data depth (.ref (.mk ty d attrs fc ns)) ns
      (if ty = .ElementNode ∧ d = "li"
        then checkListIndentation64 (.mk ty d attrs fc ns) (depth + 1)
          (checkListIndentation64_depth data prev depth.toNat issues)
        else issues)
end

mutual
/-- With the counts as Go stores them:
Go `checkFormSubmit`. -/
def checkFormSubmit64 : Node → Issues → Issues
  | .mk ty d _ fc _, issues =>
    checkFormSubmit64_loop fc
      (if ty = .ElementNode ∧ d = "form" ∧ ¬ checkFormSubmit_scan fc false
        then issues.incr64 "Form element without a submit button."
        else issues)
/-- With the counts as Go stores them:
the second loop of `checkFormSubmit` over the children. -/
def checkFormSubmit64_loop : Ptr → Issues → Issues
  | .nil, issues => issues
  | .ref (.mk ty d attrs fc ns), issues =>
    checkFormSubmit64_loop ns (checkFormSubmit64 (.mk ty d attrs fc ns) issues)
end

mutual
/-- With the counts as Go stores them:
Go `checkFormMethod`. -/
def checkFormMethod64 : Node → Issues → Issues
  | .mk ty d attrs fc _, issues =>
    checkFormMethod64_loop fc
      (if ty = .ElementNode ∧ d = "form"
          ∧ ¬ attrs.foldl
            (fun hasMethod attr => if attr.Key = "method" then true else hasMethod) false
        then issues.incr64 "Form element without a method attribute."
        else issues)
/-- With the counts as Go stores them:
the loop of `checkFormMethod` over the children. -/
def checkFormMethod64_loop : Ptr → Issues → Issues
  | .nil, issues => issues
  | .ref (.mk ty d attrs fc ns), issues =>
    checkFormMethod64_loop ns (checkFormMethod64 (.mk ty d attrs fc ns) issues)
end

mutual
/-- With the counts as Go stores them:
Go `checkFormEnctype`. -/
def checkFormEnctype64 : Node → Issues → Issues
  | .mk ty d attrs fc _, issues =>
    checkFormEnctype64_loop fc
      (if ty = .ElementNode ∧ d = "form"
          ∧ ¬ attrs.foldl
            (fun hasEnctype attr => if attr.Key = "enctype" then true else hasEnctype) false
        then issues.incr64 "Form element without an enctype attribute."
        else issues)
/-- With the counts as Go stores them:
the loop of `checkFormEnctype` over the children. -/
def checkFormEnctype64_loop : Ptr → Issues → Issues
  | .nil, issues => issues
  | .ref (.mk ty d attrs fc ns), issues =>
    checkFormEnctype64_loop ns (checkFormEnctype64 (.mk ty d attrs fc ns) issues)
end

mutual
/-- With the counts as Go stores them:
Go `checkFormValidity`. -/
def checkFormValidity64 : Node → Issues → Issues
  | .mk ty d attrs fc ns, issues =>
    checkFormValidity64_loop fc
      (if ty = .ElementNode ∧ d = "form" ∧ ¬ hasFormValidation (.mk ty d attrs fc ns)
        then issues.incr64 "Form element without proper validation attributes."
        else issues)
/-- With the counts as Go stores them:
the loop of `checkFormValidity` over the children. -/
def checkFormValidity64_loop : Ptr → Issues → Issues
  | .nil, issues => issues
  | .ref (.mk ty d attrs fc ns), issues =>
    checkFormValidity64_loop ns (checkFormValidity64 (.mk ty d attrs fc ns) issues)
end

mutual
/-- With the counts as Go stores them:
Go `checkArias`. -/
def checkArias64 : Node → Issues → Issues
  | .mk ty d attrs fc ns, issues =>
    checkArias64_loop fc
      (match checkArias_switch (.mk ty d attrs fc ns) with
        | some msg => issues.incr64 msg
        | none => issues)
/-- With the counts as Go stores them:
the loop of `checkArias` over the children. -/
def checkArias64_loop : Ptr → Issues → Issues
  | .nil, issues => issues
  | .ref (.mk ty d attrs fc ns), issues =>
    checkArias64_loop ns (checkArias64 (.mk ty d attrs fc ns) issues)
end

/-- With the counts as Go stores them:
Go `checkImgAlt`; `path` is the path from `node` to the root that `getLine`
walks, starting with `node` itself. -/
def checkImgAlt64 (path : List (Node × List Node)) (node : Node) (issues : Issues) : Issues :=
  if ¬ hasAltAttribute node
    then issues.incr64 ("Image element without an alt attribute. Line: " ++ getLine path)
    else issues

/-- With the counts as Go stores them:
Go `checkAnchorHref`; `path` as in `checkImgAlt`. -/
def checkAnchorHref64 (path : List (Node × List Node)) (node : Node) (issues : Issues) : Issues :=
  if ¬ hasHrefAttribute node
    then issues.incr64 ("Anchor element without an href attribute. Line: " ++ getLine path)
    else issues

/-- The call that `main` makes for a rule on the root `doc` and the map
`issues`, with the counts as Go stores them; `none` when the rule panics. -/
def runRule64 : RuleName → Node → Issues → Option Issues
  | .checkLabel, doc, issues => some (checkLabel64 doc issues)
  | .checkAltAttribute, doc, issues => some (checkAltAttribute64 doc issues)
  | .checkButtonRole, doc, issues => some (checkButtonRole64 doc issues)
  | .checkForm, doc, issues => some (checkForm64 doc issues)
  | .checkHiddenInput, doc, issues => some (checkHiddenInput64 doc issues)
  | .checkImageInput, doc, issues => some (checkImageInput64 doc issues)
  | .checkSubmitInput, doc, issues => some (checkSubmitInput64 doc issues)
  | .checkTableHeader, doc, issues => checkTableHeader64 .nil doc issues
  | .checkTableScope, doc, issues => some (checkTableScope64 doc "row" issues)
  | .checkList, doc, issues => some (checkList64 doc issues)
  | .checkHeading, doc, issues => checkHeading64 .nil doc issues
  | .checkTitle, doc, issues => some (checkTitle64 .nil doc issues)
  | .checkFormLabel, doc, issues => some (checkFormLabel64 doc issues)
  | .checkListItems, doc, issues => checkListItems64 .nil doc issues
  | .checkListLabel, doc, issues => some (checkListLabel64 doc issues)
  | .checkListIndentation, doc, issues => some (checkListIndentation64 doc 0 issues)
  | .checkFormSubmit, doc, issues => some (checkFormSubmit64 doc issues)
  | .checkFormMethod, doc, issues => some (checkFormMethod64 doc issues)
  | .checkFormEnctype, doc, issues => some (checkFormEnctype64 doc issues)
  | .checkFormValidity, doc, issues => some (checkFormValidity64 doc issues)
  | .checkArias, doc, issues => some (checkArias64 doc issues)
  | .checkImgAlt, doc, issues => some (checkImgAlt64 [(doc, [])] doc issues)
  | .checkAnchorHref, doc, issues => some (checkAnchorHref64 [(doc, [])] doc issues)

/-! # Lemmas -/

/-! ## The aggregator and the traversal scheme -/

theorem Issues.count_incr (issues : Issues) (msg k : String) :
    (issues.incr msg).count k = issues.count k + (if msg = k then 1 else 0) := by
  induction issues with
  | nil => simp [Issues.incr, Issues.count]
  | cons e rest ih =>
    obtain ⟨k', v⟩ := e
    by_cases h : k' = msg
    · subst h
      by_cases h2 : k' = k
      · simp [Issues.incr, Issues.count, h2]
      · simp [Issues.incr, Issues.count, h2]
    · by_cases h2 : k' = k
      · subst h2
        have h3 : ¬ msg = k' := fun e => h e.symm
        simp [Issues.incr, Issues.count, h, h3]
      · simp [Issues.incr, Issues.count, h, h2, ih]

theorem Issues.count_note (issues : Issues) (o : Option String) (k : String) :
    (issues.note o).count k = issues.count k + (if o = some k then 1 else 0) := by
  cases o with
  | none => simp [Issues.note]
  | some m => simp [Issues.note, Issues.count_incr]

theorem Issues.note_ite (issues : Issues) (c : Prop) [Decidable c] (msg : String) :
    (if c then issues.incr msg else issues) = issues.note (if c then some msg else none) := by
  split <;> rfl

mutual
theorem walk_count_frame (visit : Ptr → Node → Option String) (k : String)
    (hv : ∀ p n, visit p n ≠ some k) :
    ∀ (node : Node) (parent : Ptr) (issues : Issues),
      (walk visit parent node issues).count k = issues.count k
  | .mk ty d attrs fc ns, parent, issues => by
    rw [walk, walk_loop_count_frame visit k hv fc, Issues.count_note]
    simp [hv]
theorem walk_loop_count_frame (visit : Ptr → Node → Option String) (k : String)
    (hv : ∀ p n, visit p n ≠ some k) :
    ∀ (ptr : Ptr) (parent : Ptr) (issues : Issues),
      (walk_loop visit parent ptr issues).count k = issues.count k
  | .nil, parent, issues => by rw [walk_loop]
  | .ref (.mk ty d attrs fc ns), parent, issues => by
    rw [walk_loop, walk_loop_count_frame visit k hv ns,
      walk_count_frame visit k hv (.mk ty d attrs fc ns)]
end

mutual
theorem walk_count_subtree (visit : Node → Option String) (k : String) :
    ∀ (node : Node) (parent : Ptr) (issues : Issues),
      (walk (fun _ n => visit n) parent node issues).count k
        = issues.count k + (node.subtree.countP (fun n => visit n = some k) : Nat)
  | .mk ty d attrs fc ns, parent, issues => by
    rw [walk, walk_loop_count_subtree visit k fc, Issues.count_note, Node.subtree,
      List.countP_cons]
    split <;> simp_all
    omega
theorem walk_loop_count_subtree (visit : Node → Option String) (k : String) :
    ∀ (ptr : Ptr) (parent : Ptr) (issues : Issues),
      (walk_loop (fun _ n => visit n) parent ptr issues).count k
        = issues.count k + (ptr.subtrees.countP (fun n => visit n = some k) : Nat)
  | .nil, parent, issues => by simp [walk_loop, Ptr.subtrees]
  | .ref (.mk ty d attrs fc ns), parent, issues => by
    rw [walk_loop, walk_loop_count_subtree visit k ns,
      walk_count_subtree visit k (.mk ty d attrs fc ns), Ptr.subtrees, List.countP_append]
    push_cast
    omega
end

/-! ## Every tree rule is an instance of the traversal scheme -/

mutual
theorem checkLabel_eq_walk : ∀ (node : Node) (parent : Ptr) (issues : Issues),
    checkLabel node issues = walk (fun _ n => visitLabel n) parent node issues
  | .mk ty d attrs fc ns, parent, issues => by
    rw [checkLabel, walk, Issues.note_ite, checkLabel_loop_eq_walk fc]
    rfl
theorem checkLabel_loop_eq_walk : ∀ (ptr : Ptr) (parent : Ptr) (issues : Issues),
    checkLabel_loop ptr issues = walk_loop (fun _ n => visitLabel n) parent ptr issues
  | .nil, parent, issues => by rw [checkLabel_loop, walk_loop]
  | .ref (.mk ty d attrs fc ns), parent, issues => by
    rw [checkLabel_loop, walk_loop, checkLabel_loop_eq_walk ns parent,
      checkLabel_eq_walk (.mk ty d attrs fc ns) parent]
end

mutual
theorem checkInputType_eq_walk (inputType : String) : ∀ (node : Node) (parent : Ptr) (issues : Issues),
    checkInputType node inputType issues = walk (fun _ n => visitInputType inputType n) parent node issues
  | .mk ty d attrs fc ns, parent, issues => by
    rw [checkInputType, walk, Issues.note_ite, checkInputType_loop_eq_walk inputType fc]
    rfl
theorem checkInputType_loop_eq_walk (inputType : String) : ∀ (ptr : Ptr) (parent : Ptr) (issues : Issues),
    checkInputType_loop ptr inputType issues = walk_loop (fun _ n => visitInputType inputType n) parent ptr issues
  | .nil, parent, issues => by rw [checkInputType_loop, walk_loop]
  | .ref (.mk ty d attrs fc ns), parent, issues => by
    rw [checkInputType_loop, walk_loop, checkInputType_loop_eq_walk inputType ns parent,
      checkInputType_eq_walk inputType (.mk ty d attrs fc ns) parent]
end

mutual
theorem checkTitle_eq_walk : ∀ (node : Node) (parent : Ptr) (issues : Issues),
    checkTitle parent node issues = walk visitTitle parent node issues
  | .mk ty d attrs fc ns, parent, issues => by
    rw [checkTitle, walk, Issues.note_ite, checkTitle_loop_eq_walk fc]
    rfl
theorem checkTitle_loop_eq_walk : ∀ (ptr : Ptr) (parent : Ptr) (issues : Issues),
    checkTitle_loop parent ptr issues = walk_loop visitTitle parent ptr issues
  | .nil, parent, issues => by rw [checkTitle_loop, walk_loop]
  | .ref (.mk ty d attrs fc ns), parent, issues => by
    rw [checkTitle_loop, walk_loop, checkTitle_loop_eq_walk ns parent,
      checkTitle_eq_walk (.mk ty d attrs fc ns) parent]
end

mutual
theorem checkArias_eq_walk : ∀ (node : Node) (parent : Ptr) (issues : Issues),
    checkArias node issues = walk (fun _ n => checkArias_switch n) parent node issues
  | .mk ty d attrs fc ns, parent, issues => by
    rw [checkArias, walk, checkArias_loop_eq_walk fc]
    cases checkArias_switch (.mk ty d attrs fc ns) <;> rfl
theorem checkArias_loop_eq_walk : ∀ (ptr : Ptr) (parent : Ptr) (issues : Issues),
    checkArias_loop ptr issues = walk_loop (fun _ n => checkArias_switch n) parent ptr issues
  | .nil, parent, issues => by rw [checkArias_loop, walk_loop]
  | .ref (.mk ty d attrs fc ns), parent, issues => by
    rw [checkArias_loop, walk_loop, checkArias_loop_eq_walk ns parent,
      checkArias_eq_walk (.mk ty d attrs fc ns) parent]
end

mutual
theorem checkTableHeader_eq_walkF : ∀ (node : Node) (parent : Ptr) (issues : Issues),
    checkTableHeader parent node issues = walkF visitTableHeader parent node issues
  | .mk ty d attrs fc ns, parent, issues => by
    by_cases h : ty = .ElementNode ∧ d = "th"
    · cases parent with
      | nil => simp [checkTableHeader, walkF, visitTableHeader, h, Node.Typ, Node.Data]
      | ref p =>
        simp only [checkTableHeader, walkF, visitTableHeader, h, Node.Typ, Node.Data, and_self,
          if_true]
        rw [Issues.note_ite, checkTableHeader_loop_eq_walkF fc]
    · cases parent with
      | nil =>
        simp only [checkTableHeader, walkF, visitTableHeader, h, Node.Typ, Node.Data, if_false]
        rw [checkTableHeader_loop_eq_walkF fc]
        rfl
      | ref p =>
        simp only [checkTableHeader, walkF, visitTableHeader, h, Node.Typ, Node.Data, if_false]
        rw [checkTableHeader_loop_eq_walkF fc]
        rfl
theorem checkTableHeader_loop_eq_walkF : ∀ (ptr : Ptr) (parent : Ptr) (issues : Issues),
    checkTableHeader_loop parent ptr issues = walkF_loop visitTableHeader parent ptr issues
  | .nil, parent, issues => by rw [checkTableHeader_loop, walkF_loop]
  | .ref (.mk ty d attrs fc ns), parent, issues => by
    rw [checkTableHeader_loop, walkF_loop, checkTableHeader_eq_walkF (.mk ty d attrs fc ns) parent]
    cases walkF visitTableHeader parent (.mk ty d attrs fc ns) issues with
    | none => rfl
    | some is2 => exact checkTableHeader_loop_eq_walkF ns parent is2
end

mutual
theorem checkHeading_eq_walkF : ∀ (node : Node) (parent : Ptr) (issues : Issues),
    checkHeading parent node issues = walkF visitHeading parent node issues
  | .mk ty d attrs fc ns, parent, issues => by
    rw [checkHeading, walkF, visitHeading]
    cases hasHeading (.mk ty d attrs fc ns) with
    | none => rfl
    | some heading =>
      simp only []
      rw [Issues.note_ite, checkHeading_loop_eq_walkF fc]
theorem checkHeading_loop_eq_walkF : ∀ (ptr : Ptr) (parent : Ptr) (issues : Issues),
    checkHeading_loop parent ptr issues = walkF_loop visitHeading parent ptr issues
  | .nil, parent, issues => by rw [checkHeading_loop, walkF_loop]
  | .ref (.mk ty d attrs fc ns), parent, issues => by
    rw [checkHeading_loop, walkF_loop, checkHeading_eq_walkF (.mk ty d attrs fc ns) parent]
    cases walkF visitHeading parent (.mk ty d attrs fc ns) issues with
    | none => rfl
    | some is2 => exact checkHeading_loop_eq_walkF ns parent is2
end

mutual
theorem checkAltAttribute_eq_walk : ∀ (node : Node) (parent : Ptr) (issues : Issues),
    checkAltAttribute node issues = walk (fun _ n => visitAltAttribute n) parent node issues
  | .mk ty d attrs fc ns, parent, issues => by
    rw [checkAltAttribute, walk, Issues.note_ite, checkAltAttribute_loop_eq_walk fc]
    rfl
theorem checkAltAttribute_loop_eq_walk : ∀ (ptr : Ptr) (parent : Ptr) (issues : Issues),
    checkAltAttribute_loop ptr issues = walk_loop (fun _ n => visitAltAttribute n) parent ptr issues
  | .nil, parent, issues => by rw [checkAltAttribute_loop, walk_loop]
  | .ref (.mk ty d attrs fc ns), parent, issues => by
    rw [checkAltAttribute_loop, walk_loop, checkAltAttribute_loop_eq_walk ns parent,
      checkAltAttribute_eq_walk (.mk ty d attrs fc ns) parent]
end


mutual
theorem checkButtonRole_eq_walk : ∀ (node : Node) (parent : Ptr) (issues : Issues),
    checkButtonRole node issues = walk (fun _ n => visitButtonRole n) parent node issues
  | .mk ty d attrs fc ns, parent, issues => by
    rw [checkButtonRole, walk, Issues.note_ite, checkButtonRole_loop_eq_walk fc]
    rfl
theorem checkButtonRole_loop_eq_walk : ∀ (ptr : Ptr) (parent : Ptr) (issues : Issues),
    checkButtonRole_loop ptr issues = walk_loop (fun _ n => visitButtonRole n) parent ptr issues
  | .nil, parent, issues => by rw [checkButtonRole_loop, walk_loop]
  | .ref (.mk ty d attrs fc ns), parent, issues => by
    rw [checkButtonRole_loop, walk_loop, checkButtonRole_loop_eq_walk ns parent,
      checkButtonRole_eq_walk (.mk ty d attrs fc ns) parent]
end


mutual
theorem checkForm_eq_walk : ∀ (node : Node) (parent : Ptr) (issues : Issues),
    checkForm node issues = walk (fun _ n => visitForm n) parent node issues
  | .mk ty d attrs fc ns, parent, issues => by
    rw [checkForm, walk, Issues.note_ite, checkForm_loop_eq_walk fc]
    rfl
theorem checkForm_loop_eq_walk : ∀ (ptr : Ptr) (parent : Ptr) (issues : Issues),
    checkForm_loop ptr issues = walk_loop (fun _ n => visitForm n) parent ptr issues
  | .nil, parent, issues => by rw [checkForm_loop, walk_loop]
  | .ref (.mk ty d attrs fc ns), parent, issues => by
    rw [checkForm_loop, walk_loop, checkForm_loop_eq_walk ns parent,
      checkForm_eq_walk (.mk ty d attrs fc ns) parent]
end


mutual
theorem checkList_eq_walk : ∀ (node : Node) (parent : Ptr) (issues : Issues),
    checkList node issues = walk (fun _ n => visitList n) parent node issues
  | .mk ty d attrs fc ns, parent, issues => by
    rw [checkList, walk, Issues.note_ite, checkList_loop_eq_walk fc]
    rfl
theorem checkList_loop_eq_walk : ∀ (ptr : Ptr) (parent : Ptr) (issues : Issues),
    checkList_loop ptr issues = walk_loop (fun _ n => visitList n) parent ptr issues
  | .nil, parent, issues => by rw [checkList_loop, walk_loop]
  | .ref (.mk ty d attrs fc ns), parent, issues => by
    rw [checkList_loop, walk_loop, checkList_loop_eq_walk ns parent,
      checkList_eq_walk (.mk ty d attrs fc ns) parent]
end


mutual
theorem checkFormLabel_eq_walk : ∀ (node : Node) (parent : Ptr) (issues : Issues),
    checkFormLabel node issues = walk (fun _ n => visitFormLabel n) parent node issues
  | .mk ty d attrs fc ns, parent, issues => by
    rw [checkFormLabel, walk, Issues.note_ite, checkFormLabel_loop_eq_walk fc]
    rfl
theorem checkFormLabel_loop_eq_walk : ∀ (ptr : Ptr) (parent : Ptr) (issues : Issues),
    checkFormLabel_loop ptr issues = walk_loop (fun _ n => visitFormLabel n) parent ptr issues
  | .nil, parent, issues => by rw [checkFormLabel_loop, walk_loop]
  | .ref (.mk ty d attrs fc ns), parent, issues => by
    rw [checkFormLabel_loop, walk_loop, checkFormLabel_loop_eq_walk ns parent,
      checkFormLabel_eq_walk (.mk ty d attrs fc ns) parent]
end


mutual
theorem checkListLabel_eq_walk : ∀ (node : Node) (parent : Ptr) (issues : Issues),
    checkListLabel node issues = walk (fun _ n => visitListLabel n) parent node issues
  | .mk ty d attrs fc ns, parent, issues => by
    rw [checkListLabel, walk, Issues.note_ite, checkListLabel_loop_eq_walk fc]
    rfl
theorem checkListLabel_loop_eq_walk : ∀ (ptr : Ptr) (parent : Ptr) (issues : Issues),
    checkListLabel_loop ptr issues = walk_loop (fun _ n => visitListLabel n) parent ptr issues
  | .nil, parent, issues => by rw [checkListLabel_loop, walk_loop]
  | .ref (.mk ty d attrs fc ns), parent, issues => by
    rw [checkListLabel_loop, walk_loop, checkListLabel_loop_eq_walk ns parent,
      checkListLabel_eq_walk (.mk ty d attrs fc ns) parent]
end


mutual
theorem checkFormSubmit_eq_walk : ∀ (node : Node) (parent : Ptr) (issues : Issues),
    checkFormSubmit node issues = walk (fun _ n => visitFormSubmit n) parent node issues
  | .mk ty d attrs fc ns, parent, issues => by
    rw [checkFormSubmit, walk, Issues.note_ite, checkFormSubmit_loop_eq_walk fc]
    rfl
theorem checkFormSubmit_loop_eq_walk : ∀ (ptr : Ptr) (parent : Ptr) (issues : Issues),
    checkFormSubmit_loop ptr issues = walk_loop (fun _ n => visitFormSubmit n) parent ptr issues
  | .nil, parent, issues => by rw [checkFormSubmit_loop, walk_loop]
  | .ref (.mk ty d attrs fc ns), parent, issues => by
    rw [checkFormSubmit_loop, walk_loop, checkFormSubmit_loop_eq_walk ns parent,
      checkFormSubmit_eq_walk (.mk ty d attrs fc ns) parent]
end


mutual
theorem checkFormMethod_eq_walk : ∀ (node : Node) (parent : Ptr) (issues : Issues),
    checkFormMethod node issues = walk (fun _ n => visitFormMethod n) parent node issues
  | .mk ty d attrs fc ns, parent, issues => by
    rw [checkFormMethod, walk, Issues.note_ite, checkFormMethod_loop_eq_walk fc]
    rfl
theorem checkFormMethod_loop_eq_walk : ∀ (ptr : Ptr) (parent : Ptr) (issues : Issues),
    checkFormMethod_loop ptr issues = walk_loop (fun _ n => visitFormMethod n) parent ptr issues
  | .nil, parent, issues => by rw [checkFormMethod_loop, walk_loop]
  | .ref (.mk ty d attrs fc ns), parent, issues => by
    rw [checkFormMethod_loop, walk_loop, checkFormMethod_loop_eq_walk ns parent,
      checkFormMethod_eq_walk (.mk ty d attrs fc ns) parent]
end


mutual
theorem checkFormEnctype_eq_walk : ∀ (node : Node) (parent : Ptr) (issues : Issues),
    checkFormEnctype node issues = walk (fun _ n => visitFormEnctype n) parent node issues
  | .mk ty d attrs fc ns, parent, issues => by
    rw [checkFormEnctype, walk, Issues.note_ite, checkFormEnctype_loop_eq_walk fc]
    rfl
theorem checkFormEnctype_loop_eq_walk : ∀ (ptr : Ptr) (parent : Ptr) (issues : Issues),
    checkFormEnctype_loop ptr issues = walk_loop (fun _ n => visitFormEnctype n) parent ptr issues
  | .nil, parent, issues => by rw [checkFormEnctype_loop, walk_loop]
  | .ref (.mk ty d attrs fc ns), parent, issues => by
    rw [checkFormEnctype_loop, walk_loop, checkFormEnctype_loop_eq_walk ns parent,
      checkFormEnctype_eq_walk (.mk ty d attrs fc ns) parent]
end


mutual
theorem checkFormValidity_eq_walk : ∀ (node : Node) (parent : Ptr) (issues : Issues),
    checkFormValidity node issues = walk (fun _ n => visitFormValidity n) parent node issues
  | .mk ty d attrs fc ns, parent, issues => by
    rw [checkFormValidity, walk, Issues.note_ite, checkFormValidity_loop_eq_walk fc]
    rfl
theorem checkFormValidity_loop_eq_walk : ∀ (ptr : Ptr) (parent : Ptr) (issues : Issues),
    checkFormValidity_loop ptr issues = walk_loop (fun _ n => visitFormValidity n) parent ptr issues
  | .nil, parent, issues => by rw [checkFormValidity_loop, walk_loop]
  | .ref (.mk ty d attrs fc ns), parent, issues => by
    rw [checkFormValidity_loop, walk_loop, checkFormValidity_loop_eq_walk ns parent,
      checkFormValidity_eq_walk (.mk ty d attrs fc ns) parent]
end


mutual
theorem checkTableScope_eq_walk (scope : String) : ∀ (node : Node) (parent : Ptr) (issues : Issues),
    checkTableScope node scope issues = walk (fun _ n => visitTableScope scope n) parent node issues
  | .mk ty d attrs fc ns, parent, issues => by
    rw [checkTableScope, walk, Issues.note_ite, checkTableScope_loop_eq_walk scope fc]
    rfl
theorem checkTableScope_loop_eq_walk (scope : String) : ∀ (ptr : Ptr) (parent : Ptr) (issues : Issues),
    checkTableScope_loop ptr scope issues = walk_loop (fun _ n => visitTableScope scope n) parent ptr issues
  | .nil, parent, issues => by rw [checkTableScope_loop, walk_loop]
  | .ref (.mk ty d attrs fc ns), parent, issues => by
    rw [checkTableScope_loop, walk_loop, checkTableScope_loop_eq_walk scope ns parent,
      checkTableScope_eq_walk scope (.mk ty d attrs fc ns) parent]
end


mutual
theorem checkListItems_eq_walkF : ∀ (node : Node) (parent : Ptr) (issues : Issues),
    checkListItems parent node issues = walkF visitListItems parent node issues
  | .mk ty d attrs fc ns, parent, issues => by
    by_cases h : ty = .ElementNode ∧ d = "li"
    · cases parent with
      | nil => simp [checkListItems, walkF, visitListItems, h, Node.Typ, Node.Data]
      | ref p =>
        simp only [checkListItems, walkF, visitListItems, h, Node.Typ, Node.Data, and_self,
          if_true]
        rw [Issues.note_ite, checkListItems_loop_eq_walkF fc]
    · cases parent with
      | nil =>
        simp only [checkListItems, walkF, visitListItems, h, Node.Typ, Node.Data, if_false]
        rw [checkListItems_loop_eq_walkF fc]
        rfl
      | ref p =>
        simp only [checkListItems, walkF, visitListItems, h, Node.Typ, Node.Data, if_false]
        rw [checkListItems_loop_eq_walkF fc]
        rfl
theorem checkListItems_loop_eq_walkF : ∀ (ptr : Ptr) (parent : Ptr) (issues : Issues),
    checkListItems_loop parent ptr issues = walkF_loop visitListItems parent ptr issues
  | .nil, parent, issues => by rw [checkListItems_loop, walkF_loop]
  | .ref (.mk ty d attrs fc ns), parent, issues => by
    rw [checkListItems_loop, walkF_loop, checkListItems_eq_walkF (.mk ty d attrs fc ns) parent]
    cases walkF visitListItems parent (.mk ty d attrs fc ns) issues with
    | none => rfl
    | some is2 => exact checkListItems_loop_eq_walkF ns parent is2
end


mutual
theorem walkF_eq (visit : Ptr → Node → Option (Option String)) :
    ∀ (node : Node) (parent : Ptr) (issues : Issues),
      walkF visit parent node issues
        = if allNodes (fun p n => (visit p n).isSome) parent node
            then some (walk (fun p n => (visit p n).join) parent node issues) else none
  | .mk ty d attrs fc ns, parent, issues => by
    rw [walkF, allNodes, walk]
    cases h : visit parent (.mk ty d attrs fc ns) with
    | none => simp
    | some msg =>
      simp only [Option.isSome_some, Bool.true_and, Option.join]
      exact walkF_loop_eq visit fc _ _
theorem walkF_loop_eq (visit : Ptr → Node → Option (Option String)) :
    ∀ (ptr : Ptr) (parent : Ptr) (issues : Issues),
      walkF_loop visit parent ptr issues
        = if allNodes_loop (fun p n => (visit p n).isSome) parent ptr
            then some (walk_loop (fun p n => (visit p n).join) parent ptr issues) else none
  | .nil, parent, issues => by simp [walkF_loop, allNodes_loop, walk_loop]
  | .ref (.mk ty d attrs fc ns), parent, issues => by
    rw [walkF_loop, allNodes_loop, walk_loop, walkF_eq visit (.mk ty d attrs fc ns)]
    by_cases h : allNodes (fun p n => (visit p n).isSome) parent (.mk ty d attrs fc ns) = true
    · simp only [h, if_true, Bool.true_and]
      exact walkF_loop_eq visit ns _ _
    · simp [h]
end

/-! ## The messages a rule can record -/

theorem visitLabel_mem (n : Node) (k : String) (h : visitLabel n = some k) :
    k ∈ ["input element without a corresponding label element.",
      "select element without a corresponding label element.",
      "textarea element without a corresponding label element."] := by
  unfold visitLabel at h
  split at h
  · rename_i hc
    obtain ⟨_, hd, _⟩ := hc
    simp only [Option.some.injEq] at h
    subst h
    rcases hd with hd | hd | hd <;> rw [hd] <;> decide
  · exact absurd h (by simp)

theorem visitList_mem (n : Node) (k : String) (h : visitList n = some k) :
    k ∈ ["ul element without any corresponding list item elements.",
      "ol element without any corresponding list item elements."] := by
  unfold visitList at h
  split at h
  · rename_i hc
    obtain ⟨_, hd, _⟩ := hc
    simp only [Option.some.injEq] at h
    subst h
    rcases hd with hd | hd <;> rw [hd] <;> decide
  · exact absurd h (by simp)

theorem visitListLabel_mem (n : Node) (k : String) (h : visitListLabel n = some k) :
    k ∈ ["ul element without a corresponding label element.",
      "ol element without a corresponding label element."] := by
  unfold visitListLabel at h
  split at h
  · rename_i hc
    obtain ⟨hd, _⟩ := hc
    simp only [Option.some.injEq] at h
    subst h
    rcases hd with hd | hd <;> rw [hd] <;> decide
  · exact absurd h (by simp)

theorem checkArias_switch_mem (n : Node) (k : String) (h : checkArias_switch n = some k) :
    k ∈ ["Image element with aria-label attribute but without an alt attribute.",
      "Button element with aria-controls attribute but without an aria-label attribute.",
      "Input element with aria-placeholder attribute but without a corresponding label element.",
      "Select element with aria-label attribute but without a corresponding label element.",
      "Textarea element with aria-placeholder attribute but without a corresponding label element.",
      "Table element with aria-label attribute but without a corresponding caption element.",
      "audio element with aria-description attribute but without an aria-label attribute.",
      "video element with aria-description attribute but without an aria-label attribute."] := by
  unfold checkArias_switch at h
  repeat' split at h
  all_goals first
    | (cases h; done)
    | (cases h; simp; done)
    | (cases h
       rename_i hd _
       rcases hd with hd | hd <;> rw [hd] <;> decide)

/-! ## Messages a rule leaves alone -/

theorem ne_append_of_not_isPrefixOf (k pre l : String)
    (h : pre.data.isPrefixOf k.data = false) : k ≠ pre ++ l := by
  intro e
  have hp : pre.data <+: k.data := by
    rw [e, String.data_append]
    exact List.prefix_append _ _
  rw [← List.isPrefixOf_iff_prefix] at hp
  rw [hp] at h
  exact Bool.noConfusion h

theorem walk_count_frame_of_mem (visit : Ptr → Node → Option String) (msgs : List String)
    (hv : ∀ p n m, visit p n = some m → m ∈ msgs) (k : String) (hk : k ∉ msgs)
    (node : Node) (parent : Ptr) (issues : Issues) :
    (walk visit parent node issues).count k = issues.count k :=
  walk_count_frame visit k (fun p n e => hk (hv p n k e)) node parent issues

theorem walkF_count_frame_of_mem (visit : Ptr → Node → Option (Option String))
    (msgs : List String) (hv : ∀ p n m, visit p n = some (some m) → m ∈ msgs)
    (k : String) (hk : k ∉ msgs) (node : Node) (parent : Ptr) (issues out : Issues)
    (h : walkF visit parent node issues = some out) :
    out.count k = issues.count k := by
  rw [walkF_eq] at h
  split at h
  · cases h
    apply walk_count_frame
    intro p n e
    apply hk
    apply hv p n k
    cases hvis : visit p n with
    | none => rw [hvis] at e; cases e
    | some o => rw [hvis] at e; simpa [Option.join] using e
  · cases h

theorem checkLabel_count_frame (k : String)
    (hk : k ∉ ["input element without a corresponding label element.",
      "select element without a corresponding label element.",
      "textarea element without a corresponding label element."])
    (node : Node) (issues : Issues) :
    (checkLabel node issues).count k = issues.count k := by
  rw [checkLabel_eq_walk node .nil]
  exact walk_count_frame_of_mem _ _ (fun _ n m e => visitLabel_mem n m e) k hk _ _ _

theorem checkAltAttribute_count_frame (k : String)
    (hk : k ≠ "Image element without an alt attribute.")
    (node : Node) (issues : Issues) :
    (checkAltAttribute node issues).count k = issues.count k := by
  rw [checkAltAttribute_eq_walk node .nil]
  apply walk_count_frame
  intro _ n e
  unfold visitAltAttribute at e
  split at e
  · cases e; exact hk rfl
  · cases e

theorem checkButtonRole_count_frame (k : String)
    (hk : k ≠ "Button element without a corresponding label element.")
    (node : Node) (issues : Issues) :
    (checkButtonRole node issues).count k = issues.count k := by
  rw [checkButtonRole_eq_walk node .nil]
  apply walk_count_frame
  intro _ n e
  unfold visitButtonRole at e
  split at e
  · cases e; exact hk rfl
  · cases e

theorem checkForm_count_frame (k : String)
    (hk : k ≠ "Form element without any corresponding label elements.")
    (node : Node) (issues : Issues) :
    (checkForm node issues).count k = issues.count k := by
  rw [checkForm_eq_walk node .nil]
  apply walk_count_frame
  intro _ n e
  unfold visitForm at e
  split at e
  · cases e; exact hk rfl
  · cases e

theorem checkFormLabel_count_frame (k : String)
    (hk : k ≠ "Form element without a corresponding label element.")
    (node : Node) (issues : Issues) :
    (checkFormLabel node issues).count k = issues.count k := by
  rw [checkFormLabel_eq_walk node .nil]
  apply walk_count_frame
  intro _ n e
  unfold visitFormLabel at e
  split at e
  · cases e; exact hk rfl
  · cases e

theorem checkFormSubmit_count_frame (k : String)
    (hk : k ≠ "Form element without a submit button.")
    (node : Node) (issues : Issues) :
    (checkFormSubmit node issues).count k = issues.count k := by
  rw [checkFormSubmit_eq_walk node .nil]
  apply walk_count_frame
  intro _ n e
  unfold visitFormSubmit at e
  split at e
  · cases e; exact hk rfl
  · cases e

theorem checkFormMethod_count_frame (k : String)
    (hk : k ≠ "Form element without a method attribute.")
    (node : Node) (issues : Issues) :
    (checkFormMethod node issues).count k = issues.count k := by
  rw [checkFormMethod_eq_walk node .nil]
  apply walk_count_frame
  intro _ n e
  unfold visitFormMethod at e
  split at e
  · cases e; exact hk rfl
  · cases e

theorem checkFormEnctype_count_frame (k : String)
    (hk : k ≠ "Form element without an enctype attribute.")
    (node : Node) (issues : Issues) :
    (checkFormEnctype node issues).count k = issues.count k := by
  rw [checkFormEnctype_eq_walk node .nil]
  apply walk_count_frame
  intro _ n e
  unfold visitFormEnctype at e
  split at e
  · cases e; exact hk rfl
  · cases e

theorem checkFormValidity_count_frame (k : String)
    (hk : k ≠ "Form element without proper validation attributes.")
    (node : Node) (issues : Issues) :
    (checkFormValidity node issues).count k = issues.count k := by
  rw [checkFormValidity_eq_walk node .nil]
  apply walk_count_frame
  intro _ n e
  unfold visitFormValidity at e
  split at e
  · cases e; exact hk rfl
  · cases e

theorem checkTitle_count_frame (k : String)
    (hk : k ≠ "Title element not inside a head element.")
    (parent : Ptr) (node : Node) (issues : Issues) :
    (checkTitle parent node issues).count k = issues.count k := by
  rw [checkTitle_eq_walk node parent]
  apply walk_count_frame
  intro p n e
  unfold visitTitle at e
  split at e
  · cases e; exact hk rfl
  · cases e

theorem checkInputType_count_frame (inputType k : String)
    (hk : k ≠ "Input element with type '" ++ inputType ++ "' without a corresponding label element.")
    (node : Node) (issues : Issues) :
    (checkInputType node inputType issues).count k = issues.count k := by
  rw [checkInputType_eq_walk inputType node .nil]
  apply walk_count_frame
  intro _ n e
  unfold visitInputType at e
  split at e
  · cases e; exact hk rfl
  · cases e

theorem checkTableScope_count_frame (scope k : String)
    (hk : k ≠ "Table header cell without a '" ++ scope ++ "' scope attribute.")
    (node : Node) (issues : Issues) :
    (checkTableScope node scope issues).count k = issues.count k := by
  rw [checkTableScope_eq_walk scope node .nil]
  apply walk_count_frame
  intro _ n e
  unfold visitTableScope at e
  split at e
  · cases e; exact hk rfl
  · cases e

theorem checkList_count_frame (k : String)
    (hk : k ∉ ["ul element without any corresponding list item elements.",
      "ol element without any corresponding list item elements."])
    (node : Node) (issues : Issues) :
    (checkList node issues).count k = issues.count k := by
  rw [checkList_eq_walk node .nil]
  exact walk_count_frame_of_mem _ _ (fun _ n m e => visitList_mem n m e) k hk _ _ _

theorem checkListLabel_count_frame (k : String)
    (hk : k ∉ ["ul element without a corresponding label element.",
      "ol element without a corresponding label element."])
    (node : Node) (issues : Issues) :
    (checkListLabel node issues).count k = issues.count k := by
  rw [checkListLabel_eq_walk node .nil]
  exact walk_count_frame_of_mem _ _ (fun _ n m e => visitListLabel_mem n m e) k hk _ _ _

theorem checkArias_count_frame (k : String)
    (hk : k ∉ ["Image element with aria-label attribute but without an alt attribute.",
      "Button element with aria-controls attribute but without an aria-label attribute.",
      "Input element with aria-placeholder attribute but without a corresponding label element.",
      "Select element with aria-label attribute but without a corresponding label element.",
      "Textarea element with aria-placeholder attribute but without a corresponding label element.",
      "Table element with aria-label attribute but without a corresponding caption element.",
      "audio element with aria-description attribute but without an aria-label attribute.",
      "video element with aria-description attribute but without an aria-label attribute."])
    (node : Node) (issues : Issues) :
    (checkArias node issues).count k = issues.count k := by
  rw [checkArias_eq_walk node .nil]
  exact walk_count_frame_of_mem _ _ (fun _ n m e => checkArias_switch_mem n m e) k hk _ _ _

theorem checkTableHeader_count_frame (k : String)
    (hk : k ≠ "Table header cell without a corresponding th or td parent element.")
    (parent : Ptr) (node : Node) (issues out : Issues)
    (h : checkTableHeader parent node issues = some out) :
    out.count k = issues.count k := by
  rw [checkTableHeader_eq_walkF] at h
  refine walkF_count_frame_of_mem _ ["Table header cell without a corresponding th or td parent element."] ?_ k (by simpa using hk) node parent issues out h
  intro p n m e
  unfold visitTableHeader at e
  split at e
  · cases p with
    | nil => cases e
    | ref q =>
      simp only [Option.some.injEq] at e
      split at e
      · cases e; simp
      · cases e
  · cases e

theorem checkListItems_count_frame (k : String)
    (hk : k ≠ "List item element without a corresponding ol or ul parent element.")
    (parent : Ptr) (node : Node) (issues out : Issues)
    (h : checkListItems parent node issues = some out) :
    out.count k = issues.count k := by
  rw [checkListItems_eq_walkF] at h
  refine walkF_count_frame_of_mem _ ["List item element without a corresponding ol or ul parent element."] ?_ k (by simpa using hk) node parent issues out h
  intro p n m e
  unfold visitListItems at e
  split at e
  · cases p with
    | nil => cases e
    | ref q =>
      simp only [Option.some.injEq] at e
      split at e
      · cases e; simp
      · cases e
  · cases e

theorem checkHeading_count_frame (k : String)
    (hk : k ≠ "Heading element without a corresponding title element.")
    (parent : Ptr) (node : Node) (issues out : Issues)
    (h : checkHeading parent node issues = some out) :
    out.count k = issues.count k := by
  rw [checkHeading_eq_walkF] at h
  refine walkF_count_frame_of_mem _
    ["Heading element without a corresponding title element."] ?_ k (by simpa using hk)
    node parent issues out h
  intro p n m e
  unfold visitHeading at e
  cases hh : hasHeading n with
  | none => rw [hh] at e; cases e
  | some b =>
    rw [hh] at e
    simp only [Option.some.injEq] at e
    split at e
    · cases e; simp
    · cases e

theorem checkListIndentation_depth_zero (data : String) (prev : Ptr) (issues : Issues) :
    checkListIndentation_depth data prev 0 issues = issues := rfl

theorem checkListIndentation_li (ty : NodeType) (attrs : List Attribute) (fc ns : Ptr)
    (depth : Int) (issues : Issues) :
    checkListIndentation (.mk ty "li" attrs fc ns) depth issues = issues := by
  rw [checkListIndentation]
  have h : ¬ (ty = .ElementNode ∧ ("li" = "ul" ∨ "li" = "ol")) := by
    rintro ⟨_, h | h⟩ <;> exact absurd h (by decide)
  rw [if_neg h]

theorem checkListIndentation_loop_zero (data : String) :
    ∀ (ptr prev : Ptr) (issues : Issues),
      checkListIndentation_loop data 0 prev ptr issues = issues
  | .nil, prev, issues => by rw [checkListIndentation_loop]
  | .ref (.mk ty d attrs fc ns), prev, issues => by
    rw [checkListIndentation_loop, checkListIndentation_loop_zero data ns]
    split
    · rename_i hc
      obtain ⟨_, hd⟩ := hc
      subst hd
      rw [checkListIndentation_li]
      rfl
    · rfl

theorem checkListIndentation_zero (node : Node) (issues : Issues) :
    checkListIndentation node 0 issues = issues := by
  obtain ⟨ty, d, attrs, fc, ns⟩ := node
  rw [checkListIndentation]
  split
  · exact checkListIndentation_loop_zero d fc .nil issues
  · rfl

theorem checkImgAlt_count_frame (k : String)
    (hk : ∀ line, k ≠ "Image element without an alt attribute. Line: " ++ line)
    (path : List (Node × List Node)) (node : Node) (issues : Issues) :
    (checkImgAlt path node issues).count k = issues.count k := by
  unfold checkImgAlt
  split
  · rw [Issues.count_incr, if_neg (fun e => hk _ e.symm), add_zero]
  · rfl

theorem checkAnchorHref_count_frame (k : String)
    (hk : ∀ line, k ≠ "Anchor element without an href attribute. Line: " ++ line)
    (path : List (Node × List Node)) (node : Node) (issues : Issues) :
    (checkAnchorHref path node issues).count k = issues.count k := by
  unfold checkAnchorHref
  split
  · rw [Issues.count_incr, if_neg (fun e => hk _ e.symm), add_zero]
  · rfl

/-! ## The full rule set -/

theorem visitAltAttribute_iff (n : Node) :
    visitAltAttribute n = some "Image element without an alt attribute."
      ↔ imgWithoutAlt n = true := by
  unfold visitAltAttribute imgWithoutAlt hasAltAttribute
  split
  · rename_i h
    simp only [true_iff, decide_eq_true_eq]
    refine ⟨h.1, h.2.1, ?_⟩
    have h3 := h.2.2
    simpa using h3
  · rename_i h
    simp only [decide_eq_true_eq]
    constructor
    · intro e; cases e
    · intro h2
      exfalso
      apply h
      refine ⟨h2.1, h2.2.1, ?_⟩
      simpa using h2.2.2

theorem checkAltAttribute_count (node : Node) (issues : Issues) :
    (checkAltAttribute node issues).count "Image element without an alt attribute."
      = issues.count "Image element without an alt attribute."
        + (node.subtree.countP imgWithoutAlt : Nat) := by
  rw [checkAltAttribute_eq_walk node .nil, walk_count_subtree]
  congr 2
  apply List.countP_congr
  intro n _
  simp [visitAltAttribute_iff]

/-- Unfolding of `fullRuleSet` into its three fallible steps. -/
theorem fullRuleSet_some (doc : Node) (issues : Issues) (h : fullRuleSet doc = some issues) :
    ∃ i8 i11 i14,
      checkTableHeader .nil doc
        (checkSubmitInput doc (checkImageInput doc (checkHiddenInput doc (checkForm doc
          (checkButtonRole doc (checkAltAttribute doc (checkLabel doc []))))))) = some i8
      ∧ checkHeading .nil doc (checkList doc (checkTableScope doc "row" i8)) = some i11
      ∧ checkListItems .nil doc (checkFormLabel doc (checkTitle .nil doc i11)) = some i14
      ∧ issues = checkAnchorHref [(doc, [])] doc (checkImgAlt [(doc, [])] doc
          (checkArias doc (checkFormValidity doc (checkFormEnctype doc (checkFormMethod doc
            (checkFormSubmit doc (checkListIndentation doc 0 (checkListLabel doc i14)))))))) := by
  unfold fullRuleSet at h
  simp only [] at h
  split at h
  · cases h
  · rename_i i8 h8
    split at h
    · cases h
    · rename_i i11 h11
      split at h
      · cases h
      · rename_i i14 h14
        cases h
        exact ⟨i8, i11, i14, h8, h11, h14, rfl⟩


/-- The count of a message that only `checkAltAttribute`, `checkForm` or
`checkFormLabel` can record is, after the full rule set, the number of nodes at
which these three rules record it. -/
theorem fullRuleSet_count_of_not_mem (doc : Node) (issues : Issues)
    (h : fullRuleSet doc = some issues) (k : String)
    (hk : k ∉ ["input element without a corresponding label element.",
      "select element without a corresponding label element.",
      "textarea element without a corresponding label element.",
      "Button element without a corresponding label element.",
      "Input element with type '" ++ "hidden" ++ "' without a corresponding label element.",
      "Input element with type '" ++ "image" ++ "' without a corresponding label element.",
      "Input element with type '" ++ "submit" ++ "' without a corresponding label element.",
      "Table header cell without a corresponding th or td parent element.",
      "Table header cell without a '" ++ "row" ++ "' scope attribute.",
      "ul element without any corresponding list item elements.",
      "ol element without any corresponding list item elements.",
      "Heading element without a corresponding title element.",
      "Title element not inside a head element.",
      "List item element without a corresponding ol or ul parent element.",
      "ul element without a corresponding label element.",
      "ol element without a corresponding label element.",
      "Form element without a submit button.",
      "Form element without a method attribute.",
      "Form element without an enctype attribute.",
      "Form element without proper validation attributes.",
      "Image element with aria-label attribute but without an alt attribute.",
      "Button element with aria-controls attribute but without an aria-label attribute.",
      "Input element with aria-placeholder attribute but without a corresponding label element.",
      "Select element with aria-label attribute but without a corresponding label element.",
      "Textarea element with aria-placeholder attribute but without a corresponding label element.",
      "Table element with aria-label attribute but without a corresponding caption element.",
      "audio element with aria-description attribute but without an aria-label attribute.",
      "video element with aria-description attribute but without an aria-label attribute."])
    (himg : ∀ line, k ≠ "Image element without an alt attribute. Line: " ++ line)
    (hanchor : ∀ line, k ≠ "Anchor element without an href attribute. Line: " ++ line) :
    issues.count k
      = ((doc.subtree.countP (fun n => visitAltAttribute n = some k)
        + doc.subtree.countP (fun n => visitForm n = some k)
        + doc.subtree.countP (fun n => visitFormLabel n = some k) : Nat) : Int) := by
  obtain ⟨i8, i11, i14, h8, h11, h14, rfl⟩ := fullRuleSet_some doc issues h
  simp only [List.mem_cons, List.mem_singleton, not_or, List.not_mem_nil, not_false_eq_true,
    and_true] at hk
  obtain ⟨m1, m2, m3, m4, m5, m6, m7, m8, m9, m10, m11, m12, m13, m15, m16, m17, m18,
    m19, m20, m21, m22, m23, m24, m25, m26, m27, m28, m29⟩ := hk
  rw [checkAnchorHref_count_frame k hanchor, checkImgAlt_count_frame k himg,
    checkArias_count_frame k (by simp [m22, m23, m24, m25, m26, m27, m28, m29]),
    checkFormValidity_count_frame k m21, checkFormEnctype_count_frame k m20,
    checkFormMethod_count_frame k m19, checkFormSubmit_count_frame k m18,
    checkListIndentation_zero, checkListLabel_count_frame k (by simp [m16, m17]),
    checkListItems_count_frame k m15 _ _ _ _ h14, checkFormLabel_eq_walk doc .nil,
    walk_count_subtree,
    checkTitle_count_frame k m13, checkHeading_count_frame k m12 _ _ _ _ h11,
    checkList_count_frame k (by simp [m10, m11]), checkTableScope_count_frame "row" k m9,
    checkTableHeader_count_frame k m8 _ _ _ _ h8, checkSubmitInput,
    checkInputType_count_frame "submit" k m7, checkImageInput,
    checkInputType_count_frame "image" k m6, checkHiddenInput,
    checkInputType_count_frame "hidden" k m5, checkForm_eq_walk doc .nil, walk_count_subtree,
    checkButtonRole_count_frame k m4, checkAltAttribute_eq_walk doc .nil, walk_count_subtree,
    checkLabel_count_frame k (by simp [m1, m2, m3])]
  simp only [Issues.count]
  push_cast
  ring

/-! ## Completion -/

theorem headingTag_isSome (d : String) (h1 : d ≠ "") (h2 : d ≠ "h") :
    (headingTag d).isSome = true := by
  obtain ⟨l⟩ := d
  unfold headingTag
  cases l with
  | nil => exact absurd rfl h1
  | cons c0 rest =>
    simp only []
    split
    · rename_i hc
      cases rest with
      | nil => subst hc; exact absurd rfl h2
      | cons c1 r => rfl
    · rfl

mutual
theorem hasHeading_isSome : ∀ (node : Node),
    (∀ x ∈ node.subtree, x.Typ = .ElementNode → x.Data ≠ "" ∧ x.Data ≠ "h") →
      (hasHeading node).isSome = true
  | .mk ty d attrs fc ns, h => by
    rw [hasHeading]
    have hself := h (.mk ty d attrs fc ns) (by rw [Node.subtree]; exact List.mem_cons_self _ _)
    have hfc := hasHeading_loop_isSome fc (fun x hx => h x (by
      rw [Node.subtree]; exact List.mem_cons_of_mem _ hx))
    by_cases hty : ty = .ElementNode
    · have := headingTag_isSome d (hself hty).1 (hself hty).2
      rw [if_pos hty]
      cases hd : headingTag d with
      | none => rw [hd] at this; cases this
      | some b => cases b <;> simp [hfc]
    · rw [if_neg hty]
      simpa using hfc
theorem hasHeading_loop_isSome : ∀ (ptr : Ptr),
    (∀ x ∈ ptr.subtrees, x.Typ = .ElementNode → x.Data ≠ "" ∧ x.Data ≠ "h") →
      (hasHeading_loop ptr).isSome = true
  | .nil, _ => by rw [hasHeading_loop]; rfl
  | .ref (.mk ty d attrs fc ns), h => by
    rw [hasHeading_loop]
    have h1 := hasHeading_isSome (.mk ty d attrs fc ns) (fun x hx => h x (by
      rw [Ptr.subtrees]; exact List.mem_append_left _ hx))
    have h2 := hasHeading_loop_isSome ns (fun x hx => h x (by
      rw [Ptr.subtrees]; exact List.mem_append_right _ hx))
    cases hh : hasHeading (.mk ty d attrs fc ns) with
    | none => rw [hh] at h1; cases h1
    | some b => cases b <;> simp [h2]
end

mutual
theorem checkHeading_isSome : ∀ (node : Node) (parent : Ptr) (issues : Issues),
    (∀ x ∈ node.subtree, x.Typ = .ElementNode → x.Data ≠ "" ∧ x.Data ≠ "h") →
      (checkHeading parent node issues).isSome = true
  | .mk ty d attrs fc ns, parent, issues, h => by
    rw [checkHeading]
    have h1 := hasHeading_isSome (.mk ty d attrs fc ns) h
    cases hh : hasHeading (.mk ty d attrs fc ns) with
    | none => rw [hh] at h1; cases h1
    | some b =>
      simp only []
      exact checkHeading_loop_isSome fc _ _ (fun x hx => h x (by
        rw [Node.subtree]; exact List.mem_cons_of_mem _ hx))
theorem checkHeading_loop_isSome : ∀ (ptr : Ptr) (parent : Ptr) (issues : Issues),
    (∀ x ∈ ptr.subtrees, x.Typ = .ElementNode → x.Data ≠ "" ∧ x.Data ≠ "h") →
      (checkHeading_loop parent ptr issues).isSome = true
  | .nil, parent, issues, _ => by rw [checkHeading_loop]; rfl
  | .ref (.mk ty d attrs fc ns), parent, issues, h => by
    rw [checkHeading_loop]
    have h1 := checkHeading_isSome (.mk ty d attrs fc ns) parent issues (fun x hx => h x (by
      rw [Ptr.subtrees]; exact List.mem_append_left _ hx))
    cases hh : checkHeading parent (.mk ty d attrs fc ns) issues with
    | none => rw [hh] at h1; cases h1
    | some is2 =>
      simp only []
      exact checkHeading_loop_isSome ns parent is2 (fun x hx => h x (by
        rw [Ptr.subtrees]; exact List.mem_append_right _ hx))
end

mutual
theorem allNodes_ref (ok : Ptr → Node → Bool) (hok : ∀ q m, ok (.ref q) m = true) :
    ∀ (node : Node) (q : Node), allNodes ok (.ref q) node = true
  | .mk ty d attrs fc ns, q => by
    rw [allNodes, hok, allNodes_loop_ref ok hok fc]
    rfl
theorem allNodes_loop_ref (ok : Ptr → Node → Bool) (hok : ∀ q m, ok (.ref q) m = true) :
    ∀ (ptr : Ptr) (q : Node), allNodes_loop ok (.ref q) ptr = true
  | .nil, q => by rw [allNodes_loop]
  | .ref (.mk ty d attrs fc ns), q => by
    rw [allNodes_loop, allNodes_ref ok hok, allNodes_loop_ref ok hok ns]
    rfl
end

theorem checkTableHeader_isSome (node : Node) (issues : Issues)
    (h : ¬ (node.Typ = .ElementNode ∧ node.Data = "th")) :
    (checkTableHeader .nil node issues).isSome = true := by
  rw [checkTableHeader_eq_walkF, walkF_eq]
  have hall : allNodes (fun p n => (visitTableHeader p n).isSome) .nil node = true := by
    obtain ⟨ty, d, attrs, fc, ns⟩ := node
    rw [allNodes, allNodes_loop_ref]
    · simp only [Bool.and_true]
      unfold visitTableHeader
      rw [if_neg h]
      rfl
    · intro q m
      unfold visitTableHeader
      split <;> rfl
  rw [if_pos hall]
  rfl

theorem checkListItems_isSome (node : Node) (issues : Issues)
    (h : ¬ (node.Typ = .ElementNode ∧ node.Data = "li")) :
    (checkListItems .nil node issues).isSome = true := by
  rw [checkListItems_eq_walkF, walkF_eq]
  have hall : allNodes (fun p n => (visitListItems p n).isSome) .nil node = true := by
    obtain ⟨ty, d, attrs, fc, ns⟩ := node
    rw [allNodes, allNodes_loop_ref]
    · simp only [Bool.and_true]
      unfold visitListItems
      rw [if_neg h]
      rfl
    · intro q m
      unfold visitListItems
      split <;> rfl
  rw [if_pos hall]
  rfl

theorem fullRuleSet_isSome (doc : Node) (h : panicFree doc = true) :
    ∃ issues, fullRuleSet doc = some issues := by
  unfold panicFree at h
  simp only [decide_eq_true_eq] at h
  obtain ⟨hroot, htags⟩ := h
  have hth : ¬ (doc.Typ = .ElementNode ∧ doc.Data = "th") := fun e => hroot ⟨e.1, Or.inl e.2⟩
  have hli : ¬ (doc.Typ = .ElementNode ∧ doc.Data = "li") := fun e => hroot ⟨e.1, Or.inr e.2⟩
  unfold fullRuleSet
  simp only []
  have h8 := checkTableHeader_isSome doc
    (checkSubmitInput doc (checkImageInput doc (checkHiddenInput doc (checkForm doc
      (checkButtonRole doc (checkAltAttribute doc (checkLabel doc []))))))) hth
  obtain ⟨i8, e8⟩ := Option.isSome_iff_exists.mp h8
  rw [e8]
  simp only []
  have h11 := checkHeading_isSome doc .nil (checkList doc (checkTableScope doc "row" i8)) htags
  obtain ⟨i11, e11⟩ := Option.isSome_iff_exists.mp h11
  rw [e11]
  simp only []
  have h14 := checkListItems_isSome doc (checkFormLabel doc (checkTitle .nil doc i11)) hli
  obtain ⟨i14, e14⟩ := Option.isSome_iff_exists.mp h14
  rw [e14]
  exact ⟨_, rfl⟩

/-! ## The predicates, as searches of the subtree -/

theorem foldl_flag (P : Attribute → Prop) [DecidablePred P] (attrs : List Attribute) (b : Bool) :
    attrs.foldl (fun flag a => if P a then true else flag) b
      = (b || attrs.any (fun a => decide (P a))) := by
  induction attrs generalizing b with
  | nil => simp
  | cons a rest ih =>
    rw [List.foldl_cons, ih, List.any_cons]
    by_cases h : P a
    · simp [h]
    · simp [h]

theorem checkFormSubmit_scan_eq : ∀ (ptr : Ptr) (b : Bool),
    checkFormSubmit_scan ptr b = (b || ptr.chain.any isSubmitInput)
  | .nil, b => by simp [checkFormSubmit_scan, Ptr.chain]
  | .ref (.mk ty d attrs fc ns), b => by
    rw [checkFormSubmit_scan, checkFormSubmit_scan_eq ns, Ptr.chain, List.any_cons]
    by_cases h : ty = .ElementNode ∧ d = "input"
    · rw [if_pos h, foldl_flag (fun a => a.Key = "type" ∧ a.Val = "submit")]
      have : isSubmitInput (.mk ty d attrs fc ns)
          = attrs.any (fun a => decide (a.Key = "type" ∧ a.Val = "submit")) := by
        unfold isSubmitInput
        rw [Bool.eq_iff_iff]
        simp [Node.Typ, Node.Data, Node.Attr, h.1, h.2]
      rw [this, Bool.or_assoc]
    · rw [if_neg h]
      have : isSubmitInput (.mk ty d attrs fc ns) = false := by
        unfold isSubmitInput
        simp only [Node.Typ, Node.Data, decide_eq_false_iff_not]
        intro h2
        exact h ⟨h2.1, h2.2.1⟩
      rw [this, Bool.false_or]

theorem visitFormSubmit_iff (n : Node) :
    visitFormSubmit n = some "Form element without a submit button."
      ↔ formWithoutSubmitChild n = true := by
  unfold visitFormSubmit formWithoutSubmitChild Node.children
  rw [checkFormSubmit_scan_eq]
  split
  · rename_i h
    simp only [true_iff, decide_eq_true_eq]
    refine ⟨h.1, h.2.1, ?_⟩
    simpa using h.2.2
  · rename_i h
    simp only [decide_eq_true_eq]
    constructor
    · intro e; cases e
    · intro h2
      exfalso
      apply h
      refine ⟨h2.1, h2.2.1, ?_⟩
      simpa using h2.2.2

mutual
theorem hasTableScope_eq (scope : String) : ∀ (node : Node),
    hasTableScope node scope
      = node.subtree.any (fun m => decide (m.Data = "th") && carriesScope scope m)
  | .mk ty d attrs fc ns => by
    rw [hasTableScope, Node.subtree, List.any_cons, hasTableScope_loop_eq scope fc]
    have : (decide (d = "th") && attrs.any (fun a => decide (a.Key = "scope" ∧ a.Val = scope)))
        = (decide ((Node.mk ty d attrs fc ns).Data = "th")
          && carriesScope scope (.mk ty d attrs fc ns)) := by
      unfold carriesScope
      rw [Bool.eq_iff_iff]
      simp [Node.Data, Node.Attr]
    rw [← this]
    by_cases h : d = "th" ∧ attrs.any (fun a => decide (a.Key = "scope" ∧ a.Val = scope)) = true
    · rw [if_pos h]
      have : (decide (d = "th")
          && attrs.any (fun a => decide (a.Key = "scope" ∧ a.Val = scope))) = true := by
        rw [h.2, decide_eq_true h.1]
        rfl
      rw [this, Bool.true_or]
    · rw [if_neg h]
      have : (decide (d = "th")
          && attrs.any (fun a => decide (a.Key = "scope" ∧ a.Val = scope))) = false := by
        rw [Bool.eq_false_iff]
        intro e
        apply h
        simpa using e
      rw [this, Bool.false_or]
theorem hasTableScope_loop_eq (scope : String) : ∀ (ptr : Ptr),
    hasTableScope_loop ptr scope
      = ptr.subtrees.any (fun m => decide (m.Data = "th") && carriesScope scope m)
  | .nil => by simp [hasTableScope_loop, Ptr.subtrees]
  | .ref (.mk ty d attrs fc ns) => by
    rw [hasTableScope_loop, Ptr.subtrees, List.any_append,
      ← hasTableScope_eq scope (.mk ty d attrs fc ns), ← hasTableScope_loop_eq scope ns]
    cases hasTableScope (.mk ty d attrs fc ns) scope <;> simp
end

mutual
theorem hasLabel_eq : ∀ (node : Node),
    hasLabel node = node.subtree.any (fun m => decide (m.Data = "label"))
  | .mk ty d attrs fc ns => by
    rw [hasLabel, Node.subtree, List.any_cons, hasLabel_loop_eq fc]
    by_cases h : d = "label"
    · rw [if_pos h]; simp [Node.Data, h]
    · rw [if_neg h]; simp [Node.Data, h]
theorem hasLabel_loop_eq : ∀ (ptr : Ptr),
    hasLabel_loop ptr = ptr.subtrees.any (fun m => decide (m.Data = "label"))
  | .nil => by simp [hasLabel_loop, Ptr.subtrees]
  | .ref (.mk ty d attrs fc ns) => by
    rw [hasLabel_loop, Ptr.subtrees, List.any_append,
      ← hasLabel_eq (.mk ty d attrs fc ns), ← hasLabel_loop_eq ns]
    cases hasLabel (.mk ty d attrs fc ns) <;> simp
end

mutual
theorem subtree_trans : ∀ (node : Node) (m : Node), m ∈ node.subtree →
    ∀ x ∈ m.subtree, x ∈ node.subtree
  | .mk ty d attrs fc ns, m, hm, x, hx => by
    rw [Node.subtree] at hm ⊢
    rcases List.mem_cons.mp hm with e | hm'
    · subst e
      rw [Node.subtree] at hx
      exact hx
    · exact List.mem_cons_of_mem _ (subtrees_trans fc m hm' x hx)
theorem subtrees_trans : ∀ (ptr : Ptr) (m : Node), m ∈ ptr.subtrees →
    ∀ x ∈ m.subtree, x ∈ ptr.subtrees
  | .nil, m, hm, x, hx => by
    rw [Ptr.subtrees] at hm
    cases hm
  | .ref (.mk ty d attrs fc ns), m, hm, x, hx => by
    rw [Ptr.subtrees] at hm ⊢
    rcases List.mem_append.mp hm with hm' | hm'
    · exact List.mem_append_left _ (subtree_trans (.mk ty d attrs fc ns) m hm' x hx)
    · exact List.mem_append_right _ (subtrees_trans ns m hm' x hx)
end

theorem hasFormValidation_attrs_iff (attrs : List Attribute) :
    hasFormValidation_attrs attrs = true
      ↔ ∃ pre a post, attrs = pre ++ a :: post ∧ a.Key = "validate"
          ∧ ∀ b ∈ pre, b.Key ≠ "novalidate" := by
  induction attrs with
  | nil =>
    simp [hasFormValidation_attrs]
  | cons a rest ih =>
    rw [hasFormValidation_attrs]
    by_cases h1 : a.Key = "novalidate"
    · rw [if_pos h1]
      constructor
      · intro e; cases e
      · rintro ⟨pre, b, post, e, hb, hpre⟩
        cases pre with
        | nil =>
          simp only [List.nil_append, List.cons.injEq] at e
          rw [← e.1, h1] at hb
          exact absurd hb (by decide)
        | cons p pre' =>
          simp only [List.cons_append, List.cons.injEq] at e
          exact absurd h1 (e.1 ▸ hpre p (List.mem_cons_self _ _))
    · rw [if_neg h1]
      by_cases h2 : a.Key = "validate"
      · rw [if_pos h2]
        simp only [true_iff]
        exact ⟨[], a, rest, rfl, h2, fun b hb => by cases hb⟩
      · rw [if_neg h2, ih]
        constructor
        · rintro ⟨pre, b, post, e, hb, hpre⟩
          refine ⟨a :: pre, b, post, by rw [e]; rfl, hb, ?_⟩
          intro c hc
          rcases List.mem_cons.mp hc with e2 | hc'
          · rw [e2]; exact h1
          · exact hpre c hc'
        · rintro ⟨pre, b, post, e, hb, hpre⟩
          cases pre with
          | nil =>
            simp only [List.nil_append, List.cons.injEq] at e
            rw [← e.1] at hb
            exact absurd hb h2
          | cons p pre' =>
            simp only [List.cons_append, List.cons.injEq] at e
            exact ⟨pre', b, post, e.2, hb, fun c hc => hpre c (List.mem_cons_of_mem _ hc)⟩

/-! ## The table header rule finds the cell it checks -/

theorem hasTableHeader_loop_of_mem : ∀ (ptr : Ptr) (c : Node), c ∈ ptr.chain →
    c.Data = "th" → hasTableHeader_loop ptr = true
  | .nil, c, hc, _ => by
    rw [Ptr.chain] at hc
    cases hc
  | .ref (.mk ty d attrs fc ns), c, hc, hd => by
    rw [hasTableHeader_loop]
    rw [Ptr.chain] at hc
    rcases List.mem_cons.mp hc with e | hc'
    · subst e
      have : hasTableHeader (.mk ty d attrs fc ns) = true := by
        have hd2 : d = "th" := hd
        rw [hasTableHeader, if_pos hd2]
      rw [if_pos this]
    · by_cases h : hasTableHeader (.mk ty d attrs fc ns) = true
      · rw [if_pos h]
      · rw [if_neg h]
        exact hasTableHeader_loop_of_mem ns c hc' hd

theorem hasTableHeader_of_child (node : Node) (c : Node) (hc : c ∈ node.children)
    (hd : c.Data = "th") : hasTableHeader node = true := by
  obtain ⟨ty, d, attrs, fc, ns⟩ := node
  rw [hasTableHeader]
  by_cases h : d = "th"
  · rw [if_pos h]
  · rw [if_neg h]
    exact hasTableHeader_loop_of_mem fc c hc hd

mutual
theorem checkTableHeader_below : ∀ (node p : Node) (issues : Issues),
    (node.Data = "th" → hasTableHeader p = true) →
      checkTableHeader (.ref p) node issues = some issues
  | .mk ty d attrs fc ns, p, issues, h => by
    have hloop := checkTableHeader_loop_below fc (.mk ty d attrs fc ns) issues
      (fun c hc hd => hasTableHeader_of_child (.mk ty d attrs fc ns) c hc hd)
    by_cases hc : ty = .ElementNode ∧ d = "th"
    · have hp : hasTableHeader p = true := h hc.2
      simp only [checkTableHeader, hc, and_self, if_true, hp, not_true_eq_false, if_false]
      rw [← hc.1, ← hc.2]
      exact hloop
    · simp only [checkTableHeader, hc, if_false]
      exact hloop
theorem checkTableHeader_loop_below : ∀ (ptr : Ptr) (p : Node) (issues : Issues),
    (∀ c ∈ ptr.chain, c.Data = "th" → hasTableHeader p = true) →
      checkTableHeader_loop (.ref p) ptr issues = some issues
  | .nil, p, issues, _ => by rw [checkTableHeader_loop]
  | .ref (.mk ty d attrs fc ns), p, issues, h => by
    rw [checkTableHeader_loop, checkTableHeader_below (.mk ty d attrs fc ns) p issues
      (h _ (by rw [Ptr.chain]; exact List.mem_cons_self _ _))]
    exact checkTableHeader_loop_below ns p issues (fun c hc hd =>
      h c (by rw [Ptr.chain]; exact List.mem_cons_of_mem _ hc) hd)
end

theorem checkTableHeader_root (doc : Node) (issues : Issues)
    (h : ¬ (doc.Typ = .ElementNode ∧ doc.Data = "th")) :
    checkTableHeader .nil doc issues = some issues := by
  obtain ⟨ty, d, attrs, fc, ns⟩ := doc
  have hloop := checkTableHeader_loop_below fc (.mk ty d attrs fc ns) issues
    (fun c hc hd => hasTableHeader_of_child (.mk ty d attrs fc ns) c hc hd)
  have h2 : ¬ (ty = .ElementNode ∧ d = "th") := h
  simp only [checkTableHeader, h2, if_false]
  exact hloop

/-! ## The aria attribute predicate -/

theorem aria_key_iff (key suffix : String) :
    ("aria-".data.isPrefixOf key.data && decide (String.mk (key.data.drop 5) = suffix)) = true
      ↔ key = "aria-" ++ suffix := by
  obtain ⟨l⟩ := key
  obtain ⟨s⟩ := suffix
  simp only [Bool.and_eq_true, decide_eq_true_eq, List.isPrefixOf_iff_prefix]
  constructor
  · rintro ⟨⟨t, ht⟩, h2⟩
    subst ht
    have : List.drop 5 ("aria-".data ++ t) = t := by
      show List.drop 5 (['a', 'r', 'i', 'a', '-'] ++ t) = t
      rfl
    rw [this] at h2
    cases h2
    rfl
  · intro h
    have hl : l = "aria-".data ++ s := by
      have := congrArg String.data h
      simpa using this
    subst hl
    exact ⟨List.prefix_append _ _, rfl⟩

theorem hasAriaAttribute_iff (node : Node) (suffix : String) :
    hasAriaAttribute node suffix = true ↔ ∃ a ∈ node.Attr, a.Key = "aria-" ++ suffix := by
  unfold hasAriaAttribute
  rw [List.any_eq_true]
  constructor
  · rintro ⟨a, ha, h⟩
    exact ⟨a, ha, (aria_key_iff a.Key suffix).mp h⟩
  · rintro ⟨a, ha, h⟩
    exact ⟨a, ha, (aria_key_iff a.Key suffix).mpr h⟩

theorem hasAriaAttribute_eq_hasKey (node : Node) (suffix : String) :
    hasAriaAttribute node suffix = hasKey ("aria-" ++ suffix) node := by
  rw [Bool.eq_iff_iff, hasAriaAttribute_iff]
  unfold hasKey
  simp

theorem Issues.incr_ne (issues : Issues) (msg : String) : issues.incr msg ≠ issues := by
  intro e
  have h := Issues.count_incr issues msg msg
  rw [e] at h
  simp at h

theorem checkArias_switch_button (n : Node) :
    checkArias_switch n
        = some "Button element with aria-controls attribute but without an aria-label attribute."
      ↔ ariaWithoutLabel "button" "aria-controls" n = true := by
  have e1 : hasAriaAttribute n "controls" = hasKey "aria-controls" n :=
    hasAriaAttribute_eq_hasKey n "controls"
  have e2 : hasAriaAttribute n "label" = hasKey "aria-label" n :=
    hasAriaAttribute_eq_hasKey n "label"
  unfold checkArias_switch ariaWithoutLabel
  rw [e1, e2]
  simp only [decide_eq_true_eq]
  constructor
  · intro h
    repeat' split at h
    all_goals first
      | (cases h; done)
      | (exfalso; revert h; simp; done)
      | (simp_all; done)
      | (exfalso
         rename_i hd _
         rcases hd with hd | hd <;> rw [hd] at h <;> revert h <;> decide)
  · rintro ⟨h1, h2, h3, h4⟩
    have himg : ¬ n.Data = "img" := by rw [h2]; decide
    simp [h1, h2, h3, h4]

theorem checkArias_switch_media (tag : String) (htag : tag = "audio" ∨ tag = "video") (n : Node) :
    checkArias_switch n
        = some (tag ++ " element with aria-description attribute but without an aria-label attribute.")
      ↔ ariaWithoutLabel tag "aria-description" n = true := by
  have e1 : hasAriaAttribute n "description" = hasKey "aria-description" n :=
    hasAriaAttribute_eq_hasKey n "description"
  have e2 : hasAriaAttribute n "label" = hasKey "aria-label" n :=
    hasAriaAttribute_eq_hasKey n "label"
  unfold checkArias_switch ariaWithoutLabel
  rw [e1, e2]
  simp only [decide_eq_true_eq]
  constructor
  · intro h
    repeat' split at h
    all_goals first
      | (cases h)
      | (exfalso; rcases htag with ht | ht <;> rw [ht] at h <;> revert h <;> decide)
      | (rename_i hty _ _ _ _ _ _ hd hc
         simp only [Option.some.injEq] at h
         rcases htag with ht | ht <;> rcases hd with hd | hd <;> rw [ht, hd] at h
         · rw [ht]; exact ⟨hty, hd, hc.1, by simpa using hc.2⟩
         · exact absurd h (by decide)
         · exact absurd h (by decide)
         · rw [ht]; exact ⟨hty, hd, hc.1, by simpa using hc.2⟩)
  · rintro ⟨h1, h2, h3, h4⟩
    rcases htag with ht | ht <;> subst ht <;> simp [h1, h2, h3, h4]

/-! ## Recording a list of messages -/

theorem Issues.record_nil (issues : Issues) : issues.record [] = issues := rfl

theorem Issues.record_cons (issues : Issues) (m : String) (msgs : List String) :
    issues.record (m :: msgs) = (issues.incr m).record msgs := rfl

theorem Issues.record_append (issues : Issues) (a b : List String) :
    issues.record (a ++ b) = (issues.record a).record b := by
  unfold Issues.record
  rw [List.foldl_append]

theorem Issues.note_eq_record (issues : Issues) (o : Option String) :
    issues.note o = issues.record o.toList := by
  cases o <;> rfl

theorem Issues.count_record (issues : Issues) (msgs : List String) (k : String) :
    (issues.record msgs).count k = issues.count k + (msgs.count k : Nat) := by
  induction msgs generalizing issues with
  | nil => simp [Issues.record_nil]
  | cons m rest ih =>
    rw [Issues.record_cons, ih, Issues.count_incr, List.count_cons]
    by_cases h : m = k
    · simp [h]; ring
    · simp [h]

theorem Issues.keys_incr (issues : Issues) (msg k : String) :
    k ∈ (issues.incr msg).keys ↔ k ∈ issues.keys ∨ k = msg := by
  induction issues with
  | nil => simp [Issues.incr, Issues.keys]
  | cons e rest ih =>
    obtain ⟨k', v⟩ := e
    unfold Issues.keys at ih ⊢
    by_cases h : k' = msg
    · subst h
      simp only [Issues.incr, if_true, List.map_cons, List.mem_cons]
      tauto
    · simp only [Issues.incr, h, if_false, List.map_cons, List.mem_cons, ih]
      tauto

theorem Issues.keys_record (issues : Issues) (msgs : List String) (k : String) :
    k ∈ (issues.record msgs).keys ↔ k ∈ issues.keys ∨ k ∈ msgs := by
  induction msgs generalizing issues with
  | nil => simp [Issues.record_nil]
  | cons m rest ih =>
    rw [Issues.record_cons, ih, Issues.keys_incr, List.mem_cons]
    tauto

theorem Issues.count_of_not_mem_keys (issues : Issues) (k : String) (h : k ∉ issues.keys) :
    issues.count k = 0 := by
  induction issues with
  | nil => rfl
  | cons e rest ih =>
    obtain ⟨k', v⟩ := e
    unfold Issues.keys at h ih
    simp only [List.map_cons, List.mem_cons, not_or] at h
    rw [Issues.count, if_neg (fun e => h.1 e.symm)]
    exact ih h.2

theorem Issues.sum_incr (issues : Issues) (msg : String) :
    ((issues.incr msg).map Prod.snd).sum = (issues.map Prod.snd).sum + 1 := by
  induction issues with
  | nil => simp [Issues.incr]
  | cons e rest ih =>
    obtain ⟨k', v⟩ := e
    by_cases h : k' = msg
    · simp only [Issues.incr, h, if_true, List.map_cons, List.sum_cons]
      ring
    · simp only [Issues.incr, h, if_false, List.map_cons, List.sum_cons, ih]
      ring

theorem Issues.sum_record (issues : Issues) (msgs : List String) :
    ((issues.record msgs).map Prod.snd).sum = (issues.map Prod.snd).sum + (msgs.length : Nat) := by
  induction msgs generalizing issues with
  | nil => simp [Issues.record_nil]
  | cons m rest ih =>
    rw [Issues.record_cons, ih, Issues.sum_incr, List.length_cons]
    push_cast
    ring

theorem Issues.length_record_pos (issues : Issues) (msgs : List String) (h : msgs ≠ []) :
    0 < (issues.record msgs).length := by
  cases msgs with
  | nil => exact absurd rfl h
  | cons m rest =>
    have hk : m ∈ (issues.record (m :: rest)).keys := by
      rw [Issues.keys_record]
      exact Or.inr (List.mem_cons_self _ _)
    unfold Issues.keys at hk
    cases hl : issues.record (m :: rest) with
    | nil => rw [hl] at hk; cases hk
    | cons e l => simp

theorem count_add_count_le_length (l : List String) (a b : String) (h : a ≠ b) :
    l.count a + l.count b ≤ l.length := by
  induction l with
  | nil => simp
  | cons x rest ih =>
    rw [List.count_cons, List.count_cons, List.length_cons]
    by_cases h1 : x = a
    · have h2 : ¬ x = b := fun e => h (h1.symm.trans e)
      simp [h1, h2] at ih ⊢
      subst h1
      simp [h2] at ih ⊢
      omega
    · by_cases h2 : x = b
      · simp [h1, h2] at ih ⊢
        subst h2
        simp [h1] at ih ⊢
        omega
      · simp [h1, h2]
        omega

theorem Node.subtree_length_pos (node : Node) : 0 < node.subtree.length := by
  obtain ⟨ty, d, attrs, fc, ns⟩ := node
  rw [Node.subtree]
  simp

mutual
theorem walk_record (visit : Ptr → Node → Option String) :
    ∀ (node : Node) (parent : Ptr),
      ∃ msgs, msgs.length ≤ node.subtree.length
        ∧ ∀ issues, walk visit parent node issues = issues.record msgs
  | .mk ty d attrs fc ns, parent => by
    obtain ⟨m, hl, hm⟩ := walk_loop_record visit fc (.ref (.mk ty d attrs fc ns))
    refine ⟨(visit parent (.mk ty d attrs fc ns)).toList ++ m, ?_, fun issues => ?_⟩
    · rw [Node.subtree, List.length_append, List.length_cons]
      cases visit parent (.mk ty d attrs fc ns) <;> simp <;> omega
    · rw [walk, hm, Issues.record_append, Issues.note_eq_record]
theorem walk_loop_record (visit : Ptr → Node → Option String) :
    ∀ (ptr : Ptr) (parent : Ptr),
      ∃ msgs, msgs.length ≤ ptr.subtrees.length
        ∧ ∀ issues, walk_loop visit parent ptr issues = issues.record msgs
  | .nil, parent => ⟨[], Nat.zero_le _, fun issues => by rw [walk_loop]; rfl⟩
  | .ref (.mk ty d attrs fc ns), parent => by
    obtain ⟨m1, l1, h1⟩ := walk_record visit (.mk ty d attrs fc ns) parent
    obtain ⟨m2, l2, h2⟩ := walk_loop_record visit ns parent
    refine ⟨m1 ++ m2, ?_, fun issues => ?_⟩
    · rw [Ptr.subtrees, List.length_append, List.length_append]
      omega
    · rw [walk_loop, h1, h2, Issues.record_append]
end

/-! ## The rules, one by one and in sequence -/

theorem walkF_record (visit : Ptr → Node → Option (Option String)) (node : Node)
    (parent : Ptr) :
    (∀ issues, walkF visit parent node issues = none)
      ∨ ∃ msgs, msgs.length ≤ node.subtree.length
          ∧ ∀ issues, walkF visit parent node issues = some (issues.record msgs) := by
  by_cases h : allNodes (fun p n => (visit p n).isSome) parent node = true
  · right
    obtain ⟨msgs, hl, hm⟩ := walk_record (fun p n => (visit p n).join) node parent
    exact ⟨msgs, hl, fun issues => by rw [walkF_eq, if_pos h, hm]⟩
  · left
    intro issues
    rw [walkF_eq, if_neg h]

/-- Every rule either panics on a tree whatever the map, or records on every
map the same list of messages, at most one for each node of the tree. -/
theorem runRule_record (r : RuleName) (doc : Node) :
    (∀ issues, runRule r doc issues = none)
      ∨ ∃ msgs, msgs.length ≤ doc.subtree.length
          ∧ ∀ issues, runRule r doc issues = some (issues.record msgs) := by
  cases r
  case checkLabel =>
    obtain ⟨m, hl, h⟩ := walk_record (fun _ n => visitLabel n) doc .nil
    exact Or.inr ⟨m, hl, fun is => by rw [runRule, checkLabel_eq_walk doc .nil, h]⟩
  case checkAltAttribute =>
    obtain ⟨m, hl, h⟩ := walk_record (fun _ n => visitAltAttribute n) doc .nil
    exact Or.inr ⟨m, hl, fun is => by rw [runRule, checkAltAttribute_eq_walk doc .nil, h]⟩
  case checkButtonRole =>
    obtain ⟨m, hl, h⟩ := walk_record (fun _ n => visitButtonRole n) doc .nil
    exact Or.inr ⟨m, hl, fun is => by rw [runRule, checkButtonRole_eq_walk doc .nil, h]⟩
  case checkForm =>
    obtain ⟨m, hl, h⟩ := walk_record (fun _ n => visitForm n) doc .nil
    exact Or.inr ⟨m, hl, fun is => by rw [runRule, checkForm_eq_walk doc .nil, h]⟩
  case checkHiddenInput =>
    obtain ⟨m, hl, h⟩ := walk_record (fun _ n => visitInputType "hidden" n) doc .nil
    exact Or.inr ⟨m, hl, fun is => by
      rw [runRule, checkHiddenInput, checkInputType_eq_walk "hidden" doc .nil, h]⟩
  case checkImageInput =>
    obtain ⟨m, hl, h⟩ := walk_record (fun _ n => visitInputType "image" n) doc .nil
    exact Or.inr ⟨m, hl, fun is => by
      rw [runRule, checkImageInput, checkInputType_eq_walk "image" doc .nil, h]⟩
  case checkSubmitInput =>
    obtain ⟨m, hl, h⟩ := walk_record (fun _ n => visitInputType "submit" n) doc .nil
    exact Or.inr ⟨m, hl, fun is => by
      rw [runRule, checkSubmitInput, checkInputType_eq_walk "submit" doc .nil, h]⟩
  case checkTableHeader =>
    rcases walkF_record visitTableHeader doc .nil with h | ⟨m, hl, h⟩
    · exact Or.inl (fun is => by rw [runRule, checkTableHeader_eq_walkF, h])
    · exact Or.inr ⟨m, hl, fun is => by rw [runRule, checkTableHeader_eq_walkF, h]⟩
  case checkTableScope =>
    obtain ⟨m, hl, h⟩ := walk_record (fun _ n => visitTableScope "row" n) doc .nil
    exact Or.inr ⟨m, hl, fun is => by rw [runRule, checkTableScope_eq_walk "row" doc .nil, h]⟩
  case checkList =>
    obtain ⟨m, hl, h⟩ := walk_record (fun _ n => visitList n) doc .nil
    exact Or.inr ⟨m, hl, fun is => by rw [runRule, checkList_eq_walk doc .nil, h]⟩
  case checkHeading =>
    rcases walkF_record visitHeading doc .nil with h | ⟨m, hl, h⟩
    · exact Or.inl (fun is => by rw [runRule, checkHeading_eq_walkF, h])
    · exact Or.inr ⟨m, hl, fun is => by rw [runRule, checkHeading_eq_walkF, h]⟩
  case checkTitle =>
    obtain ⟨m, hl, h⟩ := walk_record visitTitle doc .nil
    exact Or.inr ⟨m, hl, fun is => by rw [runRule, checkTitle_eq_walk doc .nil, h]⟩
  case checkFormLabel =>
    obtain ⟨m, hl, h⟩ := walk_record (fun _ n => visitFormLabel n) doc .nil
    exact Or.inr ⟨m, hl, fun is => by rw [runRule, checkFormLabel_eq_walk doc .nil, h]⟩
  case checkListItems =>
    rcases walkF_record visitListItems doc .nil with h | ⟨m, hl, h⟩
    · exact Or.inl (fun is => by rw [runRule, checkListItems_eq_walkF, h])
    · exact Or.inr ⟨m, hl, fun is => by rw [runRule, checkListItems_eq_walkF, h]⟩
  case checkListLabel =>
    obtain ⟨m, hl, h⟩ := walk_record (fun _ n => visitListLabel n) doc .nil
    exact Or.inr ⟨m, hl, fun is => by rw [runRule, checkListLabel_eq_walk doc .nil, h]⟩
  case checkListIndentation =>
    exact Or.inr ⟨[], Nat.zero_le _, fun is => by
      rw [runRule, checkListIndentation_zero]; rfl⟩
  case checkFormSubmit =>
    obtain ⟨m, hl, h⟩ := walk_record (fun _ n => visitFormSubmit n) doc .nil
    exact Or.inr ⟨m, hl, fun is => by rw [runRule, checkFormSubmit_eq_walk doc .nil, h]⟩
  case checkFormMethod =>
    obtain ⟨m, hl, h⟩ := walk_record (fun _ n => visitFormMethod n) doc .nil
    exact Or.inr ⟨m, hl, fun is => by rw [runRule, checkFormMethod_eq_walk doc .nil, h]⟩
  case checkFormEnctype =>
    obtain ⟨m, hl, h⟩ := walk_record (fun _ n => visitFormEnctype n) doc .nil
    exact Or.inr ⟨m, hl, fun is => by rw [runRule, checkFormEnctype_eq_walk doc .nil, h]⟩
  case checkFormValidity =>
    obtain ⟨m, hl, h⟩ := walk_record (fun _ n => visitFormValidity n) doc .nil
    exact Or.inr ⟨m, hl, fun is => by rw [runRule, checkFormValidity_eq_walk doc .nil, h]⟩
  case checkArias =>
    obtain ⟨m, hl, h⟩ := walk_record (fun _ n => checkArias_switch n) doc .nil
    exact Or.inr ⟨m, hl, fun is => by rw [runRule, checkArias_eq_walk doc .nil, h]⟩
  case checkImgAlt =>
    right
    by_cases h : hasAltAttribute doc = true
    · exact ⟨[], Nat.zero_le _, fun is => by
        simp [runRule, checkImgAlt, h, Issues.record_nil]⟩
    · exact ⟨["Image element without an alt attribute. Line: " ++ getLine [(doc, [])]],
        Node.subtree_length_pos doc, fun is => by
          simp [runRule, checkImgAlt, h, Issues.record, List.foldl]⟩
  case checkAnchorHref =>
    right
    by_cases h : hasHrefAttribute doc = true
    · exact ⟨[], Nat.zero_le _, fun is => by
        simp [runRule, checkAnchorHref, h, Issues.record_nil]⟩
    · exact ⟨["Anchor element without an href attribute. Line: " ++ getLine [(doc, [])]],
        Node.subtree_length_pos doc, fun is => by
          simp [runRule, checkAnchorHref, h, Issues.record, List.foldl]⟩

theorem fullRuleSet_eq_runRules (doc : Node) :
    fullRuleSet doc = runRules ruleOrder doc [] := by
  unfold fullRuleSet ruleOrder
  simp only [runRules, runRule]

/-- The run of a rule on any map, from its run on the empty map. -/
theorem runRule_of_nil (r : RuleName) (doc : Node) (issues : Issues) :
    (runRule r doc issues = none ↔ runRule r doc [] = none)
    ∧ ∀ out out0, runRule r doc issues = some out → runRule r doc [] = some out0 →
        (∀ k, out.count k = issues.count k + out0.count k)
        ∧ ∀ k, k ∈ out.keys ↔ k ∈ issues.keys ∨ k ∈ out0.keys := by
  rcases runRule_record r doc with h | ⟨msgs, _, h⟩
  · refine ⟨by rw [h, h], ?_⟩
    intro out out0 e
    rw [h] at e
    cases e
  · refine ⟨by rw [h, h]; simp, ?_⟩
    intro out out0 e e0
    rw [h] at e e0
    cases e
    cases e0
    refine ⟨fun k => ?_, fun k => ?_⟩
    · rw [Issues.count_record, Issues.count_record]
      simp [Issues.count]
    · rw [Issues.keys_record, Issues.keys_record]
      simp [Issues.keys]

theorem runRules_record (rs : List RuleName) (doc : Node) :
    (∀ issues, runRules rs doc issues = none)
      ∨ ∃ msgs, ∀ issues, runRules rs doc issues = some (issues.record msgs) := by
  induction rs with
  | nil => exact Or.inr ⟨[], fun is => rfl⟩
  | cons r rest ih =>
    rcases runRule_record r doc with h | ⟨m1, _, h1⟩
    · exact Or.inl (fun is => by rw [runRules, h])
    · rcases ih with h2 | ⟨m2, h2⟩
      · exact Or.inl (fun is => by rw [runRules, h1]; exact h2 _)
      · exact Or.inr ⟨m1 ++ m2, fun is => by
          rw [runRules, h1, Issues.record_append]; exact h2 _⟩

theorem runRules_eq_none_iff (rs : List RuleName) (doc : Node) (issues : Issues) :
    runRules rs doc issues = none ↔ ∃ r ∈ rs, runRule r doc [] = none := by
  induction rs generalizing issues with
  | nil => simp [runRules]
  | cons r rest ih =>
    rw [runRules]
    cases h : runRule r doc issues with
    | none =>
      have := ((runRule_of_nil r doc issues).1).mp h
      simp only [true_iff]
      exact ⟨r, List.mem_cons_self _ _, this⟩
    | some out =>
      have hn : ¬ runRule r doc [] = none := fun e => by
        have := ((runRule_of_nil r doc issues).1).mpr e
        rw [h] at this
        cases this
      simp only []
      rw [ih]
      constructor
      · rintro ⟨r', hr', e⟩
        exact ⟨r', List.mem_cons_of_mem _ hr', e⟩
      · rintro ⟨r', hr', e⟩
        rcases List.mem_cons.mp hr' with e2 | hr2
        · subst e2; exact absurd e hn
        · exact ⟨r', hr2, e⟩

theorem runRules_count (rs : List RuleName) (doc : Node) (issues out : Issues)
    (h : runRules rs doc issues = some out) (k : String) :
    out.count k
      = issues.count k + (rs.map (fun r => ((runRule r doc []).getD []).count k)).sum := by
  induction rs generalizing issues with
  | nil =>
    rw [runRules] at h
    cases h
    simp
  | cons r rest ih =>
    rw [runRules] at h
    cases h1 : runRule r doc issues with
    | none => rw [h1] at h; cases h
    | some mid =>
      rw [h1] at h
      simp only [] at h
      cases h0 : runRule r doc [] with
      | none =>
        have := ((runRule_of_nil r doc issues).1).mpr h0
        rw [h1] at this
        cases this
      | some out0 =>
        have hadd := ((runRule_of_nil r doc issues).2 mid out0 h1 h0).1 k
        rw [ih mid h, hadd, List.map_cons, List.sum_cons, h0]
        simp only [Option.getD_some]
        ring

theorem runRules_keys (rs : List RuleName) (doc : Node) (issues out : Issues)
    (h : runRules rs doc issues = some out) (k : String) :
    k ∈ out.keys
      ↔ k ∈ issues.keys ∨ ∃ r ∈ rs, k ∈ ((runRule r doc []).getD []).keys := by
  induction rs generalizing issues with
  | nil =>
    rw [runRules] at h
    cases h
    simp
  | cons r rest ih =>
    rw [runRules] at h
    cases h1 : runRule r doc issues with
    | none => rw [h1] at h; cases h
    | some mid =>
      rw [h1] at h
      simp only [] at h
      cases h0 : runRule r doc [] with
      | none =>
        have := ((runRule_of_nil r doc issues).1).mpr h0
        rw [h1] at this
        cases this
      | some out0 =>
        have hkeys := ((runRule_of_nil r doc issues).2 mid out0 h1 h0).2 k
        rw [ih mid h, hkeys]
        simp only [List.mem_cons, exists_eq_or_imp, h0, Option.getD_some]
        tauto

theorem runRules_perm (rs rs2 : List RuleName) (hp : rs2.Perm rs) (doc : Node)
    (issues : Issues) :
    (runRules rs2 doc issues = none ↔ runRules rs doc issues = none)
    ∧ ∀ out out2, runRules rs doc issues = some out → runRules rs2 doc issues = some out2 →
        (∀ k, out2.count k = out.count k) ∧ ∀ k, k ∈ out2.keys ↔ k ∈ out.keys := by
  refine ⟨?_, ?_⟩
  · rw [runRules_eq_none_iff, runRules_eq_none_iff]
    constructor
    · rintro ⟨r, hr, e⟩
      exact ⟨r, hp.mem_iff.mp hr, e⟩
    · rintro ⟨r, hr, e⟩
      exact ⟨r, hp.mem_iff.mpr hr, e⟩
  · intro out out2 h h2
    refine ⟨fun k => ?_, fun k => ?_⟩
    · rw [runRules_count rs doc issues out h k, runRules_count rs2 doc issues out2 h2 k,
        (hp.map _).sum_eq]
    · rw [runRules_keys rs doc issues out h k, runRules_keys rs2 doc issues out2 h2 k]
      constructor
      · rintro (h | ⟨r, hr, e⟩)
        · exact Or.inl h
        · exact Or.inr ⟨r, hp.mem_iff.mp hr, e⟩
      · rintro (h | ⟨r, hr, e⟩)
        · exact Or.inl h
        · exact Or.inr ⟨r, hp.mem_iff.mpr hr, e⟩

/-! ## The heading rule at the root -/

theorem walk_count_le (visit : Ptr → Node → Option String) (node : Node) (parent : Ptr)
    (issues : Issues) (k : String) :
    issues.count k ≤ (walk visit parent node issues).count k := by
  obtain ⟨msgs, _, h⟩ := walk_record visit node parent
  rw [h, Issues.count_record]
  omega

theorem walk_loop_count_le (visit : Ptr → Node → Option String) (ptr : Ptr) (parent : Ptr)
    (issues : Issues) (k : String) :
    issues.count k ≤ (walk_loop visit parent ptr issues).count k := by
  obtain ⟨msgs, _, h⟩ := walk_loop_record visit ptr parent
  rw [h, Issues.count_record]
  omega

theorem headingTag_some (d : String) (b : Bool) (h : headingTag d = some b) :
    isHeadingTag d = b := by
  obtain ⟨l⟩ := d
  unfold headingTag at h
  unfold isHeadingTag
  cases l with
  | nil => cases h
  | cons c0 rest =>
    simp only [] at h
    by_cases hc : c0 = 'h'
    · rw [if_pos hc] at h
      cases rest with
      | nil => cases h
      | cons c1 r =>
        simp only [Option.some.injEq] at h
        simp only [hc, decide_True, Bool.true_and]
        exact h
    · rw [if_neg hc] at h
      simp only [Option.some.injEq] at h
      subst h
      cases rest with
      | nil => rfl
      | cons c1 r => simp [hc]

mutual
theorem hasHeading_false : ∀ (node : Node), hasHeading node = some false →
    ∀ m ∈ node.subtree, isHeadingElement m = false
  | .mk ty d attrs fc ns, h, m, hm => by
    rw [hasHeading] at h
    rw [Node.subtree] at hm
    by_cases hty : ty = .ElementNode
    · rw [if_pos hty] at h
      cases ht : headingTag d with
      | none => rw [ht] at h; cases h
      | some b =>
        rw [ht] at h
        cases b with
        | true => cases h
        | false =>
          simp only [] at h
          rcases List.mem_cons.mp hm with e | hm'
          · subst e
            unfold isHeadingElement
            have := headingTag_some d false ht
            simp only [Node.Data]
            rw [this, Bool.and_false]
          · exact hasHeading_loop_false fc h m hm'
    · rw [if_neg hty] at h
      simp only [] at h
      rcases List.mem_cons.mp hm with e | hm'
      · subst e
        unfold isHeadingElement
        simp [Node.Typ, hty]
      · exact hasHeading_loop_false fc h m hm'
theorem hasHeading_loop_false : ∀ (ptr : Ptr), hasHeading_loop ptr = some false →
    ∀ m ∈ ptr.subtrees, isHeadingElement m = false
  | .nil, _, m, hm => by
    rw [Ptr.subtrees] at hm
    cases hm
  | .ref (.mk ty d attrs fc ns), h, m, hm => by
    rw [hasHeading_loop] at h
    rw [Ptr.subtrees] at hm
    cases hh : hasHeading (.mk ty d attrs fc ns) with
    | none => rw [hh] at h; cases h
    | some b =>
      rw [hh] at h
      cases b with
      | true => cases h
      | false =>
        simp only [] at h
        rcases List.mem_append.mp hm with hm' | hm'
        · exact hasHeading_false (.mk ty d attrs fc ns) hh m hm'
        · exact hasHeading_loop_false ns h m hm'
end

theorem checkHeading_root_count (doc : Node)
    (hh : ∃ m ∈ doc.subtree, isHeadingElement m = true) (issues out : Issues)
    (h : checkHeading .nil doc issues = some out) :
    issues.count "Heading element without a corresponding title element." + 1
      ≤ out.count "Heading element without a corresponding title element." := by
  obtain ⟨ty, d, attrs, fc, ns⟩ := doc
  rw [checkHeading] at h
  cases hhead : hasHeading (.mk ty d attrs fc ns) with
  | none => rw [hhead] at h; cases h
  | some b =>
    rw [hhead] at h
    simp only [] at h
    cases b with
    | false =>
      obtain ⟨m, hm, hme⟩ := hh
      rw [hasHeading_false _ hhead m hm] at hme
      cases hme
    | true =>
      have hfire : (true = true ∧ ¬ hasTitle .nil = true) := ⟨rfl, by simp [hasTitle]⟩
      rw [if_pos hfire, checkHeading_loop_eq_walkF, walkF_loop_eq] at h
      split at h
      · cases h
        refine le_trans ?_ (walk_loop_count_le _ _ _ _ _)
        rw [Issues.count_incr]
        simp
      · cases h

/-! ## The root-only rules -/

/-- A message that no tree rule records has count 0 after a tree rule has run
on the empty map. -/
theorem runRule_tree_rule_count (r : RuleName) (hr : r ≠ .checkImgAlt)
    (hr2 : r ≠ .checkAnchorHref) (doc : Node) (k : String)
    (hk : k ∉ ["input element without a corresponding label element.",
      "select element without a corresponding label element.",
      "textarea element without a corresponding label element.",
      "Image element without an alt attribute.",
      "Button element without a corresponding label element.",
      "Form element without any corresponding label elements.",
      "Input element with type '" ++ "hidden" ++ "' without a corresponding label element.",
      "Input element with type '" ++ "image" ++ "' without a corresponding label element.",
      "Input element with type '" ++ "submit" ++ "' without a corresponding label element.",
      "Table header cell without a corresponding th or td parent element.",
      "Table header cell without a '" ++ "row" ++ "' scope attribute.",
      "ul element without any corresponding list item elements.",
      "ol element without any corresponding list item elements.",
      "Heading element without a corresponding title element.",
      "Title element not inside a head element.",
      "Form element without a corresponding label element.",
      "List item element without a corresponding ol or ul parent element.",
      "ul element without a corresponding label element.",
      "ol element without a corresponding label element.",
      "Form element without a submit button.",
      "Form element without a method attribute.",
      "Form element without an enctype attribute.",
      "Form element without proper validation attributes.",
      "Image element with aria-label attribute but without an alt attribute.",
      "Button element with aria-controls attribute but without an aria-label attribute.",
      "Input element with aria-placeholder attribute but without a corresponding label element.",
      "Select element with aria-label attribute but without a corresponding label element.",
      "Textarea element with aria-placeholder attribute but without a corresponding label element.",
      "Table element with aria-label attribute but without a corresponding caption element.",
      "audio element with aria-description attribute but without an aria-label attribute.",
      "video element with aria-description attribute but without an aria-label attribute."]) :
    ((runRule r doc []).getD []).count k = 0 := by
  simp only [List.mem_cons, List.mem_singleton, not_or, List.not_mem_nil, not_false_eq_true,
    and_true] at hk
  obtain ⟨m1, m2, m3, m4, m5, m6, m7, m8, m9, m10, m11, m12, m13, m14, m15, m16, m17, m18, m19, m20, m21, m22, m23, m24, m25, m26, m27, m28, m29, m30, m31⟩ := hk
  cases r
  case checkLabel =>
    simp only [runRule, Option.getD_some]
    rw [checkLabel_count_frame k (by simp [m1, m2, m3])]
    rfl
  case checkAltAttribute =>
    simp only [runRule, Option.getD_some]
    rw [checkAltAttribute_count_frame k m4]
    rfl
  case checkButtonRole =>
    simp only [runRule, Option.getD_some]
    rw [checkButtonRole_count_frame k m5]
    rfl
  case checkForm =>
    simp only [runRule, Option.getD_some]
    rw [checkForm_count_frame k m6]
    rfl
  case checkHiddenInput =>
    simp only [runRule, Option.getD_some, checkHiddenInput]
    rw [checkInputType_count_frame "hidden" k m7]
    rfl
  case checkImageInput =>
    simp only [runRule, Option.getD_some, checkImageInput]
    rw [checkInputType_count_frame "image" k m8]
    rfl
  case checkSubmitInput =>
    simp only [runRule, Option.getD_some, checkSubmitInput]
    rw [checkInputType_count_frame "submit" k m9]
    rfl
  case checkTableScope =>
    simp only [runRule, Option.getD_some]
    rw [checkTableScope_count_frame "row" k m11]
    rfl
  case checkList =>
    simp only [runRule, Option.getD_some]
    rw [checkList_count_frame k (by simp [m12, m13])]
    rfl
  case checkTitle =>
    simp only [runRule, Option.getD_some]
    rw [checkTitle_count_frame k m15]
    rfl
  case checkFormLabel =>
    simp only [runRule, Option.getD_some]
    rw [checkFormLabel_count_frame k m16]
    rfl
  case checkListLabel =>
    simp only [runRule, Option.getD_some]
    rw [checkListLabel_count_frame k (by simp [m18, m19])]
    rfl
  case checkFormSubmit =>
    simp only [runRule, Option.getD_some]
    rw [checkFormSubmit_count_frame k m20]
    rfl
  case checkFormMethod =>
    simp only [runRule, Option.getD_some]
    rw [checkFormMethod_count_frame k m21]
    rfl
  case checkFormEnctype =>
    simp only [runRule, Option.getD_some]
    rw [checkFormEnctype_count_frame k m22]
    rfl
  case checkFormValidity =>
    simp only [runRule, Option.getD_some]
    rw [checkFormValidity_count_frame k m23]
    rfl
  case checkArias =>
    simp only [runRule, Option.getD_some]
    rw [checkArias_count_frame k (by simp [m24, m25, m26, m27, m28, m29, m30, m31])]
    rfl
  case checkTableHeader =>
    cases h : checkTableHeader .nil doc [] with
    | none => simp [runRule, h, Issues.count]
    | some out =>
      simp only [runRule, h, Option.getD_some]
      rw [checkTableHeader_count_frame k m10 _ _ _ _ h]
      rfl
  case checkHeading =>
    cases h : checkHeading .nil doc [] with
    | none => simp [runRule, h, Issues.count]
    | some out =>
      simp only [runRule, h, Option.getD_some]
      rw [checkHeading_count_frame k m14 _ _ _ _ h]
      rfl
  case checkListItems =>
    cases h : checkListItems .nil doc [] with
    | none => simp [runRule, h, Issues.count]
    | some out =>
      simp only [runRule, h, Option.getD_some]
      rw [checkListItems_count_frame k m17 _ _ _ _ h]
      rfl
  case checkListIndentation =>
    simp only [runRule, Option.getD_some, checkListIndentation_zero]
    rfl
  case checkImgAlt => exact absurd rfl hr
  case checkAnchorHref => exact absurd rfl hr2

theorem getLine_document_root (doc : Node) (hty : doc.Typ = .DocumentNode) :
    getLine [(doc, [])] = "" := by
  have h : ¬ (doc.Typ = .ElementNode ∨ doc.Typ = .CommentNode) := by
    rw [hty]
    decide
  simp only [getLine, getLine_chain, h, if_false]

theorem checkImgAlt_document_root (doc : Node) (hty : doc.Typ = .DocumentNode)
    (hattr : doc.Attr = []) (issues : Issues) :
    checkImgAlt [(doc, [])] doc issues
      = issues.incr "Image element without an alt attribute. Line: " := by
  have h : ¬ hasAltAttribute doc = true := by
    unfold hasAltAttribute
    rw [hattr]
    simp
  unfold checkImgAlt
  rw [if_pos h, getLine_document_root doc hty]
  rfl

theorem checkAnchorHref_document_root (doc : Node) (hty : doc.Typ = .DocumentNode)
    (hattr : doc.Attr = []) (issues : Issues) :
    checkAnchorHref [(doc, [])] doc issues
      = issues.incr "Anchor element without an href attribute. Line: " := by
  have h : ¬ hasHrefAttribute doc = true := by
    unfold hasHrefAttribute
    rw [hattr]
    simp
  unfold checkAnchorHref
  rw [if_pos h, getLine_document_root doc hty]
  rfl

/-- After the full rule set, the count of a message that no tree rule records
is what the two root-only rules record on the empty map. -/
theorem fullRuleSet_count_root_rules (doc : Node) (out : Issues)
    (h : fullRuleSet doc = some out) (k : String)
    (hk : ∀ (r : RuleName), r ≠ .checkImgAlt → r ≠ .checkAnchorHref →
      ((runRule r doc []).getD []).count k = 0) :
    out.count k
      = (checkImgAlt [(doc, [])] doc []).count k
        + (checkAnchorHref [(doc, [])] doc []).count k := by
  rw [fullRuleSet_eq_runRules] at h
  rw [runRules_count ruleOrder doc [] out h k]
  have hsplit : ruleOrder
      = [.checkLabel, .checkAltAttribute, .checkButtonRole, .checkForm, .checkHiddenInput,
          .checkImageInput, .checkSubmitInput, .checkTableHeader, .checkTableScope, .checkList,
          .checkHeading, .checkTitle, .checkFormLabel, .checkListItems, .checkListLabel,
          .checkListIndentation, .checkFormSubmit, .checkFormMethod, .checkFormEnctype,
          .checkFormValidity, .checkArias] ++ [.checkImgAlt, .checkAnchorHref] := rfl
  rw [hsplit, List.map_append, List.sum_append]
  have hzero : (List.map (fun r => ((runRule r doc []).getD []).count k)
      [.checkLabel, .checkAltAttribute, .checkButtonRole, .checkForm, .checkHiddenInput,
        .checkImageInput, .checkSubmitInput, .checkTableHeader, .checkTableScope, .checkList,
        .checkHeading, .checkTitle, .checkFormLabel, .checkListItems, .checkListLabel,
        .checkListIndentation, .checkFormSubmit, .checkFormMethod, .checkFormEnctype,
        .checkFormValidity, .checkArias]).sum = 0 := by
    apply List.sum_eq_zero
    intro x hx
    obtain ⟨r, hr, rfl⟩ := List.mem_map.mp hx
    apply hk r
    · rintro rfl
      revert hr
      decide
    · rintro rfl
      revert hr
      decide
  rw [hzero]
  simp [runRule, Issues.count]

/-! ## The stored counts and the unbounded counts -/

theorem wrap64_eq_self (x : Int) (h1 : -9223372036854775808 ≤ x)
    (h2 : x ≤ 9223372036854775807) : wrap64 x = x := by
  unfold wrap64
  omega

theorem wrap64_wrap64_add (a b : Int) : wrap64 (a + wrap64 b) = wrap64 (a + b) := by
  unfold wrap64
  omega

theorem wrap64_add_one (v : Int) : wrap64 (wrap64 v + 1) = wrap64 (v + 1) := by
  unfold wrap64
  omega

theorem wrap64_range (x : Int) :
    -9223372036854775808 ≤ wrap64 x ∧ wrap64 x ≤ 9223372036854775807 := by
  unfold wrap64
  omega

theorem Issues.int64_incr (issues : Issues) (msg : String) :
    (issues.incr msg).int64 = issues.int64.incr64 msg := by
  induction issues with
  | nil => simp [Issues.incr, Issues.int64, Issues.incr64, wrap64]
  | cons e rest ih =>
    obtain ⟨k, v⟩ := e
    unfold Issues.int64 at ih ⊢
    by_cases h : k = msg
    · simp only [Issues.incr, h, if_true, List.map_cons, Issues.incr64, wrap64_add_one]
    · simp only [Issues.incr, h, if_false, List.map_cons, Issues.incr64, ih]

theorem Issues.int64_record (issues : Issues) (msgs : List String) :
    (issues.record msgs).int64 = issues.int64.record64 msgs := by
  induction msgs generalizing issues with
  | nil => rfl
  | cons m rest ih =>
    rw [Issues.record_cons, ih, Issues.int64_incr]
    rfl

theorem Issues.int64_of_inRange (issues : Issues) (h : issues.inRange = true) :
    issues.int64 = issues := by
  induction issues with
  | nil => rfl
  | cons e rest ih =>
    obtain ⟨k, v⟩ := e
    unfold Issues.inRange at h ih
    simp only [List.all_cons, Bool.and_eq_true, decide_eq_true_eq] at h
    unfold Issues.int64 at ih ⊢
    rw [List.map_cons, ih h.2, wrap64_eq_self v h.1.1 h.1.2]

theorem Issues.count_int64 (issues : Issues) (k : String) :
    issues.int64.count k = wrap64 (issues.count k) := by
  induction issues with
  | nil => simp [Issues.int64, Issues.count, wrap64]
  | cons e rest ih =>
    obtain ⟨k', v⟩ := e
    unfold Issues.int64 at ih ⊢
    by_cases h : k' = k
    · simp only [List.map_cons, Issues.count, h, if_true]
    · simp only [List.map_cons, Issues.count, h, if_false, ih]

theorem Issues.keys_int64 (issues : Issues) : issues.int64.keys = issues.keys := by
  unfold Issues.int64 Issues.keys
  rw [List.map_map]
  rfl

theorem Issues.count_range (issues : Issues) (h : issues.inRange = true) (k : String) :
    -9223372036854775808 ≤ issues.count k ∧ issues.count k ≤ 9223372036854775807 := by
  rw [← Issues.int64_of_inRange issues h, Issues.count_int64]
  exact wrap64_range _

theorem Issues.count_incr64 (issues : Issues) (msg k : String) :
    (issues.incr64 msg).count k
      = if k = msg then wrap64 (issues.count k + 1) else issues.count k := by
  induction issues with
  | nil =>
    by_cases h : k = msg
    · subst h
      simp [Issues.incr64, Issues.count, wrap64]
    · have h2 : ¬ msg = k := fun e => h e.symm
      simp [Issues.incr64, Issues.count, h, h2]
  | cons e rest ih =>
    obtain ⟨k', v⟩ := e
    by_cases h1 : k' = msg
    · subst h1
      by_cases h2 : k = k'
      · subst h2
        simp [Issues.incr64, Issues.count]
      · have h3 : ¬ k' = k := fun e => h2 e.symm
        simp [Issues.incr64, Issues.count, h2, h3]
    · by_cases h2 : k' = k
      · subst h2
        simp [Issues.incr64, Issues.count, h1]
      · simp only [Issues.incr64, h1, if_false, Issues.count, h2, ih]

theorem Issues.keys_incr64 (issues : Issues) (msg k : String) :
    k ∈ (issues.incr64 msg).keys ↔ k ∈ issues.keys ∨ k = msg := by
  induction issues with
  | nil => simp [Issues.incr64, Issues.keys]
  | cons e rest ih =>
    obtain ⟨k', v⟩ := e
    unfold Issues.keys at ih ⊢
    by_cases h : k' = msg
    · subst h
      simp only [Issues.incr64, if_true, List.map_cons, List.mem_cons]
      tauto
    · simp only [Issues.incr64, h, if_false, List.map_cons, List.mem_cons, ih]
      tauto

theorem Issues.int64_ite (c : Prop) [Decidable c] (issues : Issues) (msg : String) :
    (if c then issues.incr msg else issues).int64
      = if c then issues.int64.incr64 msg else issues.int64 := by
  split
  · rw [Issues.int64_incr]
  · rfl

mutual
theorem checkLabel64_int64 : ∀ (node : Node) (issues : Issues),
    checkLabel64 node issues.int64 = (checkLabel node issues).int64
  | .mk ty d attrs fc ns, issues => by
    rw [checkLabel64, checkLabel, ← checkLabel64_loop_int64 fc, Issues.int64_ite]
theorem checkLabel64_loop_int64 : ∀ (ptr : Ptr) (issues : Issues),
    checkLabel64_loop ptr issues.int64 = (checkLabel_loop ptr issues).int64
  | .nil, issues => by rw [checkLabel64_loop, checkLabel_loop]
  | .ref (.mk ty d attrs fc ns), issues => by
    rw [checkLabel64_loop, checkLabel_loop, checkLabel64_int64 (.mk ty d attrs fc ns),
      checkLabel64_loop_int64 ns]
end

mutual
theorem checkAltAttribute64_int64 : ∀ (node : Node) (issues : Issues),
    checkAltAttribute64 node issues.int64 = (checkAltAttribute node issues).int64
  | .mk ty d attrs fc ns, issues => by
    rw [checkAltAttribute64, checkAltAttribute, ← checkAltAttribute64_loop_int64 fc, Issues.int64_ite]
theorem checkAltAttribute64_loop_int64 : ∀ (ptr : Ptr) (issues : Issues),
    checkAltAttribute64_loop ptr issues.int64 = (checkAltAttribute_loop ptr issues).int64
  | .nil, issues => by rw [checkAltAttribute64_loop, checkAltAttribute_loop]
  | .ref (.mk ty d attrs fc ns), issues => by
    rw [checkAltAttribute64_loop, checkAltAttribute_loop, checkAltAttribute64_int64 (.mk ty d attrs fc ns),
      checkAltAttribute64_loop_int64 ns]
end

mutual
theorem checkButtonRole64_int64 : ∀ (node : Node) (issues : Issues),
    checkButtonRole64 node issues.int64 = (checkButtonRole node issues).int64
  | .mk ty d attrs fc ns, issues => by
    rw [checkButtonRole64, checkButtonRole, ← checkButtonRole64_loop_int64 fc, Issues.int64_ite]
theorem checkButtonRole64_loop_int64 : ∀ (ptr : Ptr) (issues : Issues),
    checkButtonRole64_loop ptr issues.int64 = (checkButtonRole_loop ptr issues).int64
  | .nil, issues => by rw [checkButtonRole64_loop, checkButtonRole_loop]
  | .ref (.mk ty d attrs fc ns), issues => by
    rw [checkButtonRole64_loop, checkButtonRole_loop, checkButtonRole64_int64 (.mk ty d attrs fc ns),
      checkButtonRole64_loop_int64 ns]
end

mutual
theorem checkForm64_int64 : ∀ (node : Node) (issues : Issues),
    checkForm64 node issues.int64 = (checkForm node issues).int64
  | .mk ty d attrs fc ns, issues => by
    rw [checkForm64, checkForm, ← checkForm64_loop_int64 fc, Issues.int64_ite]
theorem checkForm64_loop_int64 : ∀ (ptr : Ptr) (issues : Issues),
    checkForm64_loop ptr issues.int64 = (checkForm_loop ptr issues).int64
  | .nil, issues => by rw [checkForm64_loop, checkForm_loop]
  | .ref (.mk ty d attrs fc ns), issues => by
    rw [checkForm64_loop, checkForm_loop, checkForm64_int64 (.mk ty d attrs fc ns),
      checkForm64_loop_int64 ns]
end

mutual
theorem checkList64_int64 : ∀ (node : Node) (issues : Issues),
    checkList64 node issues.int64 = (checkList node issues).int64
  | .mk ty d attrs fc ns, issues => by
    rw [checkList64, checkList, ← checkList64_loop_int64 fc, Issues.int64_ite]
theorem checkList64_loop_int64 : ∀ (ptr : Ptr) (issues : Issues),
    checkList64_loop ptr issues.int64 = (checkList_loop ptr issues).int64
  | .nil, issues => by rw [checkList64_loop, checkList_loop]
  | .ref (.mk ty d attrs fc ns), issues => by
    rw [checkList64_loop, checkList_loop, checkList64_int64 (.mk ty d attrs fc ns),
      checkList64_loop_int64 ns]
end

mutual
theorem checkFormLabel64_int64 : ∀ (node : Node) (issues : Issues),
    checkFormLabel64 node issues.int64 = (checkFormLabel node issues).int64
  | .mk ty d attrs fc ns, issues => by
    rw [checkFormLabel64, checkFormLabel, ← checkFormLabel64_loop_int64 fc, Issues.int64_ite]
theorem checkFormLabel64_loop_int64 : ∀ (ptr : Ptr) (issues : Issues),
    checkFormLabel64_loop ptr issues.int64 = (checkFormLabel_loop ptr issues).int64
  | .nil, issues => by rw [checkFormLabel64_loop, checkFormLabel_loop]
  | .ref (.mk ty d attrs fc ns), issues => by
    rw [checkFormLabel64_loop, checkFormLabel_loop, checkFormLabel64_int64 (.mk ty d attrs fc ns),
      checkFormLabel64_loop_int64 ns]
end

mutual
theorem checkListLabel64_int64 : ∀ (node : Node) (issues : Issues),
    checkListLabel64 node issues.int64 = (checkListLabel node issues).int64
  | .mk ty d attrs fc ns, issues => by
    rw [checkListLabel64, checkListLabel, ← checkListLabel64_loop_int64 fc, Issues.int64_ite]
theorem checkListLabel64_loop_int64 : ∀ (ptr : Ptr) (issues : Issues),
    checkListLabel64_loop ptr issues.int64 = (checkListLabel_loop ptr issues).int64
  | .nil, issues => by rw [checkListLabel64_loop, checkListLabel_loop]
  | .ref (.mk ty d attrs fc ns), issues => by
    rw [checkListLabel64_loop, checkListLabel_loop, checkListLabel64_int64 (.mk ty d attrs fc ns),
      checkListLabel64_loop_int64 ns]
end

mutual
theorem checkFormSubmit64_int64 : ∀ (node : Node) (issues : Issues),
    checkFormSubmit64 node issues.int64 = (checkFormSubmit node issues).int64
  | .mk ty d attrs fc ns, issues => by
    rw [checkFormSubmit64, checkFormSubmit, ← checkFormSubmit64_loop_int64 fc, Issues.int64_ite]
theorem checkFormSubmit64_loop_int64 : ∀ (ptr : Ptr) (issues : Issues),
    checkFormSubmit64_loop ptr issues.int64 = (checkFormSubmit_loop ptr issues).int64
  | .nil, issues => by rw [checkFormSubmit64_loop, checkFormSubmit_loop]
  | .ref (.mk ty d attrs fc ns), issues => by
    rw [checkFormSubmit64_loop, checkFormSubmit_loop, checkFormSubmit64_int64 (.mk ty d attrs fc ns),
      checkFormSubmit64_loop_int64 ns]
end

mutual
theorem checkFormMethod64_int64 : ∀ (node : Node) (issues : Issues),
    checkFormMethod64 node issues.int64 = (checkFormMethod node issues).int64
  | .mk ty d attrs fc ns, issues => by
    rw [checkFormMethod64, checkFormMethod, ← checkFormMethod64_loop_int64 fc, Issues.int64_ite]
theorem checkFormMethod64_loop_int64 : ∀ (ptr : Ptr) (issues : Issues),
    checkFormMethod64_loop ptr issues.int64 = (checkFormMethod_loop ptr issues).int64
  | .nil, issues => by rw [checkFormMethod64_loop, checkFormMethod_loop]
  | .ref (.mk ty d attrs fc ns), issues => by
    rw [checkFormMethod64_loop, checkFormMethod_loop, checkFormMethod64_int64 (.mk ty d attrs fc ns),
      checkFormMethod64_loop_int64 ns]
end

mutual
theorem checkFormEnctype64_int64 : ∀ (node : Node) (issues : Issues),
    checkFormEnctype64 node issues.int64 = (checkFormEnctype node issues).int64
  | .mk ty d attrs fc ns, issues => by
    rw [checkFormEnctype64, checkFormEnctype, ← checkFormEnctype64_loop_int64 fc, Issues.int64_ite]
theorem checkFormEnctype64_loop_int64 : ∀ (ptr : Ptr) (issues : Issues),
    checkFormEnctype64_loop ptr issues.int64 = (checkFormEnctype_loop ptr issues).int64
  | .nil, issues => by rw [checkFormEnctype64_loop, checkFormEnctype_loop]
  | .ref (.mk ty d attrs fc ns), issues => by
    rw [checkFormEnctype64_loop, checkFormEnctype_loop, checkFormEnctype64_int64 (.mk ty d attrs fc ns),
      checkFormEnctype64_loop_int64 ns]
end

mutual
theorem checkFormValidity64_int64 : ∀ (node : Node) (issues : Issues),
    checkFormValidity64 node issues.int64 = (checkFormValidity node issues).int64
  | .mk ty d attrs fc ns, issues => by
    rw [checkFormValidity64, checkFormValidity, ← checkFormValidity64_loop_int64 fc, Issues.int64_ite]
theorem checkFormValidity64_loop_int64 : ∀ (ptr : Ptr) (issues : Issues),
    checkFormValidity64_loop ptr issues.int64 = (checkFormValidity_loop ptr issues).int64
  | .nil, issues => by rw [checkFormValidity64_loop, checkFormValidity_loop]
  | .ref (.mk ty d attrs fc ns), issues => by
    rw [checkFormValidity64_loop, checkFormValidity_loop, checkFormValidity64_int64 (.mk ty d attrs fc ns),
      checkFormValidity64_loop_int64 ns]
end

mutual
theorem checkInputType64_int64 (inputType : String) : ∀ (node : Node) (issues : Issues),
    checkInputType64 node inputType issues.int64 = (checkInputType node inputType issues).int64
  | .mk ty d attrs fc ns, issues => by
    rw [checkInputType64, checkInputType, ← checkInputType64_loop_int64 inputType fc, Issues.int64_ite]
theorem checkInputType64_loop_int64 (inputType : String) : ∀ (ptr : Ptr) (issues : Issues),
    checkInputType64_loop ptr inputType issues.int64 = (checkInputType_loop ptr inputType issues).int64
  | .nil, issues => by rw [checkInputType64_loop, checkInputType_loop]
  | .ref (.mk ty d attrs fc ns), issues => by
    rw [checkInputType64_loop, checkInputType_loop, checkInputType64_int64 inputType (.mk ty d attrs fc ns),
      checkInputType64_loop_int64 inputType ns]
end

mutual
theorem checkTableScope64_int64 (scope : String) : ∀ (node : Node) (issues : Issues),
    checkTableScope64 node scope issues.int64 = (checkTableScope node scope issues).int64
  | .mk ty d attrs fc ns, issues => by
    rw [checkTableScope64, checkTableScope, ← checkTableScope64_loop_int64 scope fc, Issues.int64_ite]
theorem checkTableScope64_loop_int64 (scope : String) : ∀ (ptr : Ptr) (issues : Issues),
    checkTableScope64_loop ptr scope issues.int64 = (checkTableScope_loop ptr scope issues).int64
  | .nil, issues => by rw [checkTableScope64_loop, checkTableScope_loop]
  | .ref (.mk ty d attrs fc ns), issues => by
    rw [checkTableScope64_loop, checkTableScope_loop, checkTableScope64_int64 scope (.mk ty d attrs fc ns),
      checkTableScope64_loop_int64 scope ns]
end

mutual
theorem checkTitle64_int64 : ∀ (node : Node) (parent : Ptr) (issues : Issues),
    checkTitle64 parent node issues.int64 = (checkTitle parent node issues).int64
  | .mk ty d attrs fc ns, parent, issues => by
    rw [checkTitle64, checkTitle, ← checkTitle64_loop_int64 fc, Issues.int64_ite]
theorem checkTitle64_loop_int64 : ∀ (ptr : Ptr) (parent : Ptr) (issues : Issues),
    checkTitle64_loop parent ptr issues.int64 = (checkTitle_loop parent ptr issues).int64
  | .nil, parent, issues => by rw [checkTitle64_loop, checkTitle_loop]
  | .ref (.mk ty d attrs fc ns), parent, issues => by
    rw [checkTitle64_loop, checkTitle_loop, checkTitle64_int64 (.mk ty d attrs fc ns),
      checkTitle64_loop_int64 ns]
end

mutual
theorem checkArias64_int64 : ∀ (node : Node) (issues : Issues),
    checkArias64 node issues.int64 = (checkArias node issues).int64
  | .mk ty d attrs fc ns, issues => by
    rw [checkArias64, checkArias, ← checkArias64_loop_int64 fc]
    cases checkArias_switch (.mk ty d attrs fc ns) with
    | none => rfl
    | some msg =>
      simp only []
      rw [Issues.int64_incr]
theorem checkArias64_loop_int64 : ∀ (ptr : Ptr) (issues : Issues),
    checkArias64_loop ptr issues.int64 = (checkArias_loop ptr issues).int64
  | .nil, issues => by rw [checkArias64_loop, checkArias_loop]
  | .ref (.mk ty d attrs fc ns), issues => by
    rw [checkArias64_loop, checkArias_loop, checkArias64_int64 (.mk ty d attrs fc ns),
      checkArias64_loop_int64 ns]
end

mutual
theorem checkTableHeader64_int64 : ∀ (node : Node) (parent : Ptr) (issues : Issues),
    checkTableHeader64 parent node issues.int64
      = (checkTableHeader parent node issues).map Issues.int64
  | .mk ty d attrs fc ns, parent, issues => by
    by_cases h : ty = .ElementNode ∧ d = "th"
    · cases parent with
      | nil => simp [checkTableHeader64, checkTableHeader, h]
      | ref p =>
        simp only [checkTableHeader64, checkTableHeader, h, and_self, if_true]
        rw [← checkTableHeader64_loop_int64 fc, Issues.int64_ite]
    · cases parent with
      | nil =>
        simp only [checkTableHeader64, checkTableHeader, h, if_false]
        exact checkTableHeader64_loop_int64 fc _ _
      | ref p =>
        simp only [checkTableHeader64, checkTableHeader, h, if_false]
        exact checkTableHeader64_loop_int64 fc _ _
theorem checkTableHeader64_loop_int64 : ∀ (ptr : Ptr) (parent : Ptr) (issues : Issues),
    checkTableHeader64_loop parent ptr issues.int64
      = (checkTableHeader_loop parent ptr issues).map Issues.int64
  | .nil, parent, issues => by
    rw [checkTableHeader64_loop, checkTableHeader_loop]
    rfl
  | .ref (.mk ty d attrs fc ns), parent, issues => by
    rw [checkTableHeader64_loop, checkTableHeader_loop,
      checkTableHeader64_int64 (.mk ty d attrs fc ns) parent]
    cases checkTableHeader parent (.mk ty d attrs fc ns) issues with
    | none => rfl
    | some is2 => exact checkTableHeader64_loop_int64 ns parent is2
end

mutual
theorem checkListItems64_int64 : ∀ (node : Node) (parent : Ptr) (issues : Issues),
    checkListItems64 parent node issues.int64
      = (checkListItems parent node issues).map Issues.int64
  | .mk ty d attrs fc ns, parent, issues => by
    by_cases h : ty = .ElementNode ∧ d = "li"
    · cases parent with
      | nil => simp [checkListItems64, checkListItems, h]
      | ref p =>
        simp only [checkListItems64, checkListItems, h, and_self, if_true]
        rw [← checkListItems64_loop_int64 fc, Issues.int64_ite]
    · cases parent with
      | nil =>
        simp only [checkListItems64, checkListItems, h, if_false]
        exact checkListItems64_loop_int64 fc _ _
      | ref p =>
        simp only [checkListItems64, checkListItems, h, if_false]
        exact checkListItems64_loop_int64 fc _ _
theorem checkListItems64_loop_int64 : ∀ (ptr : Ptr) (parent : Ptr) (issues : Issues),
    checkListItems64_loop parent ptr issues.int64
      = (checkListItems_loop parent ptr issues).map Issues.int64
  | .nil, parent, issues => by
    rw [checkListItems64_loop, checkListItems_loop]
    rfl
  | .ref (.mk ty d attrs fc ns), parent, issues => by
    rw [checkListItems64_loop, checkListItems_loop,
      checkListItems64_int64 (.mk ty d attrs fc ns) parent]
    cases checkListItems parent (.mk ty d attrs fc ns) issues with
    | none => rfl
    | some is2 => exact checkListItems64_loop_int64 ns parent is2
end

mutual
theorem checkHeading64_int64 : ∀ (node : Node) (parent : Ptr) (issues : Issues),
    checkHeading64 parent node issues.int64
      = (checkHeading parent node issues).map Issues.int64
  | .mk ty d attrs fc ns, parent, issues => by
    rw [checkHeading64, checkHeading]
    cases hasHeading (.mk ty d attrs fc ns) with
    | none => rfl
    | some heading =>
      simp only []
      rw [← checkHeading64_loop_int64 fc, Issues.int64_ite]
theorem checkHeading64_loop_int64 : ∀ (ptr : Ptr) (parent : Ptr) (issues : Issues),
    checkHeading64_loop parent ptr issues.int64
      = (checkHeading_loop parent ptr issues).map Issues.int64
  | .nil, parent, issues => by
    rw [checkHeading64_loop, checkHeading_loop]
    rfl
  | .ref (.mk ty d attrs fc ns), parent, issues => by
    rw [checkHeading64_loop, checkHeading_loop,
      checkHeading64_int64 (.mk ty d attrs fc ns) parent]
    cases checkHeading parent (.mk ty d attrs fc ns) issues with
    | none => rfl
    | some is2 => exact checkHeading64_loop_int64 ns parent is2
end

theorem checkListIndentation64_depth_int64 (data : String) (prev : Ptr) :
    ∀ (left : Nat) (issues : Issues),
      checkListIndentation64_depth data prev left issues.int64
        = (checkListIndentation_depth data prev left issues).int64
  | 0, issues => rfl
  | left + 1, issues => by
    rw [checkListIndentation64_depth, checkListIndentation_depth]
    split
    · rw [Issues.int64_incr]
    · exact checkListIndentation64_depth_int64 data prev left issues

mutual
theorem checkListIndentation64_int64 : ∀ (node : Node) (depth : Int) (issues : Issues),
    checkListIndentation64 node depth issues.int64
      = (checkListIndentation node depth issues).int64
  | .mk ty d attrs fc ns, depth, issues => by
    rw [checkListIndentation64, checkListIndentation]
    split
    · exact checkListIndentation64_loop_int64 d fc depth .nil issues
    · rfl
theorem checkListIndentation64_loop_int64 (data : String) :
    ∀ (ptr : Ptr) (depth : Int) (prev : Ptr) (issues : Issues),
      checkListIndentation64_loop data depth prev ptr issues.int64
        = (checkListIndentation_loop data depth prev ptr issues).int64
  | .nil, depth, prev, issues => by
    rw [checkListIndentation64_loop, checkListIndentation_loop]
  | .ref (.mk ty d attrs fc ns), depth, prev, issues => by
    rw [checkListIndentation64_loop, checkListIndentation_loop,
      ← checkListIndentation64_loop_int64 data ns]
    congr 1
    split
    · rw [← checkListIndentation64_int64 (.mk ty d attrs fc ns),
        checkListIndentation64_depth_int64]
    · rfl
end

theorem checkImgAlt64_int64 (path : List (Node × List Node)) (node : Node) (issues : Issues) :
    checkImgAlt64 path node issues.int64 = (checkImgAlt path node issues).int64 := by
  rw [checkImgAlt64, checkImgAlt, Issues.int64_ite]

theorem checkAnchorHref64_int64 (path : List (Node × List Node)) (node : Node)
    (issues : Issues) :
    checkAnchorHref64 path node issues.int64 = (checkAnchorHref path node issues).int64 := by
  rw [checkAnchorHref64, checkAnchorHref, Issues.int64_ite]

/-- The rule calls on the stored counts give the unbounded counts of `runRule`,
wrapped. -/
theorem runRule64_int64 (r : RuleName) (doc : Node) (issues : Issues) :
    runRule64 r doc issues.int64 = (runRule r doc issues).map Issues.int64 := by
  cases r
  case checkLabel => simp only [runRule64, runRule, Option.map_some', checkLabel64_int64]
  case checkAltAttribute =>
    simp only [runRule64, runRule, Option.map_some', checkAltAttribute64_int64]
  case checkButtonRole =>
    simp only [runRule64, runRule, Option.map_some', checkButtonRole64_int64]
  case checkForm => simp only [runRule64, runRule, Option.map_some', checkForm64_int64]
  case checkHiddenInput =>
    simp only [runRule64, runRule, Option.map_some', checkHiddenInput64, checkHiddenInput,
      checkInputType64_int64]
  case checkImageInput =>
    simp only [runRule64, runRule, Option.map_some', checkImageInput64, checkImageInput,
      checkInputType64_int64]
  case checkSubmitInput =>
    simp only [runRule64, runRule, Option.map_some', checkSubmitInput64, checkSubmitInput,
      checkInputType64_int64]
  case checkTableHeader => simp only [runRule64, runRule, checkTableHeader64_int64]
  case checkTableScope =>
    simp only [runRule64, runRule, Option.map_some', checkTableScope64_int64]
  case checkList => simp only [runRule64, runRule, Option.map_some', checkList64_int64]
  case checkHeading => simp only [runRule64, runRule, checkHeading64_int64]
  case checkTitle => simp only [runRule64, runRule, Option.map_some', checkTitle64_int64]
  case checkFormLabel =>
    simp only [runRule64, runRule, Option.map_some', checkFormLabel64_int64]
  case checkListItems => simp only [runRule64, runRule, checkListItems64_int64]
  case checkListLabel =>
    simp only [runRule64, runRule, Option.map_some', checkListLabel64_int64]
  case checkListIndentation =>
    simp only [runRule64, runRule, Option.map_some', checkListIndentation64_int64]
  case checkFormSubmit =>
    simp only [runRule64, runRule, Option.map_some', checkFormSubmit64_int64]
  case checkFormMethod =>
    simp only [runRule64, runRule, Option.map_some', checkFormMethod64_int64]
  case checkFormEnctype =>
    simp only [runRule64, runRule, Option.map_some', checkFormEnctype64_int64]
  case checkFormValidity =>
    simp only [runRule64, runRule, Option.map_some', checkFormValidity64_int64]
  case checkArias => simp only [runRule64, runRule, Option.map_some', checkArias64_int64]
  case checkImgAlt => simp only [runRule64, runRule, Option.map_some', checkImgAlt64_int64]
  case checkAnchorHref =>
    simp only [runRule64, runRule, Option.map_some', checkAnchorHref64_int64]

theorem runRule64_of_inRange (r : RuleName) (doc : Node) (issues : Issues)
    (hin : issues.inRange = true) :
    runRule64 r doc issues = (runRule r doc issues).map Issues.int64 := by
  rw [← runRule64_int64, Issues.int64_of_inRange issues hin]

/-- A rule that completes has recorded, on a Go map, a list of messages by
64-bit increments, at most one for each node of the tree. -/
theorem runRule64_record64 (r : RuleName) (doc : Node) (issues out : Issues)
    (hin : issues.inRange = true) (h : runRule64 r doc issues = some out) :
    ∃ msgs, msgs.length ≤ doc.subtree.length
      ∧ out = issues.record64 msgs ∧ out = (issues.record msgs).int64 := by
  rw [runRule64_of_inRange r doc issues hin] at h
  rcases runRule_record r doc with hn | ⟨msgs, hl, hm⟩
  · rw [hn] at h
    cases h
  · rw [hm] at h
    simp only [Option.map_some', Option.some.injEq] at h
    subst h
    refine ⟨msgs, hl, ?_, rfl⟩
    rw [Issues.int64_record, Issues.int64_of_inRange issues hin]

/-! # The claims -/

/-- C1: the full rule set completes on every tree without a panicking tag, and
whenever it completes, the count under "Image element without an alt
attribute." is the number of `img` elements of the tree that have no attribute
with key `alt`; the root-only rule `checkImgAlt` records under another key. -/
theorem fullRuleSet_image_alt_count (doc : Node) :
    (panicFree doc = true → ∃ issues, fullRuleSet doc = some issues)
    ∧ ∀ issues, fullRuleSet doc = some issues →
        issues.count "Image element without an alt attribute."
          = ((doc.subtree.countP imgWithoutAlt : Nat) : Int) := by
  refine ⟨fullRuleSet_isSome doc, ?_⟩
  intro issues h
  rw [fullRuleSet_count_of_not_mem doc issues h "Image element without an alt attribute."
    (by decide) (fun l => ne_append_of_not_isPrefixOf _ _ _ (by decide))
    (fun l => ne_append_of_not_isPrefixOf _ _ _ (by decide))]
  have e1 : doc.subtree.countP
      (fun n => decide (visitAltAttribute n = some "Image element without an alt attribute."))
      = doc.subtree.countP imgWithoutAlt := by
    apply List.countP_congr
    intro n _
    simp [visitAltAttribute_iff]
  have e2 : doc.subtree.countP
      (fun n => decide (visitForm n = some "Image element without an alt attribute.")) = 0 := by
    rw [List.countP_eq_zero]
    intro n _
    unfold visitForm
    split <;> simp
  have e3 : doc.subtree.countP
      (fun n => decide (visitFormLabel n = some "Image element without an alt attribute."))
      = 0 := by
    rw [List.countP_eq_zero]
    intro n _
    unfold visitFormLabel
    split <;> simp
  rw [e1, e2, e3]
  rfl

/-- Witness of C1 on the tree of `<html><body><img></body></html>`: it is
free of panics, the rule set completes, and the count is 1. -/
theorem fullRuleSet_image_alt_count_witness :
    panicFree docImg = true
    ∧ (∃ issues, fullRuleSet docImg = some issues
        ∧ issues.count "Image element without an alt attribute." = 1) := by
  refine ⟨by decide, ?_⟩
  obtain ⟨issues, h⟩ := (fullRuleSet_image_alt_count docImg).1 (by decide)
  refine ⟨issues, h, ?_⟩
  rw [(fullRuleSet_image_alt_count docImg).2 issues h]
  decide


/-- C2: `checkFormSubmit` adds to "Form element without a submit button." the
number of `form` elements none of whose direct children is an `input` element
with an attribute `type=submit`; a form with such a direct child adds 0, a form
whose only submit input is a grandchild adds 1. -/
theorem checkFormSubmit_adds_forms_without_submit_child (node : Node) (issues : Issues) :
    (checkFormSubmit node issues).count "Form element without a submit button."
        = issues.count "Form element without a submit button."
          + ((node.subtree.countP formWithoutSubmitChild : Nat) : Int)
    ∧ (checkFormSubmit formDirect []).count "Form element without a submit button." = 0
    ∧ (checkFormSubmit formGrandchild []).count "Form element without a submit button." = 1 := by
  refine ⟨?_, by decide, by decide⟩
  rw [checkFormSubmit_eq_walk node .nil, walk_count_subtree]
  congr 2
  apply List.countP_congr
  intro n _
  simp [visitFormSubmit_iff]

/-- C3, as claimed, fails: in `docNestedTh` the outer `th` carries no scope
itself, yet `checkTableScope` records nothing, because a `th` nested in its
cell carries `scope="row"`. -/
theorem checkTableScope_own_scope_counterexample :
    ¬ ((checkTableScope docNestedTh "row" []).count
        "Table header cell without a 'row' scope attribute."
      = Issues.count [] "Table header cell without a 'row' scope attribute."
        + ((docNestedTh.subtree.countP (thWithoutOwnScope "row") : Nat) : Int)) := by
  decide

/-- C3, amended: on a tree in which every node whose content is `th` is an
element, `checkTableScope(root, "row")` adds to "Table header cell without a
'row' scope attribute." the number of `th` elements in whose subtree, the `th`
itself included, no `th` element carries `scope="row"`. -/
theorem checkTableScope_adds_th_without_scope_below (node : Node)
    (hth : ∀ m ∈ node.subtree, m.Data = "th" → m.Typ = .ElementNode) (issues : Issues) :
    (checkTableScope node "row" issues).count
        "Table header cell without a 'row' scope attribute."
      = issues.count "Table header cell without a 'row' scope attribute."
        + ((node.subtree.countP (thWithoutScopeBelow "row") : Nat) : Int) := by
  rw [checkTableScope_eq_walk "row" node .nil, walk_count_subtree]
  congr 2
  apply List.countP_congr
  intro n hn
  unfold visitTableScope thWithoutScopeBelow
  rw [hasTableScope_eq]
  have hmsg : "Table header cell without a '" ++ "row" ++ "' scope attribute."
      = "Table header cell without a 'row' scope attribute." := by decide
  rw [hmsg]
  have hsearch : (¬ n.subtree.any
        (fun m => decide (m.Data = "th") && carriesScope "row" m) = true)
      ↔ ∀ m ∈ n.subtree, m.Typ = .ElementNode → m.Data = "th"
          → carriesScope "row" m = false := by
    simp only [List.any_eq_true, Bool.and_eq_true, decide_eq_true_eq, not_exists, not_and,
      Bool.not_eq_true]
    constructor
    · intro h m hm _ hd
      exact h m hm hd
    · intro h m hm hd
      exact h m hm (hth m (subtree_trans node n hn m hm) hd) hd
  split
  · rename_i h
    simp only [decide_True, decide_eq_true_eq, true_iff]
    exact ⟨h.1, h.2.1, hsearch.mp h.2.2⟩
  · rename_i h
    simp only [decide_eq_true_eq]
    constructor
    · intro e; simp at e
    · intro h2
      exact absurd ⟨h2.1, h2.2.1, hsearch.mpr h2.2.2⟩ h

/-- Witness of the amended C3 on `docLoneTh`: its only node with content `th`
is an element, it carries no scope, and the count is 1. -/
theorem checkTableScope_adds_th_without_scope_below_witness :
    (∀ m ∈ docLoneTh.subtree, m.Data = "th" → m.Typ = .ElementNode)
    ∧ (checkTableScope docLoneTh "row" []).count
        "Table header cell without a 'row' scope attribute." = 1 := by
  have hth : ∀ m ∈ docLoneTh.subtree, m.Data = "th" → m.Typ = .ElementNode := by decide
  refine ⟨hth, ?_⟩
  rw [checkTableScope_adds_th_without_scope_below docLoneTh hth []]
  decide

/-- C4, as claimed, fails: `formValidateFirst` has a `novalidate` attribute and
`hasFormValidation` returns true, because `validate` comes first. -/
theorem hasFormValidation_novalidate_counterexample :
    (∃ a ∈ formValidateFirst.Attr, a.Key = "novalidate")
    ∧ hasFormValidation formValidateFirst = true := by
  decide

/-- C4, amended: `hasFormValidation` returns true exactly when some attribute
with key `validate` is preceded by no attribute with key `novalidate`. -/
theorem hasFormValidation_iff (node : Node) :
    hasFormValidation node = true
      ↔ ∃ pre a post, node.Attr = pre ++ a :: post ∧ a.Key = "validate"
          ∧ ∀ b ∈ pre, b.Key ≠ "novalidate" := by
  unfold hasFormValidation
  exact hasFormValidation_attrs_iff node.Attr

/-- C5 fails on the code: in `docTitle` the only `title` is a child of `head`,
and `checkTitle` records "Title element not inside a head element." twice, at
`html` and at `head`, whose subtrees contain the title. -/
theorem checkTitle_docTitle :
    (checkTitle .nil docTitle []).count "Title element not inside a head element." = 2 := by
  decide

/-- C6 fails on the code: run at depth 0, `checkListIndentation` returns the
map unchanged on every node, so on `ul > li > ul > li` nothing is recorded,
whether the root is the document or the outer `ul`. -/
theorem checkListIndentation_records_nothing :
    (∀ (node : Node) (issues : Issues), checkListIndentation node 0 issues = issues)
    ∧ checkListIndentation docNestedList 0 [] = []
    ∧ checkListIndentation nestedUl 0 [] = [] :=
  ⟨checkListIndentation_zero, by decide, by decide⟩

/-- C7, as claimed, fails: `docForm` has one form without label, and the full
rule set leaves the count 1, not 2. -/
theorem fullRuleSet_form_label_counterexample :
    ¬ (∀ issues, fullRuleSet docForm = some issues →
        issues.count "Form element without any corresponding label elements."
          = 2 * ((docForm.subtree.countP formWithoutLabel : Nat) : Int)) := by
  intro h
  have h2 := h _ (by decide : fullRuleSet docForm = some
    [("Form element without any corresponding label elements.", 1),
      ("Form element without a corresponding label element.", 1),
      ("Form element without a submit button.", 1),
      ("Form element without a method attribute.", 1),
      ("Form element without an enctype attribute.", 1),
      ("Form element without proper validation attributes.", 1),
      ("Image element without an alt attribute. Line: ", 1),
      ("Anchor element without an href attribute. Line: ", 1)])
  revert h2
  decide

/-- C7, amended: on a tree in which every node whose content is `label` is an
element, the full rule set leaves under "Form element without any
corresponding label elements." the number, counted once, of `form` elements
without a `label` element in their subtree; `checkFormLabel` records the same
number under "Form element without a corresponding label element.". -/
theorem fullRuleSet_form_label_count (doc : Node)
    (hlabel : ∀ m ∈ doc.subtree, m.Data = "label" → m.Typ = .ElementNode)
    (issues : Issues) (h : fullRuleSet doc = some issues) :
    issues.count "Form element without any corresponding label elements."
        = ((doc.subtree.countP formWithoutLabel : Nat) : Int)
    ∧ issues.count "Form element without a corresponding label element."
        = ((doc.subtree.countP formWithoutLabel : Nat) : Int) := by
  have hform : ∀ n ∈ doc.subtree,
      ((n.Typ = .ElementNode ∧ n.Data = "form" ∧ ¬ hasLabel n = true)
        ↔ formWithoutLabel n = true) := by
    intro n hn
    unfold formWithoutLabel isLabelElement
    rw [hasLabel_eq]
    simp only [decide_eq_true_eq, decide_eq_false_iff_not, List.any_eq_true, not_exists,
      not_and]
    constructor
    · rintro ⟨h1, h2, h3⟩
      exact ⟨h1, h2, fun m hm _ e => h3 m hm e⟩
    · rintro ⟨h1, h2, h3⟩
      exact ⟨h1, h2, fun m hm e => h3 m hm (hlabel m (subtree_trans doc n hn m hm) e) e⟩
  constructor
  · rw [fullRuleSet_count_of_not_mem doc issues h
      "Form element without any corresponding label elements."
      (by decide) (fun l => ne_append_of_not_isPrefixOf _ _ _ (by decide))
      (fun l => ne_append_of_not_isPrefixOf _ _ _ (by decide))]
    have e1 : doc.subtree.countP (fun n => decide (visitAltAttribute n
        = some "Form element without any corresponding label elements.")) = 0 := by
      rw [List.countP_eq_zero]
      intro n _
      unfold visitAltAttribute
      split <;> simp
    have e2 : doc.subtree.countP (fun n => decide (visitForm n
        = some "Form element without any corresponding label elements."))
        = doc.subtree.countP formWithoutLabel := by
      apply List.countP_congr
      intro n hn
      rw [← hform n hn]
      unfold visitForm
      split <;> simp_all
    have e3 : doc.subtree.countP (fun n => decide (visitFormLabel n
        = some "Form element without any corresponding label elements.")) = 0 := by
      rw [List.countP_eq_zero]
      intro n _
      unfold visitFormLabel
      split <;> simp
    rw [e1, e2, e3]
    simp
  · rw [fullRuleSet_count_of_not_mem doc issues h
      "Form element without a corresponding label element."
      (by decide) (fun l => ne_append_of_not_isPrefixOf _ _ _ (by decide))
      (fun l => ne_append_of_not_isPrefixOf _ _ _ (by decide))]
    have e1 : doc.subtree.countP (fun n => decide (visitAltAttribute n
        = some "Form element without a corresponding label element.")) = 0 := by
      rw [List.countP_eq_zero]
      intro n _
      unfold visitAltAttribute
      split <;> simp
    have e2 : doc.subtree.countP (fun n => decide (visitForm n
        = some "Form element without a corresponding label element.")) = 0 := by
      rw [List.countP_eq_zero]
      intro n _
      unfold visitForm
      split <;> simp
    have e3 : doc.subtree.countP (fun n => decide (visitFormLabel n
        = some "Form element without a corresponding label element."))
        = doc.subtree.countP formWithoutLabel := by
      apply List.countP_congr
      intro n hn
      rw [← hform n hn]
      unfold visitFormLabel
      split <;> simp_all
    rw [e1, e2, e3]
    simp

/-- Witness of the amended C7 on `docForm`: no node has the content `label`,
the rule set completes, and both counts are 1. -/
theorem fullRuleSet_form_label_count_witness :
    (∀ m ∈ docForm.subtree, m.Data = "label" → m.Typ = .ElementNode)
    ∧ ∃ issues, fullRuleSet docForm = some issues
        ∧ issues.count "Form element without any corresponding label elements." = 1
        ∧ issues.count "Form element without a corresponding label element." = 1 := by
  have hl : ∀ m ∈ docForm.subtree, m.Data = "label" → m.Typ = .ElementNode := by decide
  obtain ⟨issues, h⟩ := fullRuleSet_isSome docForm (by decide)
  have hc := fullRuleSet_form_label_count docForm hl issues h
  refine ⟨hl, issues, h, ?_, ?_⟩
  · rw [hc.1]; decide
  · rw [hc.2]; decide

/-- C8 fails on the code: in `docTextarea` the `textarea` has no `label`
element in its subtree, only a text node with the content `label`, and
`checkLabel` records nothing for it. -/
theorem checkLabel_docTextarea :
    docTextarea.subtree.countP (elementWithoutLabel "textarea") = 1
    ∧ (checkLabel docTextarea []).count
        "textarea element without a corresponding label element." = 0 := by
  decide

/-- C9 fails on the code: `checkTableHeader` never records anything, because
the subtree of the parent that it searches for a `th` contains the `th` being
checked; at a root it returns the map unchanged, or panics when the root itself
is a `th` element.  In `docLoneTh` the `th` is the only `th` under its `tr` and
nothing is recorded. -/
theorem checkTableHeader_records_nothing :
    (∀ (doc : Node) (issues : Issues),
      checkTableHeader .nil doc issues
        = if doc.Typ = .ElementNode ∧ doc.Data = "th" then none else some issues)
    ∧ checkTableHeader .nil docLoneTh [] = some [] := by
  refine ⟨?_, by decide⟩
  intro doc issues
  split
  · rename_i h
    obtain ⟨ty, d, attrs, fc, ns⟩ := doc
    have h2 : ty = .ElementNode ∧ d = "th" := h
    simp only [checkTableHeader, h2, and_self, if_true]
  · rename_i h
    exact checkTableHeader_root doc issues h

/-- C10 fails on the code: on an element with the one-character tag `h`,
`hasHeading` indexes `Data[1]` out of range, so `checkHeading` and the full rule
set panic on `docH`. -/
theorem checkHeading_docH_panics :
    hasHeading (element "h" [] [] .nil) = none
    ∧ checkHeading .nil docH [] = none
    ∧ fullRuleSet docH = none := by
  decide

/-- C11, as claimed, fails: on `docImg` the full rule set records "Anchor
element without an href attribute. Line: ", which is neither the image message
nor a message of the heading or title rule. -/
theorem fullRuleSet_docImg_counterexample :
    ¬ (∀ issues, fullRuleSet docImg = some issues →
        issues.count "Image element without an alt attribute." = 1
        ∧ ∀ m, issues.count m ≠ 0 → m ≠ "Image element without an alt attribute." →
            m ∈ ["Heading element without a corresponding title element.",
              "Title element not inside a head element."]) := by
  intro h
  have h2 := (h _ (by decide : fullRuleSet docImg = some
    [("Image element without an alt attribute.", 1),
      ("Image element without an alt attribute. Line: ", 1),
      ("Anchor element without an href attribute. Line: ", 1)])).2
    "Anchor element without an href attribute. Line: " (by decide) (by decide)
  revert h2
  decide

/-- C11, amended: on `docImg` the full rule set records "Image element without
an alt attribute." with count 1 and exactly two other messages, the two
messages of the root-only rules `checkImgAlt` and `checkAnchorHref` with an
empty location, count 1 each; the heading rule and the title rule record
nothing. -/
theorem fullRuleSet_docImg :
    fullRuleSet docImg = some
      [("Image element without an alt attribute.", 1),
        ("Image element without an alt attribute. Line: ", 1),
        ("Anchor element without an href attribute. Line: ", 1)]
    ∧ checkImgAlt [(docImg, [])] docImg []
        = [("Image element without an alt attribute. Line: ", 1)]
    ∧ checkAnchorHref [(docImg, [])] docImg []
        = [("Anchor element without an href attribute. Line: ", 1)]
    ∧ checkHeading .nil docImg [] = some []
    ∧ checkTitle .nil docImg [] = [] := by
  decide

/-- C12: `hasAriaAttribute(node, suffix)` is true exactly when some attribute
key of the node is `"aria-" ++ suffix`; the keys `aria-labelledby` and `label`
do not match the suffix `label`, and the result is the same for any node type,
tag, children, and any namespaces and values of the attributes. -/
theorem hasAriaAttribute_exact_key (node : Node) (suffix : String) :
    (hasAriaAttribute node suffix = true ↔ ∃ a ∈ node.Attr, a.Key = "aria-" ++ suffix)
    ∧ hasAriaAttribute (element "button" [attr "aria-labelledby" "x"] [] .nil) "label" = false
    ∧ hasAriaAttribute (element "button" [attr "label" "x"] [] .nil) "label" = false
    ∧ hasAriaAttribute (element "button" [attr "aria-label" "x"] [] .nil) "label" = true
    ∧ ∀ (ty : NodeType) (d : String) (fc ns : Ptr) (ns2 val2 : Attribute → String),
        hasAriaAttribute
            (.mk ty d (node.Attr.map (fun a => ⟨ns2 a, a.Key, val2 a⟩)) fc ns) suffix
          = hasAriaAttribute node suffix := by
  refine ⟨hasAriaAttribute_iff node suffix, by decide, by decide, by decide, ?_⟩
  intro ty d fc ns ns2 val2
  rw [Bool.eq_iff_iff, hasAriaAttribute_iff, hasAriaAttribute_iff]
  simp [Node.Attr]

/-- C13: `checkImgAlt` looks at the attributes of the node it is given and at
nothing else of it: it returns the map unchanged exactly when the node has an
attribute with key `alt`, and otherwise raises by 1 the count of "Image element
without an alt attribute. Line: " followed by the location, and no other count;
`checkAnchorHref` does the same with the key `href`. -/
theorem checkImgAlt_checkAnchorHref_single_node (path : List (Node × List Node))
    (node : Node) (issues : Issues) :
    (checkImgAlt path node issues = issues ↔ ∃ a ∈ node.Attr, a.Key = "alt")
    ∧ (∀ k, (checkImgAlt path node issues).count k
        = issues.count k
          + (if (∀ a ∈ node.Attr, a.Key ≠ "alt")
                ∧ k = "Image element without an alt attribute. Line: " ++ getLine path
              then 1 else 0))
    ∧ (checkAnchorHref path node issues = issues ↔ ∃ a ∈ node.Attr, a.Key = "href")
    ∧ (∀ k, (checkAnchorHref path node issues).count k
        = issues.count k
          + (if (∀ a ∈ node.Attr, a.Key ≠ "href")
                ∧ k = "Anchor element without an href attribute. Line: " ++ getLine path
              then 1 else 0)) := by
  have halt : hasAltAttribute node = true ↔ ∃ a ∈ node.Attr, a.Key = "alt" := by
    unfold hasAltAttribute
    simp
  have hhref : hasHrefAttribute node = true ↔ ∃ a ∈ node.Attr, a.Key = "href" := by
    unfold hasHrefAttribute
    simp
  refine ⟨?_, ?_, ?_, ?_⟩
  · unfold checkImgAlt
    rw [← halt]
    by_cases h : hasAltAttribute node = true
    · simp [h]
    · simp [h, Issues.incr_ne]
  · intro k
    unfold checkImgAlt
    by_cases h : hasAltAttribute node = true
    · have h2 : ¬ ∀ a ∈ node.Attr, a.Key ≠ "alt" := by
        obtain ⟨a, ha, hk⟩ := halt.mp h
        exact fun hall => hall a ha hk
      simp [h, h2]
    · have h2 : ∀ a ∈ node.Attr, a.Key ≠ "alt" :=
        fun a ha hk => h (halt.mpr ⟨a, ha, hk⟩)
      rw [if_pos h, Issues.count_incr]
      by_cases hk : "Image element without an alt attribute. Line: " ++ getLine path = k
      · rw [if_pos hk, if_pos ⟨h2, hk.symm⟩]
      · rw [if_neg hk, if_neg (fun e => hk e.2.symm)]
  · unfold checkAnchorHref
    rw [← hhref]
    by_cases h : hasHrefAttribute node = true
    · simp [h]
    · simp [h, Issues.incr_ne]
  · intro k
    unfold checkAnchorHref
    by_cases h : hasHrefAttribute node = true
    · have h2 : ¬ ∀ a ∈ node.Attr, a.Key ≠ "href" := by
        obtain ⟨a, ha, hk⟩ := hhref.mp h
        exact fun hall => hall a ha hk
      simp [h, h2]
    · have h2 : ∀ a ∈ node.Attr, a.Key ≠ "href" :=
        fun a ha hk => h (hhref.mpr ⟨a, ha, hk⟩)
      rw [if_pos h, Issues.count_incr]
      by_cases hk : "Anchor element without an href attribute. Line: " ++ getLine path = k
      · rw [if_pos hk, if_pos ⟨h2, hk.symm⟩]
      · rw [if_neg hk, if_neg (fun e => hk e.2.symm)]

/-- C14: `checkArias` adds to "Button element with aria-controls attribute but
without an aria-label attribute." the number of `button` elements with the key
`aria-controls` and without the key `aria-label`, and to the message of the
tag `audio` or `video` the number of elements of that tag with the key
`aria-description` and without the key `aria-label`. -/
theorem checkArias_button_media_count (node : Node) (issues : Issues) :
    (checkArias node issues).count
        "Button element with aria-controls attribute but without an aria-label attribute."
      = issues.count
          "Button element with aria-controls attribute but without an aria-label attribute."
        + ((node.subtree.countP (ariaWithoutLabel "button" "aria-controls") : Nat) : Int)
    ∧ (checkArias node issues).count
        "audio element with aria-description attribute but without an aria-label attribute."
      = issues.count
          "audio element with aria-description attribute but without an aria-label attribute."
        + ((node.subtree.countP (ariaWithoutLabel "audio" "aria-description") : Nat) : Int)
    ∧ (checkArias node issues).count
        "video element with aria-description attribute but without an aria-label attribute."
      = issues.count
          "video element with aria-description attribute but without an aria-label attribute."
        + ((node.subtree.countP (ariaWithoutLabel "video" "aria-description") : Nat) : Int) := by
  refine ⟨?_, ?_, ?_⟩
  · rw [checkArias_eq_walk node .nil, walk_count_subtree]
    congr 2
    apply List.countP_congr
    intro n _
    simp [checkArias_switch_button]
  · rw [checkArias_eq_walk node .nil, walk_count_subtree]
    congr 2
    apply List.countP_congr
    intro n _
    have h := checkArias_switch_media "audio" (Or.inl rfl) n
    have e : "audio" ++ " element with aria-description attribute but without an aria-label attribute."
        = "audio element with aria-description attribute but without an aria-label attribute." := by
      decide
    rw [e] at h
    simp [h]
  · rw [checkArias_eq_walk node .nil, walk_count_subtree]
    congr 2
    apply List.countP_congr
    intro n _
    have h := checkArias_switch_media "video" (Or.inr rfl) n
    have e : "video" ++ " element with aria-description attribute but without an aria-label attribute."
        = "video element with aria-description attribute but without an aria-label attribute." := by
      decide
    rw [e] at h
    simp [h]

/-- C15, as claimed, fails: Go's `int` wraps, so `checkAltAttribute` on
`docImg`, from a map that holds its message 2^63 - 1 times, leaves the count
at -2^63, lower than before. -/
theorem runRule64_max_count_counterexample :
    ¬ (∀ out, runRule64 .checkAltAttribute docImg
          [("Image element without an alt attribute.", 9223372036854775807)] = some out →
        ∀ k, Issues.count [("Image element without an alt attribute.", 9223372036854775807)] k
          ≤ out.count k) := by
  intro h
  have h2 := h [("Image element without an alt attribute.", -9223372036854775808)]
    (by decide) "Image element without an alt attribute."
  revert h2
  decide

/-- C15, amended: a rule that completes on a Go map has recorded a list of
messages by 64-bit increments, at most one for each node of the tree; every key
present before is present afterwards, and a count is not lower than before
when it was at most 2^63 - 1 minus the number of nodes; one increment changes
the count of its message only, to the count plus 1 wrapped to 64 bits, which
is the count plus 1 below 2^63 - 1, starts an absent message at 1, and adds no
key but that message. -/
theorem runRule64_only_increments (r : RuleName) (doc : Node) (issues out : Issues)
    (hin : issues.inRange = true) (h : runRule64 r doc issues = some out) :
    (∃ msgs, msgs.length ≤ doc.subtree.length ∧ out = issues.record64 msgs)
    ∧ (∀ k, k ∈ issues.keys → k ∈ out.keys)
    ∧ (∀ k, issues.count k + (doc.subtree.length : Nat) ≤ 9223372036854775807 →
        issues.count k ≤ out.count k)
    ∧ (∀ msg k, (issues.incr64 msg).count k
        = if k = msg then wrap64 (issues.count k + 1) else issues.count k)
    ∧ (∀ msg, issues.count msg < 9223372036854775807 →
        (issues.incr64 msg).count msg = issues.count msg + 1)
    ∧ (∀ msg, msg ∉ issues.keys → (issues.incr64 msg).count msg = 1)
    ∧ (∀ msg k, k ∈ (issues.incr64 msg).keys ↔ k ∈ issues.keys ∨ k = msg) := by
  obtain ⟨msgs, hl, h64, hint⟩ := runRule64_record64 r doc issues out hin h
  refine ⟨⟨msgs, hl, h64⟩, ?_, ?_, Issues.count_incr64 issues, ?_, ?_,
    Issues.keys_incr64 issues⟩
  · intro k hk
    rw [hint, Issues.keys_int64, Issues.keys_record]
    exact Or.inl hk
  · intro k hb
    have hr := Issues.count_range issues hin k
    have hc : (msgs.count k : Int) ≤ (doc.subtree.length : Nat) := by
      exact_mod_cast le_trans (List.count_le_length _ _) hl
    rw [hint, Issues.count_int64, Issues.count_record, wrap64_eq_self _ (by omega) (by omega)]
    omega
  · intro msg hb
    have hr := Issues.count_range issues hin msg
    rw [Issues.count_incr64, if_pos rfl, wrap64_eq_self _ (by omega) (by omega)]
  · intro msg hmsg
    rw [Issues.count_incr64, if_pos rfl, Issues.count_of_not_mem_keys issues msg hmsg]
    rfl

/-- Witness of the amended C15: `checkAltAttribute` on `docImg`, from a Go map
that holds another message five times. -/
theorem runRule64_only_increments_witness :
    Issues.inRange [("x", 5)] = true
    ∧ runRule64 .checkAltAttribute docImg [("x", 5)]
        = some [("x", 5), ("Image element without an alt attribute.", 1)]
    ∧ ∀ k, k ∈ Issues.keys [("x", 5)]
        → k ∈ Issues.keys [("x", 5), ("Image element without an alt attribute.", 1)] :=
  ⟨by decide, by decide, (runRule64_only_increments .checkAltAttribute docImg [("x", 5)]
    [("x", 5), ("Image element without an alt attribute.", 1)] (by decide) (by decide)).2.1⟩

/-- C17: on a tree whose root is a document node without attributes, the
location of the root is empty, the full rule set completes when no tag
panics, and whenever it completes it leaves the two messages of the root-only
rules, with the empty location, at count 1 each; so the map is not empty and
the total of the report is at least 2. -/
theorem fullRuleSet_document_root (doc : Node) (hty : doc.Typ = .DocumentNode)
    (hattr : doc.Attr = []) :
    getLine [(doc, [])] = ""
    ∧ (panicFree doc = true → ∃ out, fullRuleSet doc = some out)
    ∧ ∀ out, fullRuleSet doc = some out →
        out.count "Image element without an alt attribute. Line: " = 1
        ∧ out.count "Anchor element without an href attribute. Line: " = 1
        ∧ 0 < out.length
        ∧ 2 ≤ totalIssues out := by
  refine ⟨getLine_document_root doc hty, fullRuleSet_isSome doc, ?_⟩
  intro out h
  have himg : out.count "Image element without an alt attribute. Line: " = 1 := by
    rw [fullRuleSet_count_root_rules doc out h _
      (fun r hr hr2 => runRule_tree_rule_count r hr hr2 doc _ (by decide)),
      checkImgAlt_document_root doc hty hattr, checkAnchorHref_document_root doc hty hattr,
      Issues.count_incr, Issues.count_incr]
    decide
  have hanchor : out.count "Anchor element without an href attribute. Line: " = 1 := by
    rw [fullRuleSet_count_root_rules doc out h _
      (fun r hr hr2 => runRule_tree_rule_count r hr hr2 doc _ (by decide)),
      checkImgAlt_document_root doc hty hattr, checkAnchorHref_document_root doc hty hattr,
      Issues.count_incr, Issues.count_incr]
    decide
  have hrec : ∃ msgs, out = Issues.record [] msgs := by
    rw [fullRuleSet_eq_runRules] at h
    rcases runRules_record ruleOrder doc with hn | ⟨msgs, hm⟩
    · rw [hn] at h
      cases h
    · rw [hm] at h
      cases h
      exact ⟨msgs, rfl⟩
  obtain ⟨msgs, rfl⟩ := hrec
  rw [Issues.count_record] at himg hanchor
  simp only [Issues.count, zero_add] at himg hanchor
  have hlen := count_add_count_le_length msgs
    "Image element without an alt attribute. Line: "
    "Anchor element without an href attribute. Line: " (by decide)
  have h2 : 2 ≤ msgs.length := by omega
  have hne : msgs ≠ [] := by
    intro e
    rw [e] at h2
    simp at h2
  have hpos := Issues.length_record_pos [] msgs hne
  refine ⟨by rw [Issues.count_record]; simpa [Issues.count] using himg,
    by rw [Issues.count_record]; simpa [Issues.count] using hanchor, hpos, ?_⟩
  unfold totalIssues
  rw [if_pos hpos, Issues.sum_record]
  simp only [List.map_nil, List.sum_nil, zero_add]
  exact_mod_cast h2

/-- Witness of C17 on `docImg`: the rule set completes and the total is at
least 2. -/
theorem fullRuleSet_document_root_witness :
    docImg.Typ = .DocumentNode ∧ docImg.Attr = []
    ∧ ∃ out, fullRuleSet docImg = some out
        ∧ out.count "Image element without an alt attribute. Line: " = 1
        ∧ out.count "Anchor element without an href attribute. Line: " = 1
        ∧ 2 ≤ totalIssues out := by
  have hw := fullRuleSet_document_root docImg (by decide) (by decide)
  obtain ⟨out, h⟩ := hw.2.1 (by decide)
  have hc := hw.2.2 out h
  exact ⟨by decide, by decide, out, h, hc.1, hc.2.1, hc.2.2.2⟩

/-- C18: on a parentless root whose tree contains a heading element,
`checkHeading` completes when no tag panics, and whenever it completes it has
raised "Heading element without a corresponding title element." by at least
1: the root has a heading in its subtree and its nil parent has no title. -/
theorem checkHeading_root_fires (doc : Node)
    (hh : ∃ m ∈ doc.subtree, isHeadingElement m = true) (issues : Issues) :
    ((∀ x ∈ doc.subtree, x.Typ = .ElementNode → x.Data ≠ "" ∧ x.Data ≠ "h") →
      ∃ out, checkHeading .nil doc issues = some out)
    ∧ ∀ out, checkHeading .nil doc issues = some out →
        issues.count "Heading element without a corresponding title element." + 1
          ≤ out.count "Heading element without a corresponding title element." := by
  refine ⟨?_, fun out h => checkHeading_root_count doc hh issues out h⟩
  intro hsafe
  exact Option.isSome_iff_exists.mp (checkHeading_isSome doc .nil issues hsafe)

/-- Witness of C18 on `docHeadingTitle`, whose `title` is inside `head`: the
count is 2, recorded at the root and at the `h1`. -/
theorem checkHeading_root_fires_witness :
    (∃ m ∈ docHeadingTitle.subtree, isHeadingElement m = true)
    ∧ checkHeading .nil docHeadingTitle []
        = some [("Heading element without a corresponding title element.", 2)]
    ∧ Issues.count [] "Heading element without a corresponding title element." + 1
        ≤ Issues.count [("Heading element without a corresponding title element.", 2)]
            "Heading element without a corresponding title element." :=
  ⟨by decide, by decide,
    (checkHeading_root_fires docHeadingTitle (by decide) []).2 _ (by decide)⟩

/-- C19, as claimed, fails: Go's `int` wraps, so `checkForm` on `docForm`,
from a map that holds its message 2^63 - 1 times, leaves the count at -2^63,
which is not the count before plus the count 1 of the run on the empty map. -/
theorem runRule64_additive_counterexample :
    ¬ (∀ out out0,
        runRule64 .checkForm docForm
          [("Form element without any corresponding label elements.", 9223372036854775807)]
          = some out →
        runRule64 .checkForm docForm [] = some out0 →
        ∀ m, out.count m
          = Issues.count
              [("Form element without any corresponding label elements.", 9223372036854775807)] m
            + out0.count m) := by
  intro h
  have h2 := h [("Form element without any corresponding label elements.", -9223372036854775808)]
    [("Form element without any corresponding label elements.", 1)]
    (by decide) (by decide) "Form element without any corresponding label elements."
  revert h2
  decide

/-- C19, amended: a rule panics on a Go map exactly when it panics on the
empty map, and when it completes the count of every message is its count before plus
its count after the run on the empty map, wrapped to 64 bits, which is that sum
whenever the sum is a value of Go's `int`; and calling the 23 rules from the
empty map in any order gives the same outcome as the order of `main`: both
panic, or both complete with the same count for every message and the same
keys. -/
theorem runRule64_additive_any_order (r : RuleName) (doc : Node) (issues : Issues)
    (hin : issues.inRange = true) :
    (runRule64 r doc issues = none ↔ runRule64 r doc [] = none)
    ∧ (∀ out out0, runRule64 r doc issues = some out → runRule64 r doc [] = some out0 →
        ∀ m, out.count m = wrap64 (issues.count m + out0.count m)
          ∧ (-9223372036854775808 ≤ issues.count m + out0.count m →
              issues.count m + out0.count m ≤ 9223372036854775807 →
              out.count m = issues.count m + out0.count m))
    ∧ ∀ order : List RuleName, order.Perm ruleOrder →
        (runRules order doc [] = none ↔ fullRuleSet doc = none)
        ∧ ∀ out out2, fullRuleSet doc = some out → runRules order doc [] = some out2 →
            (∀ m, out2.count m = out.count m) ∧ ∀ m, m ∈ out2.keys ↔ m ∈ out.keys := by
  refine ⟨?_, ?_, ?_⟩
  · rw [runRule64_of_inRange r doc issues hin, runRule64_of_inRange r doc [] rfl]
    have h := (runRule_of_nil r doc issues).1
    cases h1 : runRule r doc issues <;> cases h0 : runRule r doc [] <;> simp_all
  · intro out out0 h h0 m
    rw [runRule64_of_inRange r doc issues hin] at h
    rw [runRule64_of_inRange r doc [] rfl] at h0
    cases h1 : runRule r doc issues with
    | none => rw [h1] at h; cases h
    | some o =>
      cases h2 : runRule r doc [] with
      | none => rw [h2] at h0; cases h0
      | some o0 =>
        rw [h1] at h
        rw [h2] at h0
        simp only [Option.map_some', Option.some.injEq] at h h0
        subst h
        subst h0
        have hadd := ((runRule_of_nil r doc issues).2 o o0 h1 h2).1 m
        have hw : (Issues.int64 o).count m
            = wrap64 (issues.count m + (Issues.int64 o0).count m) := by
          rw [Issues.count_int64, Issues.count_int64, wrap64_wrap64_add, hadd]
        refine ⟨hw, fun hlo hhi => ?_⟩
        rw [hw, wrap64_eq_self _ hlo hhi]
  · intro order hp
    rw [fullRuleSet_eq_runRules]
    exact runRules_perm ruleOrder order hp doc []

/-- Witness of the amended C19: `checkForm` on `docForm` from a map that holds
its message three times, and the rules called on `docForm` in the reverse
order. -/
theorem runRule64_additive_any_order_witness :
    Issues.inRange [("Form element without any corresponding label elements.", 3)] = true
    ∧ runRule64 .checkForm docForm
        [("Form element without any corresponding label elements.", 3)]
      = some [("Form element without any corresponding label elements.", 4)]
    ∧ runRule64 .checkForm docForm []
      = some [("Form element without any corresponding label elements.", 1)]
    ∧ Issues.count [("Form element without any corresponding label elements.", 4)]
          "Form element without any corresponding label elements."
        = Issues.count [("Form element without any corresponding label elements.", 3)]
            "Form element without any corresponding label elements."
          + Issues.count [("Form element without any corresponding label elements.", 1)]
            "Form element without any corresponding label elements."
    ∧ ruleOrder.reverse.Perm ruleOrder
    ∧ ∃ out out2, fullRuleSet docForm = some out
        ∧ runRules ruleOrder.reverse docForm [] = some out2
        ∧ ∀ m, out2.count m = out.count m := by
  have hw := runRule64_additive_any_order .checkForm docForm
    [("Form element without any corresponding label elements.", 3)] (by decide)
  refine ⟨by decide, by decide, by decide,
    (hw.2.1 _ _ (by decide) (by decide)
      "Form element without any corresponding label elements.").2 (by decide) (by decide),
    List.reverse_perm ruleOrder, ?_⟩
  obtain ⟨out, h⟩ := fullRuleSet_isSome docForm (by decide)
  have hnone := (hw.2.2 ruleOrder.reverse (List.reverse_perm ruleOrder)).1
  cases h2 : runRules ruleOrder.reverse docForm [] with
  | none =>
    rw [hnone.mp h2] at h
    cases h
  | some out2 =>
    exact ⟨out, out2, h, rfl,
      ((hw.2.2 ruleOrder.reverse (List.reverse_perm ruleOrder)).2 out out2 h h2).1⟩

end AuditA11y
